import Mathlib

/-! OvenMediaEngine: segment publisher, HTTP server and WebRTC stream.

A shallow embedding of the parts of
`publishers/segment/segment_publisher.cpp` and
`publishers/segment/segment_stream/segment_stream_server.cpp`
that decide signed-URL admission, CORS matching, request URL parsing, the
session tables and their sweep, of `HttpServer::ProcessData` in
`http_server/http_server.cpp`, and of the VP8 picture id, the broadcast key and
the SDP offer of `publishers/webrtc/rtc_stream.cpp`, followed by theorems about
them.

Strings (`ov::String`, `std::string`) are lists of characters.
-/

namespace OME

/-! ## Strings -/

/-- An `ov::String`, as the list of its characters. -/
abbrev Str := List Char

/-- Modelled from the spec: `ov::String::HasPrefix` (base/ovlibrary/string.h is
not among the sources); true when the string starts with `pre`. -/
def HasPrefix (s pre : Str) : Bool := pre.isPrefixOf s

/-- Modelled from the spec: `ov::String::HasSuffix` (base/ovlibrary/string.h is
not among the sources); true when the string ends with `suf` ("matches by
suffix"). -/
def HasSuffix (s suf : Str) : Bool := suf.isSuffixOf s

/-- Modelled from the spec: `ov::String::Substring(start)` (string.h is not among
the sources); the rest of the string from index `start`. -/
def Substring (s : Str) (start : Nat) : Str := s.drop start

/-- Modelled from the spec: `ov::String::UpperCaseString` (string.h is not among
the sources); every character upper-cased. -/
def UpperCaseString (s : Str) : Str := s.map Char.toUpper

/-- Modelled from the spec: `ov::String::Split(separator)` (string.h is not among
the sources), for the one-character separators every call site passes: the
pieces between consecutive separators, empty pieces kept. -/
def Split (sep : Char) : Str → List Str
  | [] => [[]]
  | c :: cs =>
    if c = sep then [] :: Split sep cs
    else
      match Split sep cs with
      | [] => [[c]]
      | t :: ts => (c :: t) :: ts

/-! ## SegmentStreamServer: CORS and crossdomain.xml -/

/-- The two members of `SegmentStreamServer` that `SetCrossDomain` writes. -/
structure SegmentStreamServer where
  cors_urls : List Str
  cross_domain_xml : Str
deriving DecidableEq, Repr

/-- The constructor `SegmentStreamServer::SegmentStreamServer`. -/
def SegmentStreamServer.new : SegmentStreamServer :=
  { cors_urls := []
    cross_domain_xml :=
      ("<?xml version=\"1.0\" encoding=\"UTF-8\" ?>\n" ++
       "<!DOCTYPE cross-domain-policy SYSTEM \"http://www.adobe.com/xml/dtds/cross-domain-policy.dtd\">\n" ++
       "<cross-domain-policy>\n" ++
       "\t<allow-access-from domain=\"*\" secure=\"false\"/>\n" ++
       "\t<site-control permitted-cross-domain-policies=\"all\"/>\n" ++
       "</cross-domain-policy>").toList }

/-- The method `SegmentStreamServer::UrlExistCheck`: `find_if` with
`check_url == url`. -/
def UrlExistCheck (url_list : List Str) (check_url : Str) : Bool :=
  (url_list.find? (fun url => check_url == url)).isSome

/-- The idiom `if (!UrlExistCheck(list, u)) list.push_back(u)`. -/
def pushIfAbsent (url_list : List Str) (u : Str) : List Str :=
  if UrlExistCheck url_list u then url_list else url_list ++ [u]

/-- The local `http_prefix` of `SetCrossDomain`. -/
def http_prefix : Str := "http://".toList

/-- The local `https_prefix` of `SetCrossDomain`. -/
def https_prefix : Str := "https://".toList

/-- One iteration of the loop of `SetCrossDomain` for an entry other than `*`;
the state is `(crossdmain_urls, _cors_urls)`. -/
def crossDomainStep (url : Str) (st : List Str × List Str) : List Str × List Str :=
  if HasPrefix url http_prefix then
    (pushIfAbsent st.1 (Substring url http_prefix.length), pushIfAbsent st.2 url)
  else if HasPrefix url https_prefix then
    (pushIfAbsent st.1 (Substring url https_prefix.length), pushIfAbsent st.2 url)
  else
    (pushIfAbsent st.1 url,
     pushIfAbsent (pushIfAbsent st.2 ( http_prefix ++ url)) ( https_prefix ++ url))

/-- The loop of `SetCrossDomain`; `none` is the early return taken at an entry
`*` (both lists cleared). -/
def crossDomainLoop : List Str → List Str × List Str → Option (List Str × List Str)
  | [], st => some st
  | url :: rest, st =>
    if url = "*".toList then none
    else crossDomainLoop rest (crossDomainStep url st)

/-- The text of crossdomain.xml written at the end of `SetCrossDomain`. -/
def crossDomainXml (crossdmain_urls : List Str) : Str :=
  "<?xml version=\"1.0\"?>\r\n".toList ++
  "<cross-domain-policy>\r\n".toList ++
  (crossdmain_urls.map (fun url =>
      "    <allow-access-from domain=\"".toList ++ url ++ "\"/>\r\n".toList)).flatten ++
  "</cross-domain-policy>".toList

/-- The method `SegmentStreamServer::SetCrossDomain`. -/
def SetCrossDomain (s : SegmentStreamServer) (url_list : List Str) : SegmentStreamServer :=
  if url_list.isEmpty then s
  else
    match crossDomainLoop url_list ([], s.cors_urls) with
    | none => { s with cors_urls := [] }
    | some (crossdmain_urls, cors) =>
      { cors_urls := cors, cross_domain_xml := crossDomainXml crossdmain_urls }

/-- The predicate given to `find_if` in `SetAllowOrigin`. -/
def corsMatch (origin_url url : Str) : Bool :=
  if HasPrefix url "http://*.".toList then
    HasSuffix origin_url (Substring url "http://*".length)
  else if HasPrefix url "https://*.".toList then
    HasSuffix origin_url (Substring url "https://*".length)
  else origin_url == url

/-- The method `SegmentStreamServer::SetAllowOrigin`: the return value, and the value given
to the response header `Access-Control-Allow-Origin` (`none` when the header is
not set). -/
def SetAllowOrigin (s : SegmentStreamServer) (origin_url : Str) : Bool × Option Str :=
  if s.cors_urls.isEmpty then (true, some "*".toList)
  else
    match s.cors_urls.find? (corsMatch origin_url) with
    | none => (false, none)
    | some _ => (true, some origin_url)

/-! ## SegmentStreamServer::ParseRequestUrl -/

/-- The result of `ParseRequestUrl`: the return value and the four reference
parameters as they stand on return. -/
structure ParsedRequest where
  ok : Bool
  app_name : Str
  stream_name : Str
  file_name : Str
  file_ext : Str
deriving DecidableEq, Repr

/-- The method `SegmentStreamServer::ParseRequestUrl`; `init` holds the reference parameters
as passed in (`ProcessRequest` passes four empty strings). -/
def ParseRequestUrl (request_url : Str) (init : ParsedRequest) : ParsedRequest :=
  let tokens := Split '?' request_url
  match tokens with
  | [] => { init with ok := false }
  | request_path :: _ =>
    let tokens := Split '/' request_path
    if tokens.length < 3 then { init with ok := false }
    else
      let app_name := tokens.getD (tokens.length - 3) []
      let stream_name := tokens.getD (tokens.length - 2) []
      let file_name := tokens.getD (tokens.length - 1) []
      let tokens := Split '.' file_name
      if tokens.length ≠ 2 then
        { init with ok := false, app_name := app_name, stream_name := stream_name,
                    file_name := file_name }
      else
        { ok := true, app_name := app_name, stream_name := stream_name,
          file_name := file_name, file_ext := tokens.getD 1 [] }

/-- The four empty strings `ProcessRequest` declares before the call. -/
def ParsedRequest.empty : ParsedRequest :=
  { ok := false, app_name := [], stream_name := [], file_name := [], file_ext := [] }

/-! ## std::map and std::multimap keyed by std::string -/

/-- The methods `std::map::find` / `count` / `at`: the value stored under `k`. -/
def mapFind {β : Type} (t : List (Str × β)) (k : Str) : Option β :=
  (t.find? (fun e => e.1 == k)).map Prod.snd

/-- The assignment `table[k] = v` of a `std::map`: the value under `k` is
replaced, or a new entry is placed in key order. -/
def mapAssign {β : Type} : List (Str × β) → Str → β → List (Str × β)
  | [], k, v => [(k, v)]
  | e :: rest, k, v =>
    if e.1 = k then (k, v) :: rest
    else if k < e.1 then (k, v) :: e :: rest
    else e :: mapAssign rest k v

/-- The method `std::multimap::insert`: the new entry goes after every entry
whose key is not greater (the upper bound of its key). -/
def multimapInsert {β : Type} : List (Str × β) → Str → β → List (Str × β)
  | [], k, v => [(k, v)]
  | e :: rest, k, v =>
    if k < e.1 then (k, v) :: e :: rest
    else e :: multimapInsert rest k v

/-! ## Signed-URL admission (SegmentPublisher) -/

/-- The enumeration `PublisherType`, by its numeric value. -/
abbrev PublisherType := Nat

/-- The members of `PlaylistRequestInfo` (segment_publisher.h is not among the
sources; the members are those its constructor call and the spec list). -/
structure PlaylistRequestInfo where
  publisher_type : PublisherType
  app_name : Str
  stream_name : Str
  ip_address : Str
  session_id : Str
  created_time : Nat
deriving DecidableEq, Repr

/-- Modelled from the spec: `PlaylistRequestInfo::IsRequestFromSameUser`
(segment_publisher.h is not among the sources). The spec's grace rule admits "a
previously admitted session_id with the same client_ip": the same session id and
the same client IP. -/
def PlaylistRequestInfo.IsRequestFromSameUser (self rhs : PlaylistRequestInfo) : Bool :=
  rhs.session_id == self.session_id && rhs.ip_address == self.ip_address

/-- The member `_playlist_request_table`, a `std::map` keyed by session id. -/
abbrev PlaylistTable := List (Str × PlaylistRequestInfo)

/-- The method `SegmentPublisher::UpdatePlaylistRequestInfo`. -/
def UpdatePlaylistRequestInfo (table : PlaylistTable) (info : PlaylistRequestInfo) :
    PlaylistTable :=
  mapAssign table info.session_id info

/-- The method `SegmentPublisher::IsAuthorizedSession`. -/
def IsAuthorizedSession (table : PlaylistTable) (info : PlaylistRequestInfo) : Bool :=
  match mapFind table info.session_id with
  | some item => item.IsRequestFromSameUser info
  | none => false

/-- An `ov::SocketAddress`: what `GetIpAddress()` returns, and the port. -/
structure SocketAddress where
  ip_address : Str
  port : Nat
deriving DecidableEq, Repr

/-- Modelled from the spec: the class `SignedUrl` (modules/signed_url is not among
the sources). A decoded token is given by what its observers return at the time
of the request: `GetUrl`, `GetSessionID`, `IsTokenExpired`, `IsStreamExpired` and
`IsAllowedClient`. -/
structure SignedUrl where
  url : Str
  session_id : Str
  token_expired : Bool
  stream_expired : Bool
  allowed_client : SocketAddress → Bool

/-- The parts of a parsed `ov::Url` that the publisher reads: `Source()`,
`Domain()`, `ToUrlString(false)` (the URL without its query) and `QueryMap()`. -/
structure Url where
  source : Str
  domain : Str
  url_string_no_query : Str
  query_map : List (Str × Str)
deriving DecidableEq, Repr

/-- The signed-URL settings of a virtual host (`cfg::SignedUrl`). -/
structure SignedUrlConfig where
  is_parsed : Bool
  crypto_key : Str
  query_string_key : Str
deriving DecidableEq, Repr

/-- A virtual host of the server configuration. -/
structure VirtualHost where
  name : Str
  signed_url : SignedUrlConfig
deriving DecidableEq, Repr

/-- The request side of an `HttpClient`: the request URI and the remote address
(`none` for a null pointer). -/
structure HttpClient where
  uri : Str
  remote_address : Option SocketAddress
deriving DecidableEq, Repr

/-- A `SegmentStream`, by what `GetPlayList` yields (`none` when it fails). -/
structure SegmentStream where
  play_list : Option Str
deriving DecidableEq, Repr

/-- The collaborators of the publisher that are outside the sources, over a state
`W` of streams: `GetPublisherType`, `Orchestrator::GetVhostNameFromDomain`, the
configured virtual host list, `SignedUrl::Load(Type0, key, value)`,
`ov::Url::Encode`, `ov::Url::Parse`, the clock read by the constructor of
`PlaylistRequestInfo`, `GetStreamAs<SegmentStream>` and
`Orchestrator::RequestPullStream` (with or without an RTSP URI). -/
structure Env (W : Type) where
  publisher_type : PublisherType
  vhost_name_from_domain : Str → Str
  vhost_list : List VirtualHost
  load : Str → Str → Option SignedUrl
  url_encode : Str → Str
  url_parse : Str → Option Url
  now : Nat
  get_stream : W → Str → Str → Option SegmentStream
  request_pull_stream : W → Str → Str → Option Str → Bool × W

/-- The reasons `HandleSignedUrl` collects in `messages` (they go to the log). -/
inductive Reason where
  | tokenExpired
  | streamExpired
  | notAllowed
  | invalidUrl
deriving DecidableEq, Repr

/-- What `HandleSignedUrl` leaves behind: its return value, the reference
parameter `request_info` (`none` while it is still the null pointer the caller
passed), the playlist-request table and the logged reasons. -/
structure SignedUrlResult where
  ok : Bool
  request_info : Option PlaylistRequestInfo
  table : PlaylistTable
  messages : List Reason
deriving DecidableEq, Repr

/-- The string `url_to_compare` of `HandleSignedUrl`. -/
def urlToCompare {W : Type} (env : Env W) (request_url : Url) (rtsp_uri : Str) : Str :=
  request_url.url_string_no_query ++ "?rtspURI=".toList ++ env.url_encode rtsp_uri

/-- The `PlaylistRequestInfo` built at line 620 of `HandleSignedUrl` from the
publisher type, the names, the client IP and the session id of the token. -/
def makeRequestInfo {W : Type} (env : Env W) (app_name stream_name : Str)
    (remote_address : SocketAddress) (signed_url : SignedUrl) : PlaylistRequestInfo :=
  { publisher_type := env.publisher_type
    app_name := app_name
    stream_name := stream_name
    ip_address := remote_address.ip_address
    session_id := signed_url.session_id
    created_time := env.now }

/-- The four checks of `HandleSignedUrl` (lines 617-654): the flag `result` and
the list `messages` after them. -/
def signedUrlChecks (table : PlaylistTable) (remote_address : SocketAddress)
    (signed_url : SignedUrl) (request_info : PlaylistRequestInfo) (url_to_compare : Str) :
    Bool × List Reason :=
  let st0 : Bool × List Reason := (true, [])
  let st1 :=
    if signed_url.token_expired then
      if !IsAuthorizedSession table request_info then (false, st0.2 ++ [Reason.tokenExpired])
      else st0
    else st0
  let st2 :=
    if signed_url.stream_expired then (false, st1.2 ++ [Reason.streamExpired]) else st1
  let st3 :=
    if signed_url.allowed_client remote_address == false then
      (false, st2.2 ++ [Reason.notAllowed])
    else st2
  if UpperCaseString signed_url.url != UpperCaseString url_to_compare then
    (false, st3.2 ++ [Reason.invalidUrl])
  else st3

/-- The method `SegmentPublisher::HandleSignedUrl`. The loop over the virtual host list
returns at the first item whose name is `vhost_name`, so it is a `find?`. -/
def HandleSignedUrl {W : Type} (env : Env W) (table : PlaylistTable)
    (app_name stream_name : Str) (client : HttpClient) (request_url : Url) :
    SignedUrlResult :=
  let fail : SignedUrlResult :=
    { ok := false, request_info := none, table := table, messages := [] }
  let vhost_name := env.vhost_name_from_domain request_url.domain
  if vhost_name.isEmpty then fail
  else
    match env.vhost_list.find? (fun vhost_item => vhost_item.name == vhost_name) with
    | none => fail
    | some vhost_item =>
      let signed_url_config := vhost_item.signed_url
      if !signed_url_config.is_parsed || signed_url_config.crypto_key.isEmpty then
        { ok := true, request_info := none, table := table, messages := [] }
      else
        match client.remote_address with
        | none => fail
        | some remote_address =>
          match mapFind request_url.query_map signed_url_config.query_string_key with
          | none => fail
          | some item =>
            match mapFind request_url.query_map "rtspURI".toList with
            | none => fail
            | some rtsp_item =>
              match env.load signed_url_config.crypto_key item with
              | none => fail
              | some signed_url =>
                let url_to_compare := urlToCompare env request_url rtsp_item
                let request_info :=
                  makeRequestInfo env app_name stream_name remote_address signed_url
                let checks :=
                  signedUrlChecks table remote_address signed_url request_info url_to_compare
                if checks.1 == false then
                  { ok := false, request_info := some request_info, table := table,
                    messages := checks.2 }
                else
                  { ok := true, request_info := some request_info,
                    table := UpdatePlaylistRequestInfo table request_info, messages := [] }

/-! ## SegmentPublisher::OnPlayListRequest -/

/-- The status codes `OnPlayListRequest` sets. -/
inductive HttpStatusCode where
  | OK
  | Accepted
  | BadRequest
  | Forbidden
  | NotAcceptable
deriving DecidableEq, Repr

/-- The numeric value of a status code. -/
def HttpStatusCode.code : HttpStatusCode → Nat
  | .OK => 200
  | .Accepted => 202
  | .BadRequest => 400
  | .Forbidden => 403
  | .NotAcceptable => 406

/-- The calls `OnPlayListRequest` makes, in order: `HandleSignedUrl` (with its
return value), `GetStreamAs` and `Orchestrator::RequestPullStream`. -/
inductive Event where
  | signedUrl (result : Bool)
  | getStream (app_name stream_name : Str)
  | requestPull (app_name stream_name : Str) (rtsp_uri : Option Str)
deriving DecidableEq, Repr

/-- What `OnPlayListRequest` leaves behind: its return value, the status code set
on the response (`none` when `SetStatusCode` is not called), the playlist written
to the reference parameter, the playlist-request table, the state of the streams
and the calls made. -/
structure PlayListResponse (W : Type) where
  ret : Bool
  status : Option HttpStatusCode
  play_list : Option Str
  table : PlaylistTable
  world : W
  events : List Event

/-- The tail of `OnPlayListRequest` from line 192: the stream after the lookups,
then `GetPlayList`. -/
def finishPlayList {W : Type} (table : PlaylistTable) (w : W) (events : List Event)
    (stream : Option SegmentStream) : PlayListResponse W :=
  match stream with
  | none =>
    { ret := false, status := none, play_list := none, table := table, world := w,
      events := events }
  | some s =>
    match s.play_list with
    | none =>
      { ret := true, status := some .Accepted, play_list := none, table := table,
        world := w, events := events }
    | some pl =>
      { ret := true, status := some .OK, play_list := some pl, table := table,
        world := w, events := events }

/-- The test of lines 124-126 on the application name. -/
def isRtspApp (app_name : Str) : Bool :=
  HasSuffix app_name "#rtsp_live".toList || HasSuffix app_name "#rtsp_playback".toList ||
  HasSuffix app_name "#rtsp_live_insecure".toList ||
  HasSuffix app_name "#rtsp_playback_insecure".toList

/-- Lines 117-210 of `OnPlayListRequest`: the stream lookup, the pull request
and the playlist. -/
def lookupAndServe {W : Type} (env : Env W) (w : W) (table : PlaylistTable)
    (app_name stream_name : Str) (parsed_url : Url) (events : List Event) :
    PlayListResponse W :=
  let events := events ++ [Event.getStream app_name stream_name]
  match env.get_stream w app_name stream_name with
  | some s => finishPlayList table w events (some s)
  | none =>
    if isRtspApp app_name then
      match mapFind parsed_url.query_map "rtspURI".toList with
      | none =>
        { ret := true, status := some .BadRequest, play_list := none, table := table,
          world := w, events := events }
      | some rtsp_uri =>
        let pulled := env.request_pull_stream w app_name stream_name (some rtsp_uri)
        let events := events ++ [Event.requestPull app_name stream_name (some rtsp_uri)]
        if pulled.1 == false then
          { ret := true, status := some .NotAcceptable, play_list := none, table := table,
            world := pulled.2, events := events }
        else
          finishPlayList table pulled.2 (events ++ [Event.getStream app_name stream_name])
            (env.get_stream pulled.2 app_name stream_name)
    else
      let pulled := env.request_pull_stream w app_name stream_name none
      let events := events ++ [Event.requestPull app_name stream_name none]
      if pulled.1 == false then
        { ret := true, status := some .NotAcceptable, play_list := none, table := table,
          world := pulled.2, events := events }
      else
        finishPlayList table pulled.2 (events ++ [Event.getStream app_name stream_name])
          (env.get_stream pulled.2 app_name stream_name)

/-- The method `SegmentPublisher::OnPlayListRequest` (the parameter `file_name` is
only logged). -/
def OnPlayListRequest {W : Type} (env : Env W) (w : W) (table : PlaylistTable)
    (client : HttpClient) (app_name stream_name : Str) : PlayListResponse W :=
  match env.url_parse client.uri with
  | none =>
    { ret := true, status := some .BadRequest, play_list := none, table := table,
      world := w, events := [] }
  | some parsed_url =>
    if HasSuffix app_name "_insecure".toList == false then
      let r := HandleSignedUrl env table app_name stream_name client parsed_url
      if r.ok == false then
        { ret := true, status := some .Forbidden, play_list := none, table := r.table,
          world := w, events := [Event.signedUrl false] }
      else
        lookupAndServe env w r.table app_name stream_name parsed_url [Event.signedUrl true]
    else
      lookupAndServe env w table app_name stream_name parsed_url []

/-! ## SegmentPublisher::UpdateSegmentRequestInfo -/

/-- An `info::Stream`, by its application name, name and id. -/
structure StreamInfo where
  app_name : Str
  name : Str
  id : Nat
deriving DecidableEq, Repr

/-- The members of `SegmentRequestInfo` (segment_publisher.h is not among the
sources; the members are those its constructor call and the spec list). -/
structure SegmentRequestInfo where
  publisher_type : PublisherType
  stream_info : StreamInfo
  ip_address : Str
  sequence_number : Int
  duration : Int
  count : Nat
  last_requested_time : Nat
deriving DecidableEq, Repr

/-- The method `SegmentRequestInfo::SetCount`. -/
def SegmentRequestInfo.SetCount (self : SegmentRequestInfo) (count : Nat) :
    SegmentRequestInfo :=
  { self with count := count }

/-- The member `_segment_request_table`, a `std::multimap` keyed by client IP. -/
abbrev SegmentTable := List (Str × SegmentRequestInfo)

/-- The state `UpdateSegmentRequestInfo` works on: the segment-request table and
the calls of `OnSessionConnected` made so far on stream metrics. -/
structure SessionState where
  table : SegmentTable
  connected : List (StreamInfo × PublisherType)
deriving DecidableEq, Repr

/-- The collaborators of `UpdateSegmentRequestInfo` outside the sources:
`SegmentRequestInfo::IsNextRequest` and whether `StreamMetrics(info)` is
non-null. -/
structure SessionEnv where
  is_next_request : SegmentRequestInfo → SegmentRequestInfo → Bool
  has_metrics : StreamInfo → Bool

/-- The loop of lines 462-480 over `equal_range(ip)`: the first entry stored under
`ip` for which `IsNextRequest(info)` holds is erased; the result is that entry
and the table without it, or `none` when the loop ends without a match. -/
def eraseNextRequest (env : SessionEnv) (info : SegmentRequestInfo) :
    SegmentTable → Option (SegmentRequestInfo × SegmentTable)
  | [] => none
  | e :: rest =>
    if e.1 = info.ip_address then
      if env.is_next_request e.2 info then some (e.2, rest)
      else (eraseNextRequest env info rest).map (fun r => (r.1, e :: r.2))
    else (eraseNextRequest env info rest).map (fun r => (r.1, e :: r.2))

/-- The method `SegmentPublisher::UpdateSegmentRequestInfo`: the new state and `info` as the
call leaves it (it is passed by reference). -/
def UpdateSegmentRequestInfo (env : SessionEnv) (st : SessionState)
    (info : SegmentRequestInfo) : SessionState × SegmentRequestInfo :=
  match eraseNextRequest env info st.table with
  | some (item, table) =>
    let count := item.count
    let info := info.SetCount count
    ({ table := multimapInsert table info.ip_address info, connected := st.connected }, info)
  | none =>
    let table := multimapInsert st.table info.ip_address info
    if env.has_metrics info.stream_info then
      ({ table := table,
         connected := st.connected ++ [(info.stream_info, info.publisher_type)] }, info)
    else ({ table := table, connected := st.connected }, info)

/-! ## A concrete deployment, for the scenarios of the spec

Virtual host `default` with `CryptoKey = K` and `QueryStringKey = t`, reached
through the domain `host`; tokens for the session ids `S1` and `S2`, allowing the
client `1.2.3.4`. The state of the streams is whether the stream exists. -/

/-- The virtual host `default` of the deployment. -/
def demoVhost : VirtualHost :=
  { name := "default".toList
    signed_url :=
      { is_parsed := true, crypto_key := "K".toList, query_string_key := "t".toList } }

/-- A token that signs `http://host/app/s/idx.m3u8?rtspURI=cam1` for the client
`1.2.3.4`, with the stream window open. -/
def demoToken (expired : Bool) (session_id : Str) : SignedUrl :=
  { url := "http://host/app/s/idx.m3u8?rtspURI=cam1".toList
    session_id := session_id
    token_expired := expired
    stream_expired := false
    allowed_client := fun a => a.ip_address == "1.2.3.4".toList }

/-- The request URL `http://host/app/s/idx.m3u8` with the given query map. -/
def demoUrl (query_map : List (Str × Str)) : Url :=
  { source := "http://host/app/s/idx.m3u8".toList
    domain := "host".toList
    url_string_no_query := "http://host/app/s/idx.m3u8".toList
    query_map := query_map }

/-- The decoder of the deployment: under the key `K`, the value `fresh` is an
unexpired token of session `S1`, `stale` an expired token of session `S1`,
`stale2` an expired token of session `S2`, and `plain` an unexpired token of
session `S1` that signs the request URL without any query. -/
def demoLoad (crypto_key value : Str) : Option SignedUrl :=
  if crypto_key = "K".toList then
    if value = "fresh".toList then some (demoToken false "S1".toList)
    else if value = "stale".toList then some (demoToken true "S1".toList)
    else if value = "stale2".toList then some (demoToken true "S2".toList)
    else if value = "plain".toList then
      some { demoToken false "S1".toList with url := "http://host/app/s/idx.m3u8".toList }
    else none
  else none

/-- The request URIs of the scenarios and their parsed form. -/
def demoParse (uri : Str) : Option Url :=
  if uri = "/app/s/idx.m3u8?t=fresh".toList then
    some (demoUrl [("t".toList, "fresh".toList)])
  else if uri = "/app/s/idx.m3u8?t=plain".toList then
    some (demoUrl [("t".toList, "plain".toList)])
  else if uri = "/app/s/idx.m3u8?rtspURI=cam1&t=fresh".toList then
    some (demoUrl [("rtspURI".toList, "cam1".toList), ("t".toList, "fresh".toList)])
  else if uri = "/app/s/idx.m3u8?rtspURI=cam1&t=stale".toList then
    some (demoUrl [("rtspURI".toList, "cam1".toList), ("t".toList, "stale".toList)])
  else if uri = "/app/s/idx.m3u8".toList then some (demoUrl [])
  else none

/-- The collaborators of the deployment: every pull request succeeds and creates
the stream. -/
def demoEnv : Env Bool :=
  { publisher_type := 4
    vhost_name_from_domain := fun d => if d = "host".toList then "default".toList else []
    vhost_list := [demoVhost]
    load := demoLoad
    url_encode := id
    url_parse := demoParse
    now := 0
    get_stream := fun w _ _ => if w then some { play_list := some "#EXTM3U".toList } else none
    request_pull_stream := fun _ _ _ _ => (true, true) }

/-- A client at the given IP address asking for the given URI. -/
def demoClient (ip uri : String) : HttpClient :=
  { uri := uri.toList, remote_address := some { ip_address := ip.toList, port := 50000 } }

/-- The entries one URL of the configured list adds to the CORS list in
`SetCrossDomain`: the URL itself when it starts with `http://` or `https://`,
otherwise the URL under both schemes. -/
def corsEntries (url : Str) : List Str :=
  if HasPrefix url http_prefix then [url]
  else if HasPrefix url https_prefix then [url]
  else [ http_prefix ++ url, https_prefix ++ url]

/-- A session environment for the scenarios: a request continues an entry when
its sequence number is 1 or 2 above the one of the entry, and every stream has
metrics. -/
def demoSessionEnv : SessionEnv :=
  { is_next_request := fun e info =>
      info.sequence_number == e.sequence_number + 1 ||
        info.sequence_number == e.sequence_number + 2
    has_metrics := fun _ => true }

/-- A segment request of the scenarios, for the stream `app/s`. -/
def demoSegmentRequest (ip : String) (sequence_number : Int) (count : Nat) :
    SegmentRequestInfo :=
  { publisher_type := 4
    stream_info := { app_name := "app".toList, name := "s".toList, id := 1 }
    ip_address := ip.toList
    sequence_number := sequence_number
    duration := 5
    count := count
    last_requested_time := 0 }

/-- A table of the scenarios: two sessions of `1.2.3.4` (at segments 7 and 20) and
one of `9.9.9.9` (at segment 7). -/
def demoSegmentTable : SegmentTable :=
  [("1.2.3.4".toList, demoSegmentRequest "1.2.3.4" 7 3),
   ("1.2.3.4".toList, demoSegmentRequest "1.2.3.4" 20 1),
   ("9.9.9.9".toList, demoSegmentRequest "9.9.9.9" 7 2)]

/-! ## SegmentPublisher::RequestTableUpdateThread: one pass of the sweep -/

/-- The collaborators of the sweep outside the sources:
`SegmentRequestInfo::IsExpiredRequest`, `PlaylistRequestInfo::IsTooOld` (both read
the clock) and whether `StreamMetrics(info)` is non-null. -/
structure SweepEnv where
  is_expired_request : SegmentRequestInfo → Bool
  is_too_old : PlaylistRequestInfo → Bool
  has_metrics : StreamInfo → Bool

/-- The loop of lines 318-379 over `_segment_request_table`: the table it leaves
and the calls of `OnSessionDisconnected`, in order. An expired entry is erased
whether or not its stream has metrics. -/
def sweepSegmentTable (env : SweepEnv) :
    SegmentTable → SegmentTable × List (StreamInfo × PublisherType)
  | [] => ([], [])
  | item :: rest =>
    let r := sweepSegmentTable env rest
    if env.is_expired_request item.2 then
      if env.has_metrics item.2.stream_info then
        (r.1, (item.2.stream_info, item.2.publisher_type) :: r.2)
      else (r.1, r.2)
    else (item :: r.1, r.2)

/-- The loop of lines 385-400 over `_playlist_request_table`. -/
def sweepPlaylistTable (env : SweepEnv) : PlaylistTable → PlaylistTable
  | [] => []
  | item :: rest =>
    if env.is_too_old item.2 then sweepPlaylistTable env rest
    else item :: sweepPlaylistTable env rest

/-- What one pass of the loop of `RequestTableUpdateThread` leaves behind. -/
structure SweepResult where
  segment_table : SegmentTable
  playlist_table : PlaylistTable
  disconnected : List (StreamInfo × PublisherType)
deriving DecidableEq, Repr

/-- One pass of the `while` loop of `SegmentPublisher::RequestTableUpdateThread`
(lines 314-402; the connection-count log of lines 270-312 writes no state). -/
def RequestTableUpdatePass (env : SweepEnv) (segment_table : SegmentTable)
    (playlist_table : PlaylistTable) : SweepResult :=
  let swept := sweepSegmentTable env segment_table
  { segment_table := swept.1
    playlist_table := sweepPlaylistTable env playlist_table
    disconnected := swept.2 }

/-! ## SegmentPublisher::OnSegmentRequest -/

/-- A `SegmentData`: its sequence number, its duration and its `data` pointer
(`none` for a null pointer, the case the code logs as having no segment data). -/
structure SegmentData where
  sequence_number : Int
  duration : Int
  data : Option (List Nat)
deriving DecidableEq, Repr

/-- A `SegmentStream` as `OnSegmentRequest` uses it: its `info::Stream` and
`GetSegmentData(file_name)` (`none` for a null pointer). -/
structure StreamSegments where
  info : StreamInfo
  get_segment_data : Str → Option SegmentData

/-- The collaborators of `OnSegmentRequest` outside the sources:
`GetPublisherType`, `GetStreamAs<SegmentStream>`, the clock read by the
constructor of `SegmentRequestInfo`, and those of `UpdateSegmentRequestInfo`. -/
structure SegmentRequestEnv where
  publisher_type : PublisherType
  get_stream : Str → Str → Option StreamSegments
  now : Nat
  session : SessionEnv

/-- Modelled from the spec: the constructor of `SegmentRequestInfo`
(segment_publisher.h is not among the sources): the five arguments are stored,
the count starts at 0 and `last_seen` is the time of the request. -/
def SegmentRequestInfo.create (publisher_type : PublisherType) (stream_info : StreamInfo)
    (ip_address : Str) (sequence_number duration : Int) (now : Nat) : SegmentRequestInfo :=
  { publisher_type := publisher_type
    stream_info := stream_info
    ip_address := ip_address
    sequence_number := sequence_number
    duration := duration
    count := 0
    last_requested_time := now }

/-- What `OnSegmentRequest` leaves behind: its return value, the reference
parameter `segment` and the session state. -/
structure SegmentResponse where
  ret : Bool
  segment : Option SegmentData
  state : SessionState
deriving DecidableEq, Repr

/-- The method `SegmentPublisher::OnSegmentRequest`. The client enters through its
remote address, which the function reads without a null test; `segment` is the
reference parameter as passed in. -/
def OnSegmentRequest (env : SegmentRequestEnv) (st : SessionState)
    (remote_address : SocketAddress) (app_name stream_name file_name : Str)
    (segment : Option SegmentData) : SegmentResponse :=
  match env.get_stream app_name stream_name with
  | some stream =>
    match stream.get_segment_data file_name with
    | none => { ret := false, segment := none, state := st }
    | some seg =>
      match seg.data with
      | none => { ret := false, segment := some seg, state := st }
      | some _ =>
        let request_info :=
          SegmentRequestInfo.create env.publisher_type stream.info remote_address.ip_address
            seg.sequence_number seg.duration env.now
        { ret := true, segment := some seg,
          state := (UpdateSegmentRequestInfo env.session st request_info).1 }
  | none => { ret := false, segment := segment, state := st }

/-- A sweep environment for the scenarios: a segment request is expired when it
was last seen at time 0, a playlist request is too old when it was created at
time 0, and only the stream with id 1 has metrics. -/
def demoSweepEnv : SweepEnv :=
  { is_expired_request := fun info => info.last_requested_time == 0
    is_too_old := fun info => info.created_time == 0
    has_metrics := fun s => s.id == 1 }

/-- The stream `app/s` of the scenarios, holding the segment `seg7.ts` (number 7,
duration 5), the segment `null.ts` without data, and nothing else. -/
def demoStreamSegments : StreamSegments :=
  { info := { app_name := "app".toList, name := "s".toList, id := 1 }
    get_segment_data := fun file_name =>
      if file_name = "seg7.ts".toList then
        some { sequence_number := 7, duration := 5, data := some [71, 64, 0] }
      else if file_name = "null.ts".toList then
        some { sequence_number := 8, duration := 5, data := none }
      else none }

/-- The collaborators of `OnSegmentRequest` in the scenarios. -/
def demoSegmentEnv : SegmentRequestEnv :=
  { publisher_type := 4
    get_stream := fun app_name stream_name =>
      if app_name = "app".toList ∧ stream_name = "s".toList then some demoStreamSegments
      else none
    now := 100
    session := demoSessionEnv }

/-- The deployment with the signed-URL feature switched off: the virtual host
`default` has an empty crypto key. -/
def demoOpenEnv : Env Bool :=
  { demoEnv with
    vhost_list :=
      [{ name := "default".toList
         signed_url := { is_parsed := true, crypto_key := [], query_string_key := [] } }] }

/-- The argument `OnPlayListRequest` gives to `RequestPullStream` when the stream
is absent (lines 124-189): for an application name with one of the RTSP suffixes
it is the query parameter `rtspURI`, and no pull is requested when that parameter
is missing (`none`); for every other application the pull is requested without
a URI (`some none`). -/
def pullArgument (app_name : Str) (parsed_url : Url) : Option (Option Str) :=
  if isRtspApp app_name then
    (mapFind parsed_url.query_map "rtspURI".toList).map some
  else some none

/-! ## HttpServer::ProcessData -/

/-- The values of `request->ParseStatus()` that `ProcessData` tells apart: `OK`,
`PartialContent`, and any other status code (the `default` branch). -/
inductive ParseStatus where
  | OK
  | PartialContent
  | Failed
deriving DecidableEq, Repr

/-- The enumeration `HttpInterceptorResult`. -/
inductive HttpInterceptorResult where
  | Keep
  | Disconnect
deriving DecidableEq, Repr

/-- An `HttpRequestInterceptor`: its identity (interceptors are compared as
pointers) and its virtual methods `IsInterceptorForRequest`, `OnHttpPrepare` and
`OnHttpData`, as functions of what the request has parsed (`P`). -/
structure HttpRequestInterceptor (P : Type) where
  id : Nat
  is_interceptor_for_request : P → Bool
  on_http_prepare : P → HttpInterceptorResult
  on_http_data : P → List Nat → HttpInterceptorResult

/-- An `HttpRequest` as `ProcessData` reads it: `ParseStatus()`, what has been
parsed, `GetRequestInterceptor()` (`none` for a null pointer),
`GetHttpVersionAsNumber()` in tenths (10 for HTTP/1.0, 11 for HTTP/1.1) and the
value the request holds for a header name (`none` when it has no such header). -/
structure HttpRequest (P : Type) where
  parse_status : ParseStatus
  parse_info : P
  request_interceptor : Option (HttpRequestInterceptor P)
  http_version_tenths : Nat
  header : Str → Option Str

/-- Modelled from the spec: `HttpRequest::GetHeader(key, default_value)`
(http_request.h is not among the sources): the value of the header, or the
default when the request has no such header. -/
def HttpRequest.GetHeader {P : Type} (request : HttpRequest P) (key default_value : Str) :
    Str :=
  (request.header key).getD default_value

/-- The collaborators of `HttpServer::ProcessData`: the member `_interceptor_list`
in registration order, and the methods `HttpRequest::ProcessData(data)` (the
processed length and the request after parsing) and `HttpRequest::InitParseInfo`,
which are outside the sources. -/
structure HttpServerEnv (P : Type) where
  interceptor_list : List (HttpRequestInterceptor P)
  process_data : HttpRequest P → List Nat → Int × HttpRequest P
  init_parse_info : HttpRequest P → HttpRequest P

/-- The calls `HttpServer::ProcessData` makes, in order. -/
inductive HttpEvent where
  | initParseInfo
  | isInterceptorForRequest (id : Nat)
  | setRequestInterceptor (id : Nat)
  | setStatusCode (code : Nat)
  | onHttpPrepare (id : Nat)
  | onHttpData (id : Nat) (data : List Nat)
  | onHttpError (id : Nat) (code : Nat)
  | response
  | close
deriving DecidableEq, Repr

/-- The method `HttpServer::AddInterceptor`: the new list and the return value. -/
def AddInterceptor {P : Type} (interceptor_list : List (HttpRequestInterceptor P))
    (interceptor : HttpRequestInterceptor P) : List (HttpRequestInterceptor P) × Bool :=
  if (interceptor_list.find? (fun value => value.id == interceptor.id)).isSome then
    (interceptor_list, false)
  else (interceptor_list ++ [interceptor], true)

/-- The loop of lines 161-168: the interceptors are asked in list order and the
first one that accepts the request is bound; the calls made and the interceptor
bound (`none` when no interceptor accepts). -/
def findInterceptor {P : Type} (parsed : P) :
    List (HttpRequestInterceptor P) → List HttpEvent × Option (HttpRequestInterceptor P)
  | [] => ([], none)
  | interceptor :: rest =>
    if interceptor.is_interceptor_for_request parsed then
      ([HttpEvent.isInterceptorForRequest interceptor.id,
        HttpEvent.setRequestInterceptor interceptor.id], some interceptor)
    else
      let r := findInterceptor parsed rest
      (HttpEvent.isInterceptorForRequest interceptor.id :: r.1, r.2)

/-- The condition of lines 121-122 under which the parse state is reinitialized. -/
def keepAliveCondition {P : Type} (request : HttpRequest P) : Bool :=
  (decide (request.http_version_tenths > 10) &&
      request.GetHeader "Connection".toList "keep-alive".toList == "keep-alive".toList) ||
    (decide (request.http_version_tenths ≤ 10) &&
      request.GetHeader "Connection".toList "close".toList == "keep-alive".toList)

/-- Whether lines 119-126 call `InitParseInfo`. -/
def reinitializes {P : Type} (request : HttpRequest P) : Bool :=
  request.parse_status == ParseStatus.OK && request.request_interceptor.isSome &&
    keepAliveCondition request

/-- The request as it enters the `switch` of line 128. -/
def afterKeepAlive {P : Type} (env : HttpServerEnv P) (request : HttpRequest P) :
    HttpRequest P :=
  if reinitializes request then env.init_parse_info request else request

/-- What `HttpServer::ProcessData` leaves behind: the request, the calls made and
the flag `need_to_disconnect`. -/
structure ProcessDataResult (P : Type) where
  request : HttpRequest P
  events : List HttpEvent
  need_to_disconnect : Bool

/-- Lines 214-219: the response is sent and closed when the flag is set. -/
def finishProcessData {P : Type} (request : HttpRequest P) (events : List HttpEvent)
    (need_to_disconnect : Bool) : ProcessDataResult P :=
  { request := request
    events := events ++ (if need_to_disconnect then [HttpEvent.response, HttpEvent.close]
      else [])
    need_to_disconnect := need_to_disconnect }

/-- The method `HttpServer::ProcessData` for a non-null client. In lines 188-189
the operator `||` skips `OnHttpPrepare` when no interceptor is bound and skips
`OnHttpData` when `OnHttpPrepare` asked to disconnect. -/
def ProcessData {P : Type} (env : HttpServerEnv P) (request : HttpRequest P)
    (data : List Nat) : ProcessDataResult P :=
  let events := if reinitializes request then [HttpEvent.initParseInfo] else []
  let request := afterKeepAlive env request
  match request.parse_status with
  | .OK =>
    match request.request_interceptor with
    | some interceptor =>
      finishProcessData request
        (events ++ [HttpEvent.onHttpData interceptor.id data])
        (interceptor.on_http_data request.parse_info data == .Disconnect)
    | none => finishProcessData request events true
  | .PartialContent =>
    let parsed := env.process_data request data
    if 0 ≤ parsed.1 then
      if parsed.2.parse_status == .OK then
        let found := findInterceptor parsed.2.parse_info env.interceptor_list
        let request :=
          match found.2 with
          | some interceptor => { parsed.2 with request_interceptor := some interceptor }
          | none => parsed.2
        match request.request_interceptor with
        | none =>
          finishProcessData request (events ++ found.1 ++ [HttpEvent.setStatusCode 500]) true
        | some interceptor =>
          if interceptor.on_http_prepare request.parse_info == .Disconnect then
            finishProcessData request
              (events ++ found.1 ++ [HttpEvent.onHttpPrepare interceptor.id]) true
          else
            finishProcessData request
              (events ++ found.1 ++ [HttpEvent.onHttpPrepare interceptor.id,
                HttpEvent.onHttpData interceptor.id (data.drop parsed.1.toNat)])
              (interceptor.on_http_data request.parse_info (data.drop parsed.1.toNat) ==
                .Disconnect)
      else finishProcessData parsed.2 events false
    else
      finishProcessData parsed.2
        (events ++
          match parsed.2.request_interceptor with
          | some interceptor => [HttpEvent.onHttpError interceptor.id 400]
          | none => [])
        true
  | .Failed => finishProcessData request events true

/-- A parser for the scenarios: the header ends at the first byte 10; what is
parsed is the header bytes. -/
def demoProcessData (request : HttpRequest (List Nat)) (data : List Nat) :
    Int × HttpRequest (List Nat) :=
  if 10 ∈ data then
    (((data.takeWhile (fun b => b != 10)).length + 1 : Nat),
      { request with
        parse_status := .OK
        parse_info := request.parse_info ++ data.takeWhile (fun b => b != 10) })
  else ((data.length : Nat), { request with parse_info := request.parse_info ++ data })

/-- An interceptor of the scenarios that accepts headers starting with the byte
`first` and, when its flag `refuse` is set, asks to disconnect in
`OnHttpPrepare`. -/
def demoInterceptor (id first : Nat) (refuse : Bool) : HttpRequestInterceptor (List Nat) :=
  { id := id
    is_interceptor_for_request := fun parsed => parsed.head? == some first
    on_http_prepare := fun _ => if refuse then .Disconnect else .Keep
    on_http_data := fun _ _ => .Keep }

/-- An HTTP server of the scenarios with three interceptors, registered in the
order 1, 2, 3: the first accepts headers starting with 87, the other two accept
headers starting with 71. -/
def demoHttpEnv (refuse : Bool) : HttpServerEnv (List Nat) :=
  { interceptor_list :=
      [demoInterceptor 1 87 false, demoInterceptor 2 71 refuse, demoInterceptor 3 71 false]
    process_data := demoProcessData
    init_parse_info := fun request =>
      { request with parse_status := .PartialContent, parse_info := [] } }

/-- A request of the scenarios whose header is not parsed yet. -/
def demoFreshRequest : HttpRequest (List Nat) :=
  { parse_status := .PartialContent
    parse_info := []
    request_interceptor := none
    http_version_tenths := 11
    header := fun _ => none }

/-- A request of the scenarios that is parsed and bound to the interceptor 2, with
the given HTTP version and `Connection` header. -/
def demoBoundRequest (http_version_tenths : Nat) (connection : Option String) :
    HttpRequest (List Nat) :=
  { parse_status := .OK
    parse_info := [71, 69, 84]
    request_interceptor := some (demoInterceptor 2 71 false)
    http_version_tenths := http_version_tenths
    header := fun key =>
      if key = "Connection".toList then connection.map String.toList else none }

/-! ## RtcStream: the VP8 picture id -/

/-- The value the constructor `RtcStream::RtcStream` gives to `_vp8_picture_id`. -/
def initialVP8PictureID : Nat := 0x8000

/-- The method `RtcStream::AllocateVP8PictureID` on the 16-bit member
`_vp8_picture_id`: the value stored afterwards and the value returned. -/
def AllocateVP8PictureID (vp8_picture_id : Nat) : Nat × Nat :=
  let incremented := (vp8_picture_id + 1) % 2 ^ 16
  let stored := if incremented = 0 then 0x8000 else incremented
  (stored, stored)

/-- The member `_vp8_picture_id` of a new stream after `n` calls of
`AllocateVP8PictureID`. -/
def pictureIdAfter : Nat → Nat
  | 0 => initialVP8PictureID
  | n + 1 => (AllocateVP8PictureID (pictureIdAfter n)).1

/-! ## RtcStream::OnRtpPacketized -/

/-- The members of an `RtpPacket` that `OnRtpPacketized` reads: `_payload_type`,
`_is_fec`, `_origin_payload_type`, the `HeadersSize()` bytes at `Header()` and
the bytes of `GetData()`. -/
structure RtpPacket where
  payload_type : Nat
  is_fec : Bool
  origin_payload_type : Nat
  header : List Nat
  data : List Nat
deriving DecidableEq, Repr

/-- The getter `RtpPacket::PayloadType`, a `uint8_t`. -/
def RtpPacket.PayloadType (packet : RtpPacket) : Nat := packet.payload_type % 2 ^ 8

/-- The getter `RtpPacket::IsUlpfec`. -/
def RtpPacket.IsUlpfec (packet : RtpPacket) : Bool := packet.is_fec

/-- The getter `RtpPacket::OriginPayloadType`, a `uint8_t`. -/
def RtpPacket.OriginPayloadType (packet : RtpPacket) : Nat :=
  packet.origin_payload_type % 2 ^ 8

/-- The byte `packet->Header()[packet->HeadersSize()-1]`, the last byte of the
header (0 stands for the read outside the buffer of an empty header). -/
def RtpPacket.lastHeaderByte (packet : RtpPacket) : Nat :=
  packet.header.getD (packet.header.length - 1) 0 % 2 ^ 8

/-- The local `red_block_pt` of `OnRtpPacketized`; `red_payload_type` is the
constant `RED_PAYLOAD_TYPE`, which is not among the sources. -/
def redBlockPt (red_payload_type : Nat) (packet : RtpPacket) : Nat :=
  if packet.PayloadType = red_payload_type then packet.lastHeaderByte else 0

/-- The local `origin_pt_of_fec` of `OnRtpPacketized`. -/
def originPtOfFec (red_payload_type : Nat) (packet : RtpPacket) : Nat :=
  if packet.PayloadType = red_payload_type then
    if packet.IsUlpfec then packet.OriginPayloadType else 0
  else 0

/-- The method `RtcStream::OnRtpPacketized`: the return value and the arguments of
`BroadcastPacket`, the 32-bit key and the data of the packet. -/
def OnRtpPacketized (red_payload_type : Nat) (packet : RtpPacket) :
    Bool × Nat × List Nat :=
  let rtp_payload_type := packet.PayloadType
  let red_block_pt := redBlockPt red_payload_type packet
  let origin_pt_of_fec := originPtOfFec red_payload_type packet
  let payload_type :=
    (rtp_payload_type ||| (red_block_pt <<< 8) % 2 ^ 32 |||
      (origin_pt_of_fec <<< 16) % 2 ^ 32) % 2 ^ 32
  (true, payload_type, packet.data)

/-! ## RtcStream::Start: the SDP offer -/

/-- The enumeration `common::MediaType`. -/
inductive MediaType where
  | Unknown
  | Video
  | Audio
  | Data
deriving DecidableEq, Repr

/-- The enumeration `common::MediaCodecId`. -/
inductive MediaCodecId where
  | None
  | H264
  | H265
  | Vp8
  | Vp9
  | Flv
  | Aac
  | Mp3
  | Opus
deriving DecidableEq, Repr

/-- A `MediaTrack` as `RtcStream::Start` reads it: id, media type, codec, codec
extradata, whether the channel layout is stereo, the sample rate and the number
of channels. -/
structure MediaTrack where
  id : Nat
  media_type : MediaType
  codec_id : MediaCodecId
  codec_extradata : List Nat
  stereo : Bool
  sample_rate : Nat
  channel_count : Nat
deriving DecidableEq, Repr

/-- A `PayloadAttr` of the SDP: payload type, codec name, clock rate, codec
parameter, the `fmtp` line and whether `rtcp-fb` NACK is enabled. -/
structure PayloadAttr where
  id : Nat
  codec : Str
  rate : Nat
  codec_param : Str
  fmtp : Str
  rtcpfb_nack : Bool
deriving DecidableEq, Repr

/-- Modelled from the spec: the constructor of `PayloadAttr` (the SDP module is
not among the sources): a new payload has no `fmtp` and no `rtcp-fb` enabled,
which `Start` switches on for the payloads it wants it on. -/
def PayloadAttr.new : PayloadAttr :=
  { id := 0, codec := [], rate := 0, codec_param := [], fmtp := [], rtcpfb_nack := false }

/-- The setter `PayloadAttr::SetRtpmap`; the payload type is a `uint8_t`. -/
def PayloadAttr.SetRtpmap (payload : PayloadAttr) (payload_type : Nat) (codec : Str)
    (rate : Nat) (codec_param : Str) : PayloadAttr :=
  { payload with id := payload_type % 2 ^ 8, codec := codec, rate := rate,
                 codec_param := codec_param }

/-- The setter `PayloadAttr::SetFmtp`. -/
def PayloadAttr.SetFmtp (payload : PayloadAttr) (fmtp : Str) : PayloadAttr :=
  { payload with fmtp := fmtp }

/-- The call `PayloadAttr::EnableRtcpFb(RtcpFbType::Nack, enabled)`. -/
def PayloadAttr.EnableRtcpFbNack (payload : PayloadAttr) (enabled : Bool) : PayloadAttr :=
  { payload with rtcpfb_nack := enabled }

/-- A `MediaDescription` of the offer: its media type and its payloads in
`AddPayload` order. -/
structure MediaDescription where
  media_type : MediaType
  payloads : List PayloadAttr
deriving DecidableEq, Repr

/-- A `SessionDescription`: its media descriptions in `AddMedia` order. -/
structure SessionDescription where
  media_list : List MediaDescription
deriving DecidableEq, Repr

/-- What `RtcStream::Start` takes from outside the sources: the constants
`PAYLOAD_TYPE_OFFSET`, `RED_PAYLOAD_TYPE` and `ULPFEC_PAYLOAD_TYPE`, and the
`fmtp` line built from the extradata of an H.264 track (lines 77-118). -/
structure RtcEnv where
  payload_type_offset : Nat
  red_payload_type : Nat
  ulpfec_payload_type : Nat
  h264_fmtp : List Nat → Str

/-- The locals of the loop of `Start` over the tracks: the media types given to
`AddMedia` so far, the payloads of `video_media_desc` and `audio_media_desc`
(`none` while the pointer is null, which is exactly while `first_video_desc`,
`first_audio_desc` is true) and the 8-bit `payload_type_num`. -/
structure StartState where
  media_order : List MediaType
  video_payloads : Option (List PayloadAttr)
  audio_payloads : Option (List PayloadAttr)
  payload_type_num : Nat
deriving DecidableEq, Repr

/-- The codec name of the inner `switch` for a video track; `none` is the
`default` branch, which skips the track. -/
def videoCodecName : MediaCodecId → Option Str
  | .Vp8 => some "VP8".toList
  | .H265 => some "H265".toList
  | .H264 => some "H264".toList
  | _ => none

/-- One iteration of the loop of `Start` (lines 54-217; the packetizer added for
the track is left out). -/
def startStep (env : RtcEnv) (s : StartState) (track : MediaTrack) : StartState :=
  match track.media_type with
  | .Video =>
    match videoCodecName track.codec_id with
    | none => s
    | some codec =>
      let payload := PayloadAttr.new
      let payload :=
        if track.codec_id = .H264 then payload.SetFmtp (env.h264_fmtp track.codec_extradata)
        else payload
      let media_order :=
        if s.video_payloads.isNone then s.media_order ++ [MediaType.Video] else s.media_order
      let payload :=
        (payload.SetRtpmap s.payload_type_num codec 90000 []).EnableRtcpFbNack true
      { s with
        media_order := media_order
        video_payloads := some (s.video_payloads.getD [] ++ [payload])
        payload_type_num := (s.payload_type_num + 1) % 2 ^ 8 }
  | .Audio =>
    match track.codec_id with
    | .Opus =>
      let payload := PayloadAttr.new
      let payload :=
        if track.stereo then payload.SetFmtp "stereo=1;useinbandfec=1;".toList
        else payload.SetFmtp "useinbandfec=1;".toList
      let media_order :=
        if s.audio_payloads.isNone then s.media_order ++ [MediaType.Audio] else s.media_order
      let payload :=
        payload.SetRtpmap s.payload_type_num "OPUS".toList track.sample_rate
          (Nat.repr track.channel_count).toList
      { s with
        media_order := media_order
        audio_payloads := some (s.audio_payloads.getD [] ++ [payload])
        payload_type_num := (s.payload_type_num + 1) % 2 ^ 8 }
    | _ => s
  | _ => s

/-- The locals of `Start` before the loop. -/
def startInit (env : RtcEnv) : StartState :=
  { media_order := [], video_payloads := none, audio_payloads := none,
    payload_type_num := env.payload_type_offset % 2 ^ 8 }

/-- The RED payload of lines 222-223. -/
def redPayload (env : RtcEnv) : PayloadAttr :=
  PayloadAttr.new.SetRtpmap env.red_payload_type "red".toList 90000 []

/-- The ULPFEC payload of lines 224-225. -/
def ulpfecPayload (env : RtcEnv) : PayloadAttr :=
  PayloadAttr.new.SetRtpmap env.ulpfec_payload_type "ulpfec".toList 90000 []

/-- The payloads of the video media description after lines 219-230. -/
def finalVideoPayloads (env : RtcEnv) (s : StartState) : Option (List PayloadAttr) :=
  s.video_payloads.map (fun payloads => payloads ++ [redPayload env, ulpfecPayload env])

/-- The offer built by `RtcStream::Start` from the tracks in the order of the
track map: its media descriptions with their payloads. -/
def Start (env : RtcEnv) (tracks : List MediaTrack) : SessionDescription :=
  let s := tracks.foldl (startStep env) (startInit env)
  { media_list := s.media_order.map (fun media_type =>
      match media_type with
      | .Video => { media_type := .Video, payloads := (finalVideoPayloads env s).getD [] }
      | other => { media_type := other, payloads := s.audio_payloads.getD [] }) }

/-- The supported video tracks: video tracks whose codec is VP8, H.264 or H.265. -/
def supportedVideoTracks (tracks : List MediaTrack) : List MediaTrack :=
  tracks.filter (fun track =>
    decide (track.media_type = .Video) && (videoCodecName track.codec_id).isSome)

/-- An environment for the scenarios: payload types from 100, RED 123, ULPFEC 124,
and a fixed H.264 `fmtp` line. -/
def demoRtcEnv : RtcEnv :=
  { payload_type_offset := 100
    red_payload_type := 123
    ulpfec_payload_type := 124
    h264_fmtp := fun _ => "packetization-mode=1".toList }

/-- A track of the scenarios. -/
def demoTrack (id : Nat) (media_type : MediaType) (codec_id : MediaCodecId) : MediaTrack :=
  { id := id, media_type := media_type, codec_id := codec_id, codec_extradata := [],
    stereo := true, sample_rate := 48000, channel_count := 2 }

/-- What holds of the locals of `Start` throughout the loop: the video media type
was given to `AddMedia` once if `video_media_desc` is set and never otherwise,
every audio payload is an OPUS payload, and every video payload has NACK
enabled. -/
structure StartInv (s : StartState) : Prop where
  video_once : s.media_order.filter (fun t => decide (t = MediaType.Video)) =
    if s.video_payloads.isSome then [MediaType.Video] else []
  audio_codec : ∀ p ∈ s.audio_payloads.getD [], p.codec = "OPUS".toList
  video_nack : ∀ p ∈ s.video_payloads.getD [], p.rtcpfb_nack = true

/-! ## NACK::GetLostId -/

/-- The member `_lost_ids` of a `NACK`, a vector of `uint16_t`. -/
structure NACK where
  lost_ids : List Nat
deriving DecidableEq, Repr

/-- The method `NACK::GetLostIdCount`, a `size_t`. -/
def NACK.GetLostIdCount (self : NACK) : Nat := self.lost_ids.length % 2 ^ 64

/-- The method `NACK::GetLostId`. The guard compares `index` with
`GetLostIdCount() - 1` computed in `size_t`, that is modulo `2^64`; `none` stands
for the read `_lost_ids[index]` outside the vector. -/
def NACK.GetLostId (self : NACK) (index : Nat) : Option Nat :=
  if index > (self.GetLostIdCount + 2 ^ 64 - 1) % 2 ^ 64 then some 0
  else self.lost_ids[index]?

/-! ## SegmentStreamServer::SetCrossDomain: the domains of crossdomain.xml -/

/-- The domain `SetCrossDomain` enters in `crossdmain_urls` for one URL of the
configured list: `url.Substring(prefix.GetLength())` for a URL that starts with
`http://` or `https://`, the URL itself otherwise. -/
def stripScheme (url : Str) : Str :=
  if HasPrefix url http_prefix then Substring url http_prefix.length
  else if HasPrefix url https_prefix then Substring url https_prefix.length
  else url

/-- The distinct elements of a list in the order of their first occurrence (the
wording of the spec for the lines of crossdomain.xml). -/
def firstOccurrences : List Str → List Str
  | [] => []
  | x :: xs => x :: (firstOccurrences xs).filter (fun y => decide (y ≠ x))

/-! ## OvenCodecImplAvcodecEncAVC::MakePacket: the fragmentation header -/

/-- The FFmpeg constant `AV_PKT_FLAG_KEY` (libavcodec, not among the sources). -/
def AV_PKT_FLAG_KEY : Int := 1

/-- The locals of the scan loop of `MakePacket` (all of type `int`;
`nal_pattern_size`, `fragment_count` and `current_index` only grow from 4, 0 and
0), and `iterations`, which counts the executions of the loop body. -/
structure ScanState where
  nal_pattern_size : Nat
  sps_start_index : Int
  sps_end_index : Int
  pps_start_index : Int
  pps_end_index : Int
  fragment_count : Nat
  current_index : Nat
  iterations : Nat
deriving DecidableEq, Repr

/-- The locals as initialized before the loop. -/
def ScanState.init : ScanState :=
  { nal_pattern_size := 4
    sps_start_index := -1
    sps_end_index := -1
    pps_start_index := -1
    pps_end_index := -1
    fragment_count := 0
    current_index := 0
    iterations := 0 }

/-- The outcome of the tests of lines 281-303 at one index: a start code of 4 or
3 bytes, no start code, or a read of `_packet->data` at an index that is not
below `_packet->size`. -/
inductive Detect where
  | startCode (size : Nat)
  | noStartCode
  | outOfBounds
deriving DecidableEq, Repr

/-- The tests of lines 281-303 at `current_index`, with the reads in the order and
under the short-circuit of the source. -/
def detectStartCode (data : List Nat) (current_index : Nat) : Detect :=
  match data[current_index]? with
  | none => .outOfBounds
  | some b0 =>
    if b0 = 0 then
      match data[current_index + 1]? with
      | none => .outOfBounds
      | some b1 =>
        if b1 = 0 then
          match data[current_index + 2]? with
          | none => .outOfBounds
          | some b2 =>
            if b2 = 0 then
              match data[current_index + 3]? with
              | none => .outOfBounds
              | some b3 => if b3 = 1 then .startCode 4 else .noStartCode
            else if b2 = 1 then .startCode 3
            else .noStartCode
        else .noStartCode
    else .noStartCode

/-- The way the scan loop ends: normally with its locals, with a read outside the
packet, or (in this model only) with the fuel used up before the loop condition
is false. -/
inductive ScanResult where
  | done (st : ScanState)
  | outOfBounds
  | outOfFuel
deriving DecidableEq, Repr

/-- The scan loop of `MakePacket` (lines 279-328) over the bytes `data` of the
packet, `fuel` bounding the number of executions of the body. -/
def scanLoop (data : List Nat) (flags : Int) : Nat → ScanState → ScanResult
  | 0, st =>
    if st.current_index + st.nal_pattern_size < data.length then .outOfFuel else .done st
  | fuel + 1, st =>
    if st.current_index + st.nal_pattern_size < data.length then
      match detectStartCode data st.current_index with
      | .outOfBounds => .outOfBounds
      | .noStartCode =>
        scanLoop data flags fuel
          { st with current_index := st.current_index + 1, iterations := st.iterations + 1 }
      | .startCode k =>
        if st.sps_start_index = -1 then
          if flags ≠ AV_PKT_FLAG_KEY then
            .done { st with
              nal_pattern_size := k
              fragment_count := st.fragment_count + 1
              sps_start_index := st.current_index + k
              current_index := st.current_index + k
              iterations := st.iterations + 1 }
          else
            scanLoop data flags fuel { st with
              nal_pattern_size := k
              fragment_count := st.fragment_count + 1
              sps_start_index := st.current_index + k
              current_index := st.current_index + k
              iterations := st.iterations + 1 }
        else if st.sps_end_index = -1 then
          scanLoop data flags fuel { st with
            nal_pattern_size := k
            fragment_count := st.fragment_count + 1
            sps_end_index := st.current_index - 1
            pps_start_index := st.current_index + k
            current_index := st.current_index + k
            iterations := st.iterations + 1 }
        else
          .done { st with
            nal_pattern_size := k
            fragment_count := st.fragment_count + 1
            pps_end_index := st.current_index - 1
            iterations := st.iterations + 1 }
    else .done st

/-- A `FragmentationHeader`: the two vectors `MakePacket` fills, holding the
values of the `int` expressions given to `emplace_back`. -/
structure FragmentationHeader where
  fragmentation_offset : List Int
  fragmentation_length : List Int
deriving DecidableEq, Repr

/-- Lines 330-348 of `MakePacket`: the header built from the locals the loop
leaves, for a packet of `size` bytes. -/
def fragmentHeader (size : Nat) (flags : Int) (st : ScanState) : FragmentationHeader :=
  if flags = AV_PKT_FLAG_KEY then
    { fragmentation_offset :=
        [st.sps_start_index, st.pps_start_index, (st.pps_end_index + 1) + st.nal_pattern_size]
      fragmentation_length :=
        [st.sps_end_index - (st.sps_start_index - 1),
         st.pps_end_index - (st.pps_start_index - 1),
         size - (st.pps_end_index + st.nal_pattern_size)] }
  else
    { fragmentation_offset := [st.sps_start_index]
      fragmentation_length := [size - (st.sps_start_index - 1)] }

/-- The fragmentation header `OvenCodecImplAvcodecEncAVC::MakePacket` sets on the packet
it returns, for the bytes and the flags of the codec packet; `none` when the
scan loop does not end normally. The loop is given one execution of its body for
each byte of the packet. -/
def MakePacketFragments (data : List Nat) (flags : Int) : Option FragmentationHeader :=
  match scanLoop data flags data.length ScanState.init with
  | .done st => some (fragmentHeader data.length flags st)
  | _ => none

/-- The pairs `(offset, length)` of a fragmentation header. -/
def FragmentationHeader.entries (h : FragmentationHeader) : List (Int × Int) :=
  h.fragmentation_offset.zip h.fragmentation_length

/-! ## RtcStream::Start: the fmtp line of an H.264 payload -/

/-- The alphabet of base64. -/
def base64Alphabet : Str :=
  "ABCDEFGHIJKLMNOPQRSTUVWXYZabcdefghijklmnopqrstuvwxyz0123456789+/".toList

/-- The base64 character of a 6-bit value. -/
def base64Char (n : Nat) : Char := base64Alphabet.getD (n % 64) 'A'

/-- The output of the base64 filter of OpenSSL (`BIO_f_base64` with
`BIO_FLAGS_BASE64_NO_NL`; OpenSSL is not among the sources) for the bytes
written to it: the encoding of RFC 4648 with padding, on one line. -/
def base64Encode : List Nat → Str
  | [] => []
  | [a] => [base64Char (a % 256 / 4), base64Char (a % 4 * 16), '=', '=']
  | [a, b] =>
    [base64Char (a % 256 / 4), base64Char (a % 4 * 16 + b % 256 / 16),
      base64Char (b % 16 * 4), '=']
  | a :: b :: c :: rest =>
    base64Char (a % 256 / 4) :: base64Char (a % 4 * 16 + b % 256 / 16) ::
      base64Char (b % 16 * 4 + c % 256 / 64) :: base64Char (c % 64) :: base64Encode rest

/-- The function `ov::Base64::Encode`: the empty string for empty data, otherwise what the
base64 filter writes to the memory BIO (a write to a memory BIO does not
fail). -/
def Base64.Encode (data : List Nat) : Str :=
  if data.length = 0 then [] else base64Encode data

/-- The SPS and PPS lists of an `H264Extradata` (the class is not among the
sources). -/
structure H264Extradata where
  sps : List (List Nat)
  pps : List (List Nat)
deriving DecidableEq, Repr

/-- The conversion `%x` of `FormatString` for a non-negative value: its digits in
base 16, in lower case. -/
def formatHex (v : Nat) : Str := Nat.toDigits 16 v

/-- The conversion `%02x` of `FormatString` for a non-negative value: as `%x`, padded
with `0` on the left to two characters. -/
def formatHex02 (v : Nat) : Str :=
  List.replicate (2 - (formatHex v).length) '0' ++ formatHex v

/-- The first loop of lines 86-90: every SPS in base64, each followed by a
comma. -/
def spsParameterSets (sps : List (List Nat)) : Str :=
  (sps.map (fun s => Base64.Encode s ++ [','])).flatten

/-- The second loop of lines 91-99: every PPS in base64, each but the one at the
index `pps.size() - 1` followed by a comma. -/
def ppsParameterSets (pps : List (List Nat)) : Str :=
  (pps.enum.map (fun ip =>
    Base64.Encode ip.2 ++ (if ip.1 ≠ pps.length - 1 then [','] else []))).flatten

/-- The `fmtp` line of the `else` branch of lines 108-116. -/
def defaultH264Fmtp : Str :=
  "packetization-mode=1;profile-level-id=".toList ++ formatHex 0x42e01f ++
    ";level-asymmetry-allowed=1".toList

/-- Lines 77-118 of `Start`: the `fmtp` line of an H.264 payload from the extradata
of the track. `Deserialize` stands for `H264Extradata::Deserialize`, which is
not among the sources: `none` when it returns false, otherwise the extradata it
has filled in. -/
def h264Fmtp (Deserialize : List Nat → Option H264Extradata) (codec_extradata : List Nat) :
    Str :=
  if codec_extradata.isEmpty then defaultH264Fmtp
  else
    match Deserialize codec_extradata with
    | none => defaultH264Fmtp
    | some h264_extradata =>
      match h264_extradata.sps with
      | [] => defaultH264Fmtp
      | first_sps :: _ =>
        if first_sps.length ≥ 4 ∧ h264_extradata.pps.isEmpty = false then
          "packetization-mode=1;profile-level-id=".toList ++
            formatHex02 (first_sps.getD 1 0 % 256) ++ formatHex02 (first_sps.getD 2 0 % 256) ++
            formatHex02 (first_sps.getD 3 0 % 256) ++
            ";sprop-parameter-sets=".toList ++
            (spsParameterSets h264_extradata.sps ++ ppsParameterSets h264_extradata.pps) ++
            ";level-asymmetry-allowed=1".toList
        else defaultH264Fmtp

/-- The `fmtp` line `Start` sets on the payload of a supported video track before
`SetRtpmap`: the line of lines 77-118 for H.264, none for VP8 and H.265. -/
def videoFmtp (env : RtcEnv) (track : MediaTrack) : Str :=
  if track.codec_id = .H264 then env.h264_fmtp track.codec_extradata else []

/-- An AVCC reader for the scenarios: one SPS and one PPS, each preceded by its
length in one byte. -/
def demoDeserialize (data : List Nat) : Option H264Extradata :=
  match data with
  | [] => none
  | n :: rest =>
    if n ≤ rest.length then
      match rest.drop n with
      | [] => some { sps := [rest.take n], pps := [] }
      | m :: more => some { sps := [rest.take n], pps := [more.take m] }
    else none

/-- The environment of the scenarios with the `fmtp` line of lines 77-118. -/
def demoH264Env : RtcEnv :=
  { payload_type_offset := 100
    red_payload_type := 123
    ulpfec_payload_type := 124
    h264_fmtp := h264Fmtp demoDeserialize }

/-! ## ThreadEncode of the AVC and VP8 encoders -/

/-- What `ThreadEncode` takes from FFmpeg (not among the sources), for frames `F`,
codec states `C` and media packets `P`: the return values of
`av_frame_get_buffer` and `av_frame_make_writable` for the frame copied to
`_frame`, the return value of `avcodec_send_frame` with the codec state it
leaves, and the outcome of the inner loop of lines 207-238: the packets
`avcodec_receive_packet` delivers (as `MakePacket` wraps them) until it answers
EAGAIN, EOF or an error, with the codec state after that. -/
structure EncoderEnv (F C P : Type) where
  av_frame_get_buffer : F → Int
  av_frame_make_writable : F → Int
  avcodec_send_frame : C → F → Int × C
  receive_packets : C → List P × C

/-- The members `ThreadEncode` works on: `_input_buffer`, `_output_buffer` (filled
by `SendOutputBuffer`) and the state of the codec `_context`. -/
structure EncoderState (F C P : Type) where
  input_buffer : List F
  output_buffer : List P
  codec : C
deriving DecidableEq, Repr

/-- One execution of the body of the loop of `ThreadEncode` (lines 139-238) with a
frame in the input queue: the members after it, and whether the loop goes on
(`false` is a `break`). -/
def encodeFrame {F C P : Type} (env : EncoderEnv F C P) (st : EncoderState F C P)
    (frame : F) (rest : List F) : EncoderState F C P × Bool :=
  if env.av_frame_get_buffer frame < 0 then ({ st with input_buffer := rest }, false)
  else if env.av_frame_make_writable frame < 0 then ({ st with input_buffer := rest }, false)
  else
    let sent := env.avcodec_send_frame st.codec frame
    let input_buffer := if sent.1 < 0 then frame :: rest else rest
    let received := env.receive_packets sent.2
    ({ input_buffer := input_buffer
       output_buffer := st.output_buffer ++ received.1
       codec := received.2 }, true)

/-- The way a run of `ThreadEncode` stands: waiting in `_queue_event.Wait()` with
an empty input queue, ended (the loop was left with `break`, the thread
function returns), or still running when the fuel of the model is used up. -/
inductive ThreadResult (F C P : Type) where
  | waiting (st : EncoderState F C P)
  | ended (st : EncoderState F C P)
  | running (st : EncoderState F C P)
deriving DecidableEq, Repr

/-- The loop of `ThreadEncode` while `_kill_flag` is not set and no other thread
adds frames: `fuel` bounds the number of executions of the body. -/
def ThreadEncode {F C P : Type} (env : EncoderEnv F C P) :
    Nat → EncoderState F C P → ThreadResult F C P
  | 0, st => .running st
  | fuel + 1, st =>
    match st.input_buffer with
    | [] => .waiting st
    | frame :: rest =>
      match encodeFrame env st frame rest with
      | (st', true) => ThreadEncode env fuel st'
      | (st', false) => .ended st'

/-- An encoder for the scenarios: frames are numbers, buffer allocation fails for
the frame 13, the codec rejects the frame 7, and every accepted frame comes back
as one packet. -/
def demoEncoderEnv : EncoderEnv Nat (List Nat) Nat :=
  { av_frame_get_buffer := fun frame => if frame = 13 then -12 else 0
    av_frame_make_writable := fun _ => 0
    avcodec_send_frame := fun codec frame =>
      if frame = 7 then (-22, codec) else (0, codec ++ [frame])
    receive_packets := fun codec => (codec, []) }

/-! ## MakePacket of the AVC and VP8 encoders: the duration -/

/-- The integer part of the binary logarithm of `n`, by halving at most `fuel`
times. -/
def log2Aux : Nat → Nat → Nat
  | 0, _ => 0
  | fuel + 1, n => if n < 2 then 0 else log2Aux fuel (n / 2) + 1

/-- The integer part of the binary logarithm of a positive number `n`. -/
def log2 (n : Nat) : Nat := log2Aux n n

/-- The integer part of the binary logarithm of the positive rational `a / b`. -/
def floorLog2 (a b : Nat) : Int :=
  if b * 2 ^ log2 a ≤ a * 2 ^ log2 b then (log2 a : Int) - log2 b
  else (log2 a : Int) - log2 b - 1

/-- The integer nearest to `n / d`, the even one of the two when `n / d` lies half
way between two integers. -/
def roundHalfEven (n d : Nat) : Nat :=
  if 2 * (n % d) < d then n / d
  else if d < 2 * (n % d) then n / d + 1
  else n / d + (n / d) % 2

/-- Rounding of IEEE 754 arithmetic (to nearest, ties to even) of the positive
rational `a / b` to a binary floating-point value with `prec` significant bits:
the mantissa `m` and the exponent `e` of the result `m * 2^e`. The range of the
exponent is not bounded. -/
def roundToPrec (prec : Nat) (a b : Nat) : Nat × Int :=
  let e := floorLog2 a b - ((prec : Int) - 1)
  (if 0 ≤ e then roundHalfEven a (b * 2 ^ e.toNat)
   else roundHalfEven (a * 2 ^ (-e).toNat) b, e)

/-- The duration computed in `MakePacket` (AVC: lines 266-267, VP8: lines 232-233),
`(den == 0) ? 0LL : (float)den / GetFrameRate()` converted to `int64_t`. The
frame rate is the floating-point value `fnum / fden`; `prec` is the precision of
the division, 24 if `GetFrameRate` (not among the sources) returns `float` and
53 if it returns `double`. The cast `(float)den` rounds `den` to 24 significant
bits, the quotient is rounded to `prec` bits, and the conversion to `int64_t`
cuts off the fraction; `none` stands for the undefined conversion of a quotient
that is infinite (frame rate 0) or outside `int64_t`. -/
def MakePacketDuration (prec : Nat) (den : Int) (fnum fden : Nat) : Option Int :=
  if den = 0 then some 0
  else if fnum = 0 ∨ fden = 0 then none
  else
    let x := roundToPrec 24 den.natAbs 1
    let q := roundToPrec prec (x.1 * 2 ^ x.2.toNat * fden) (2 ^ (-x.2).toNat * fnum)
    let t := if 0 ≤ q.2 then q.1 * 2 ^ q.2.toNat else q.1 / 2 ^ (-q.2).toNat
    if t < 2 ^ 63 then some (den.sign * t) else none

/-- The members of the codec packet `_packet` that `MakePacket` reads. -/
structure AVPacket where
  data : List Nat
  flags : Int
  pts : Int
  dts : Int
deriving DecidableEq, Repr

/-- What `MakePacket` reads of `_output_context`: the denominator of the time base
and the frame rate, the floating-point value `frame_rate_num / frame_rate_den`. -/
structure OutputContext where
  time_base_den : Int
  frame_rate_num : Nat
  frame_rate_den : Nat
deriving DecidableEq, Repr

/-- The flags of a `MediaPacket`. -/
inductive MediaPacketFlag where
  | NoFlag
  | Key
deriving DecidableEq, Repr

/-- The local `flag` of `MakePacket`: `Key` when the bit `AV_PKT_FLAG_KEY` of the
flags is set. -/
def packetFlag (packet : AVPacket) : MediaPacketFlag :=
  if packet.flags % 2 = 1 then .Key else .NoFlag

/-- The `MediaPacket` built by `MakePacket` of the VP8 encoder (video, track 0). -/
structure MediaPacket where
  data : List Nat
  pts : Int
  dts : Int
  duration : Int
  flag : MediaPacketFlag
deriving DecidableEq, Repr

/-- The method `OvenCodecImplAvcodecEncVP8::MakePacket`; `none` when the conversion of the
duration to `int64_t` is undefined. -/
def MakePacketVP8 (prec : Nat) (ctx : OutputContext) (packet : AVPacket) :
    Option MediaPacket :=
  (MakePacketDuration prec ctx.time_base_den ctx.frame_rate_num ctx.frame_rate_den).map
    (fun duration =>
      { data := packet.data, pts := packet.pts, dts := packet.dts, duration := duration,
        flag := packetFlag packet })

/-- The `MediaPacket` built by `MakePacket` of the AVC encoder, without its time
stamps (they are scaled by the floating-point factor `_scale_inv` that
`Configure` computes with FFmpeg), and with its fragmentation header. -/
structure AvcMediaPacket where
  data : List Nat
  duration : Int
  flag : MediaPacketFlag
  frag_header : FragmentationHeader
deriving DecidableEq, Repr

/-- The method `OvenCodecImplAvcodecEncAVC::MakePacket`. -/
def MakePacketAVC (prec : Nat) (ctx : OutputContext) (packet : AVPacket) :
    Option AvcMediaPacket :=
  match MakePacketDuration prec ctx.time_base_den ctx.frame_rate_num ctx.frame_rate_den,
      MakePacketFragments packet.data packet.flags with
  | some duration, some frag_header =>
    some { data := packet.data, duration := duration, flag := packetFlag packet,
           frag_header := frag_header }
  | _, _ => none

/-! ## Further scenarios -/

/-- A token of the session `S1` that signs `http://host/app/s/idx.m3u8?rtspURI=cam1`
and allows every client, with the stream window open. -/
def sharedToken (expired : Bool) : SignedUrl :=
  { demoToken expired "S1".toList with allowed_client := fun _ => true }

/-- A decoder for the scenario of two clients: under the key `K`, `fresh` is the
unexpired and `stale` the expired token of session `S1` that allows every
client. -/
def sharedLoad (crypto_key value : Str) : Option SignedUrl :=
  if crypto_key = "K".toList then
    if value = "fresh".toList then some (sharedToken false)
    else if value = "stale".toList then some (sharedToken true)
    else none
  else none

/-- The deployment with the tokens that allow every client. -/
def sharedEnv : Env Bool := { demoEnv with load := sharedLoad }

/-- The playlist-request table after the client `1.2.3.4` was admitted with the
unexpired token of session `S1`, on an empty table. -/
def sharedTableA : PlaylistTable :=
  (HandleSignedUrl sharedEnv [] "app".toList "s".toList
    (demoClient "1.2.3.4" "/app/s/idx.m3u8?rtspURI=cam1&t=fresh")
    (demoUrl [("rtspURI".toList, "cam1".toList), ("t".toList, "fresh".toList)])).table

/-- The playlist-request table after the client `5.6.7.8` was then admitted with
the same unexpired token of session `S1`. -/
def sharedTableB : PlaylistTable :=
  (HandleSignedUrl sharedEnv sharedTableA "app".toList "s".toList
    (demoClient "5.6.7.8" "/app/s/idx.m3u8?rtspURI=cam1&t=fresh")
    (demoUrl [("rtspURI".toList, "cam1".toList), ("t".toList, "fresh".toList)])).table

/-- The stream `app/s` holding the segment `empty.ts` (number 9, duration 5) whose
data pointer is set and whose data has no bytes. -/
def demoEmptySegmentEnv : SegmentRequestEnv :=
  { demoSegmentEnv with
    get_stream := fun app_name stream_name =>
      if app_name = "app".toList ∧ stream_name = "s".toList then
        some { info := demoStreamSegments.info
               get_segment_data := fun file_name =>
                 if file_name = "empty.ts".toList then
                   some { sequence_number := 9, duration := 5, data := some [] }
                 else none }
      else none }

/-! ## Theorems: signed-URL admission -/

section Admission

variable {W : Type}

/-- The flag `result` after the four checks is true exactly when each check
passes. -/
theorem signedUrlChecks_fst (table : PlaylistTable) (remote : SocketAddress)
    (signed_url : SignedUrl) (info : PlaylistRequestInfo) (url_to_compare : Str) :
    (signedUrlChecks table remote signed_url info url_to_compare).1 = true ↔
      ((signed_url.token_expired = false ∨ IsAuthorizedSession table info = true) ∧
        signed_url.stream_expired = false ∧
        signed_url.allowed_client remote = true ∧
        UpperCaseString signed_url.url = UpperCaseString url_to_compare) := by
  unfold signedUrlChecks
  by_cases hu : UpperCaseString signed_url.url = UpperCaseString url_to_compare <;>
    cases signed_url.token_expired <;> cases IsAuthorizedSession table info <;>
    cases signed_url.stream_expired <;> cases signed_url.allowed_client remote <;>
    simp [hu]

/-- Past the guards of lines 546-612, `HandleSignedUrl` is decided by the four
checks, and the table is updated exactly on success. -/
theorem HandleSignedUrl_checked (env : Env W) (table : PlaylistTable)
    (app_name stream_name : Str) (client : HttpClient) (request_url : Url)
    (vhost : VirtualHost) (remote : SocketAddress) (token rtsp : Str)
    (signed_url : SignedUrl)
    (hname : (env.vhost_name_from_domain request_url.domain).isEmpty = false)
    (hvhost : env.vhost_list.find?
        (fun v => v.name == env.vhost_name_from_domain request_url.domain) = some vhost)
    (hparsed : vhost.signed_url.is_parsed = true)
    (hkey : vhost.signed_url.crypto_key.isEmpty = false)
    (hremote : client.remote_address = some remote)
    (htoken : mapFind request_url.query_map vhost.signed_url.query_string_key = some token)
    (hrtsp : mapFind request_url.query_map "rtspURI".toList = some rtsp)
    (hload : env.load vhost.signed_url.crypto_key token = some signed_url) :
    HandleSignedUrl env table app_name stream_name client request_url =
      if (signedUrlChecks table remote signed_url
            (makeRequestInfo env app_name stream_name remote signed_url)
            (urlToCompare env request_url rtsp)).1 = true then
        { ok := true
          request_info := some (makeRequestInfo env app_name stream_name remote signed_url)
          table := UpdatePlaylistRequestInfo table
            (makeRequestInfo env app_name stream_name remote signed_url)
          messages := [] }
      else
        { ok := false
          request_info := some (makeRequestInfo env app_name stream_name remote signed_url)
          table := table
          messages := (signedUrlChecks table remote signed_url
            (makeRequestInfo env app_name stream_name remote signed_url)
            (urlToCompare env request_url rtsp)).2 } := by
  unfold HandleSignedUrl
  simp only [hname, hvhost, hparsed, hkey, hremote, htoken, hrtsp, hload]
  cases (signedUrlChecks table remote signed_url
      (makeRequestInfo env app_name stream_name remote signed_url)
      (urlToCompare env request_url rtsp)).1 <;> simp

/-- After `table[k] = v` the value found under `k` is `v`. -/
theorem mapFind_mapAssign_self {β : Type} (t : List (Str × β)) (k : Str) (v : β) :
    mapFind (mapAssign t k v) k = some v := by
  induction t with
  | nil => simp [mapAssign, mapFind]
  | cons e rest ih =>
    unfold mapAssign
    by_cases h1 : e.1 = k
    · simp [h1, mapFind]
    · by_cases h2 : k < e.1
      · simp [h1, h2, mapFind]
      · simp only [h1, h2, if_false]
        unfold mapFind at ih ⊢
        rw [List.find?_cons_of_neg _ (by simpa using h1)]
        exact ih

/-- Case analysis of `HandleSignedUrl`: it fails at a guard, or the virtual host
does not use signed URLs, or the four checks decide. -/
theorem HandleSignedUrl_cases (env : Env W) (table : PlaylistTable)
    (app_name stream_name : Str) (client : HttpClient) (request_url : Url)
    (P : SignedUrlResult → Prop)
    (hfail : P { ok := false, request_info := none, table := table, messages := [] })
    (hopen : P { ok := true, request_info := none, table := table, messages := [] })
    (hchk : ∀ (remote : SocketAddress) (signed_url : SignedUrl) (rtsp : Str),
      P (if (signedUrlChecks table remote signed_url
              (makeRequestInfo env app_name stream_name remote signed_url)
              (urlToCompare env request_url rtsp)).1 = true then
          { ok := true
            request_info := some (makeRequestInfo env app_name stream_name remote signed_url)
            table := UpdatePlaylistRequestInfo table
              (makeRequestInfo env app_name stream_name remote signed_url)
            messages := [] }
        else
          { ok := false
            request_info := some (makeRequestInfo env app_name stream_name remote signed_url)
            table := table
            messages := (signedUrlChecks table remote signed_url
              (makeRequestInfo env app_name stream_name remote signed_url)
              (urlToCompare env request_url rtsp)).2 })) :
    P (HandleSignedUrl env table app_name stream_name client request_url) := by
  unfold HandleSignedUrl
  by_cases h1 : (env.vhost_name_from_domain request_url.domain).isEmpty = true
  · simpa [h1] using hfail
  · cases h2 : env.vhost_list.find?
        (fun v => v.name == env.vhost_name_from_domain request_url.domain) with
    | none => simpa [h1, h2] using hfail
    | some vhost =>
      by_cases h3 : (!vhost.signed_url.is_parsed || vhost.signed_url.crypto_key.isEmpty) = true
      · simp only [h1, h2, h3]
        simpa using hopen
      · cases h4 : client.remote_address with
        | none => simp only [h1, h2, h3, h4]; simpa using hfail
        | some remote =>
          cases h5 : mapFind request_url.query_map vhost.signed_url.query_string_key with
          | none => simp only [h1, h2, h3, h4, h5]; simpa using hfail
          | some token =>
            cases h6 : mapFind request_url.query_map "rtspURI".toList with
            | none => simp only [h1, h2, h3, h4, h5, h6]; simpa using hfail
            | some rtsp =>
              cases h7 : env.load vhost.signed_url.crypto_key token with
              | none => simp only [h1, h2, h3, h4, h5, h6, h7]; simpa using hfail
              | some signed_url =>
                simp only [h1, h2, h3, h4, h5, h6, h7]
                have := hchk remote signed_url rtsp
                cases hc : (signedUrlChecks table remote signed_url
                  (makeRequestInfo env app_name stream_name remote signed_url)
                  (urlToCompare env request_url rtsp)).1 <;> simpa [hc] using this

/-- The call `HandleSignedUrl` leaves the playlist-request table as it was whenever it
returns false. -/
theorem HandleSignedUrl_false_table (env : Env W) (table : PlaylistTable)
    (app_name stream_name : Str) (client : HttpClient) (request_url : Url)
    (h : (HandleSignedUrl env table app_name stream_name client request_url).ok = false) :
    (HandleSignedUrl env table app_name stream_name client request_url).table = table := by
  revert h
  apply HandleSignedUrl_cases env table app_name stream_name client request_url
    (fun r => r.ok = false → r.table = table)
  · intro _; rfl
  · intro _; rfl
  · intro remote signed_url rtsp
    split <;> simp

/-- An admitted request that carries a session leaves its `PlaylistRequestInfo`
in the table through `UpdatePlaylistRequestInfo`. -/
theorem HandleSignedUrl_true_table (env : Env W) (table : PlaylistTable)
    (app_name stream_name : Str) (client : HttpClient) (request_url : Url)
    (info : PlaylistRequestInfo)
    (h : (HandleSignedUrl env table app_name stream_name client request_url).ok = true)
    (hi : (HandleSignedUrl env table app_name stream_name client request_url).request_info =
      some info) :
    (HandleSignedUrl env table app_name stream_name client request_url).table =
      UpdatePlaylistRequestInfo table info := by
  revert h hi
  apply HandleSignedUrl_cases env table app_name stream_name client request_url
    (fun r => r.ok = true → r.request_info = some info →
      r.table = UpdatePlaylistRequestInfo table info)
  · intro h; simp at h
  · intro _ h; simp at h
  · intro remote signed_url rtsp
    split
    · intro _ h
      simp only [Option.some.injEq] at h
      simp [h]
    · intro h; simp at h

/-- C2: grace for long sessions. Once a request carrying session id S and client
IP A has been admitted and the table still holds under S the entry that request
stored (it was neither removed nor overwritten by a later admitted request), a
later request with the same S from the same A whose token is expired but whose
other three checks pass is admitted; with a table that holds no entry under the
session id of the token, the same expired token is rejected. -/
theorem grace_for_long_sessions (env₁ env₂ : Env W) (table₀ t : PlaylistTable)
    (app₁ stream₁ app₂ stream₂ : Str) (client₁ client₂ : HttpClient) (url₁ url₂ : Url)
    (info₁ : PlaylistRequestInfo) (vhost : VirtualHost) (remote : SocketAddress)
    (token rtsp : Str) (signed_url : SignedUrl)
    (hfirst : (HandleSignedUrl env₁ table₀ app₁ stream₁ client₁ url₁).ok = true)
    (hcarry : (HandleSignedUrl env₁ table₀ app₁ stream₁ client₁ url₁).request_info =
      some info₁)
    (hkept : mapFind t info₁.session_id =
      mapFind (HandleSignedUrl env₁ table₀ app₁ stream₁ client₁ url₁).table info₁.session_id)
    (hname : (env₂.vhost_name_from_domain url₂.domain).isEmpty = false)
    (hvhost : env₂.vhost_list.find?
        (fun v => v.name == env₂.vhost_name_from_domain url₂.domain) = some vhost)
    (hparsed : vhost.signed_url.is_parsed = true)
    (hkey : vhost.signed_url.crypto_key.isEmpty = false)
    (hremote : client₂.remote_address = some remote)
    (htoken : mapFind url₂.query_map vhost.signed_url.query_string_key = some token)
    (hrtsp : mapFind url₂.query_map "rtspURI".toList = some rtsp)
    (hload : env₂.load vhost.signed_url.crypto_key token = some signed_url)
    (hS : signed_url.session_id = info₁.session_id)
    (hA : remote.ip_address = info₁.ip_address)
    (hexpired : signed_url.token_expired = true)
    (hstream : signed_url.stream_expired = false)
    (hallowed : signed_url.allowed_client remote = true)
    (hurl : UpperCaseString signed_url.url =
      UpperCaseString (url₂.url_string_no_query ++ "?rtspURI=".toList ++
        env₂.url_encode rtsp)) :
    (HandleSignedUrl env₂ t app₂ stream₂ client₂ url₂).ok = true ∧
      ∀ t' : PlaylistTable, mapFind t' signed_url.session_id = none →
        (HandleSignedUrl env₂ t' app₂ stream₂ client₂ url₂).ok = false := by
  have htab := HandleSignedUrl_true_table env₁ table₀ app₁ stream₁ client₁ url₁ info₁
    hfirst hcarry
  rw [htab] at hkept
  unfold UpdatePlaylistRequestInfo at hkept
  rw [mapFind_mapAssign_self] at hkept
  constructor
  · rw [HandleSignedUrl_checked env₂ t app₂ stream₂ client₂ url₂ vhost remote token rtsp
      signed_url hname hvhost hparsed hkey hremote htoken hrtsp hload]
    have hc := (signedUrlChecks_fst t remote signed_url
      (makeRequestInfo env₂ app₂ stream₂ remote signed_url)
      (urlToCompare env₂ url₂ rtsp)).2
      ⟨Or.inr (by
          simp [IsAuthorizedSession, makeRequestInfo, hS, hkept,
            PlaylistRequestInfo.IsRequestFromSameUser, hA]),
        hstream, hallowed, hurl⟩
    simp [hc]
  · intro t' hnone
    rw [HandleSignedUrl_checked env₂ t' app₂ stream₂ client₂ url₂ vhost remote token rtsp
      signed_url hname hvhost hparsed hkey hremote htoken hrtsp hload]
    have hc : ¬ (signedUrlChecks t' remote signed_url
        (makeRequestInfo env₂ app₂ stream₂ remote signed_url)
        (urlToCompare env₂ url₂ rtsp)).1 = true := by
      rw [signedUrlChecks_fst]
      rintro ⟨h | h, -⟩
      · rw [hexpired] at h; exact Bool.noConfusion h
      · simp [IsAuthorizedSession, makeRequestInfo, hnone] at h
    simp [hc]

/-- C2, at the deployment: the fresh token of session `S1` is admitted from
`1.2.3.4`, then the stale token of `S1` from `1.2.3.4` is admitted on the table
left by the first request, and rejected on a table without an entry. -/
theorem grace_for_long_sessions_witness :
    (HandleSignedUrl demoEnv
        (HandleSignedUrl demoEnv [] "app".toList "s".toList
          (demoClient "1.2.3.4" "/app/s/idx.m3u8?rtspURI=cam1&t=fresh")
          (demoUrl [("rtspURI".toList, "cam1".toList), ("t".toList, "fresh".toList)])).table
        "app".toList "s".toList
        (demoClient "1.2.3.4" "/app/s/idx.m3u8?rtspURI=cam1&t=stale")
        (demoUrl [("rtspURI".toList, "cam1".toList), ("t".toList, "stale".toList)])).ok = true ∧
      ∀ t' : PlaylistTable, mapFind t' (demoToken true "S1".toList).session_id = none →
        (HandleSignedUrl demoEnv t' "app".toList "s".toList
          (demoClient "1.2.3.4" "/app/s/idx.m3u8?rtspURI=cam1&t=stale")
          (demoUrl [("rtspURI".toList, "cam1".toList),
            ("t".toList, "stale".toList)])).ok = false :=
  grace_for_long_sessions demoEnv demoEnv [] _ "app".toList "s".toList "app".toList "s".toList
    (demoClient "1.2.3.4" "/app/s/idx.m3u8?rtspURI=cam1&t=fresh")
    (demoClient "1.2.3.4" "/app/s/idx.m3u8?rtspURI=cam1&t=stale")
    (demoUrl [("rtspURI".toList, "cam1".toList), ("t".toList, "fresh".toList)])
    (demoUrl [("rtspURI".toList, "cam1".toList), ("t".toList, "stale".toList)])
    (makeRequestInfo demoEnv "app".toList "s".toList
      { ip_address := "1.2.3.4".toList, port := 50000 } (demoToken false "S1".toList))
    demoVhost { ip_address := "1.2.3.4".toList, port := 50000 } "stale".toList "cam1".toList
    (demoToken true "S1".toList)
    (by decide) (by decide) rfl (by decide) (by decide) (by decide) (by decide) (by decide)
    (by decide) (by decide) rfl (by decide) (by decide) (by decide) (by decide) (by decide)
    (by decide)

/-- With a configured key, `HandleSignedUrl` returns false for a query string
without `rtspURI`. -/
theorem HandleSignedUrl_no_rtspURI (env : Env W) (table : PlaylistTable)
    (app_name stream_name : Str) (client : HttpClient) (request_url : Url)
    (vhost : VirtualHost)
    (hname : (env.vhost_name_from_domain request_url.domain).isEmpty = false)
    (hvhost : env.vhost_list.find?
        (fun v => v.name == env.vhost_name_from_domain request_url.domain) = some vhost)
    (hparsed : vhost.signed_url.is_parsed = true)
    (hkey : vhost.signed_url.crypto_key.isEmpty = false)
    (hnone : mapFind request_url.query_map "rtspURI".toList = none) :
    (HandleSignedUrl env table app_name stream_name client request_url).ok = false := by
  unfold HandleSignedUrl
  simp only [hname, hvhost, hparsed, hkey, hnone]
  cases client.remote_address with
  | none => simp
  | some remote =>
    cases mapFind request_url.query_map vhost.signed_url.query_string_key <;> simp

/-- A rejected request: `OnPlayListRequest` answers 403 at once. -/
theorem OnPlayListRequest_rejected (env : Env W) (w : W) (table : PlaylistTable)
    (client : HttpClient) (app_name stream_name : Str) (request_url : Url)
    (hparse : env.url_parse client.uri = some request_url)
    (hsecure : HasSuffix app_name "_insecure".toList = false)
    (hrej : (HandleSignedUrl env table app_name stream_name client request_url).ok = false) :
    OnPlayListRequest env w table client app_name stream_name =
      { ret := true, status := some .Forbidden, play_list := none, table := table,
        world := w, events := [Event.signedUrl false] } := by
  unfold OnPlayListRequest
  simp only [hparse, hsecure, hrej]
  simp [HandleSignedUrl_false_table env table app_name stream_name client request_url hrej]

/-- An admitted request: `OnPlayListRequest` goes on to the stream lookup. -/
theorem OnPlayListRequest_admitted (env : Env W) (w : W) (table : PlaylistTable)
    (client : HttpClient) (app_name stream_name : Str) (request_url : Url)
    (hparse : env.url_parse client.uri = some request_url)
    (hsecure : HasSuffix app_name "_insecure".toList = false)
    (hadm : (HandleSignedUrl env table app_name stream_name client request_url).ok = true) :
    OnPlayListRequest env w table client app_name stream_name =
      lookupAndServe env w
        (HandleSignedUrl env table app_name stream_name client request_url).table
        app_name stream_name request_url [Event.signedUrl true] := by
  unfold OnPlayListRequest
  simp only [hparse, hsecure, hadm]
  simp

/-- C3 (amended): on a virtual host with a configured key, a playlist request
whose query string has no `rtspURI` is rejected with 403 whatever its token; a
request that carries both the token parameter and `rtspURI`, with an unexpired
token whose stream window is open and that signs the request URL with the
canonical `?rtspURI=` query, is admitted from a client the token allows (and goes
on to the stream lookup) and is rejected with 403 from a client it does not
allow. -/
theorem signed_request_admission (env : Env W) (w : W) (table : PlaylistTable)
    (client : HttpClient) (app_name stream_name : Str) (request_url : Url)
    (vhost : VirtualHost)
    (hparse : env.url_parse client.uri = some request_url)
    (hsecure : HasSuffix app_name "_insecure".toList = false)
    (hname : (env.vhost_name_from_domain request_url.domain).isEmpty = false)
    (hvhost : env.vhost_list.find?
        (fun v => v.name == env.vhost_name_from_domain request_url.domain) = some vhost)
    (hparsed : vhost.signed_url.is_parsed = true)
    (hkey : vhost.signed_url.crypto_key.isEmpty = false) :
    (mapFind request_url.query_map "rtspURI".toList = none →
        (HandleSignedUrl env table app_name stream_name client request_url).ok = false ∧
        (OnPlayListRequest env w table client app_name stream_name).status =
          some .Forbidden) ∧
      ∀ (remote : SocketAddress) (token rtsp : Str) (signed_url : SignedUrl),
        client.remote_address = some remote →
        mapFind request_url.query_map vhost.signed_url.query_string_key = some token →
        mapFind request_url.query_map "rtspURI".toList = some rtsp →
        env.load vhost.signed_url.crypto_key token = some signed_url →
        signed_url.token_expired = false →
        signed_url.stream_expired = false →
        UpperCaseString signed_url.url =
          UpperCaseString (request_url.url_string_no_query ++ "?rtspURI=".toList ++
            env.url_encode rtsp) →
        (signed_url.allowed_client remote = true →
          (HandleSignedUrl env table app_name stream_name client request_url).ok = true ∧
          OnPlayListRequest env w table client app_name stream_name =
            lookupAndServe env w
              (UpdatePlaylistRequestInfo table
                (makeRequestInfo env app_name stream_name remote signed_url))
              app_name stream_name request_url [Event.signedUrl true]) ∧
        (signed_url.allowed_client remote = false →
          (HandleSignedUrl env table app_name stream_name client request_url).ok = false ∧
          (OnPlayListRequest env w table client app_name stream_name).status =
            some .Forbidden) := by
  constructor
  · intro hnone
    have hrej := HandleSignedUrl_no_rtspURI env table app_name stream_name client request_url
      vhost hname hvhost hparsed hkey hnone
    exact ⟨hrej, by
      rw [OnPlayListRequest_rejected env w table client app_name stream_name request_url
        hparse hsecure hrej]⟩
  · intro remote token rtsp signed_url hremote htoken hrtsp hload hfresh hstream hurl
    have hchk := HandleSignedUrl_checked env table app_name stream_name client request_url
      vhost remote token rtsp signed_url hname hvhost hparsed hkey hremote htoken hrtsp hload
    have hiff := signedUrlChecks_fst table remote signed_url
      (makeRequestInfo env app_name stream_name remote signed_url)
      (urlToCompare env request_url rtsp)
    constructor
    · intro hallowed
      have hc := hiff.2 ⟨Or.inl hfresh, hstream, hallowed, hurl⟩
      have hadm : (HandleSignedUrl env table app_name stream_name client request_url).ok =
          true := by rw [hchk]; simp [hc]
      refine ⟨hadm, ?_⟩
      rw [OnPlayListRequest_admitted env w table client app_name stream_name request_url
        hparse hsecure hadm, hchk]
      simp [hc]
    · intro hdenied
      have hc : ¬ (signedUrlChecks table remote signed_url
          (makeRequestInfo env app_name stream_name remote signed_url)
          (urlToCompare env request_url rtsp)).1 = true := by
        rw [hiff]
        rintro ⟨-, -, h, -⟩
        rw [hdenied] at h
        exact Bool.noConfusion h
      have hrej : (HandleSignedUrl env table app_name stream_name client request_url).ok =
          false := by rw [hchk]; simp [hc]
      exact ⟨hrej, by
        rw [OnPlayListRequest_rejected env w table client app_name stream_name request_url
          hparse hsecure hrej]⟩

/-- C3, the claim as written fails: `GET /app/s/idx.m3u8?t=plain` from `1.2.3.4`,
with an unexpired token that signs the request URL and allows `1.2.3.4`, is
rejected by `HandleSignedUrl` and answered with 403, because the query string has
no `rtspURI`. -/
theorem token_only_request_is_rejected :
    demoLoad "K".toList "plain".toList =
        some { demoToken false "S1".toList with url := "http://host/app/s/idx.m3u8".toList } ∧
      (demoToken false "S1".toList).allowed_client
        { ip_address := "1.2.3.4".toList, port := 50000 } = true ∧
      (HandleSignedUrl demoEnv [] "app".toList "s".toList
        (demoClient "1.2.3.4" "/app/s/idx.m3u8?t=plain")
        (demoUrl [("t".toList, "plain".toList)])).ok = false ∧
      (OnPlayListRequest demoEnv true [] (demoClient "1.2.3.4" "/app/s/idx.m3u8?t=plain")
        "app".toList "s".toList).status = some .Forbidden :=
  ⟨rfl, by decide, by decide, by decide⟩

/-- C3 (amended), at the deployment: the token-only request is answered 403; the
request with `rtspURI` and the fresh token is admitted from `1.2.3.4` and
answered 403 from `9.9.9.9`. -/
theorem signed_request_admission_witness :
    ((HandleSignedUrl demoEnv [] "app".toList "s".toList
          (demoClient "1.2.3.4" "/app/s/idx.m3u8?t=plain")
          (demoUrl [("t".toList, "plain".toList)])).ok = false ∧
        (OnPlayListRequest demoEnv true [] (demoClient "1.2.3.4" "/app/s/idx.m3u8?t=plain")
          "app".toList "s".toList).status = some .Forbidden) ∧
      (HandleSignedUrl demoEnv [] "app".toList "s".toList
        (demoClient "1.2.3.4" "/app/s/idx.m3u8?rtspURI=cam1&t=fresh")
        (demoUrl [("rtspURI".toList, "cam1".toList),
          ("t".toList, "fresh".toList)])).ok = true ∧
      (OnPlayListRequest demoEnv true []
        (demoClient "9.9.9.9" "/app/s/idx.m3u8?rtspURI=cam1&t=fresh")
        "app".toList "s".toList).status = some .Forbidden :=
  ⟨(signed_request_admission demoEnv true []
      (demoClient "1.2.3.4" "/app/s/idx.m3u8?t=plain") "app".toList "s".toList
      (demoUrl [("t".toList, "plain".toList)]) demoVhost
      (by decide) (by decide) (by decide) (by decide) (by decide) (by decide)).1 (by decide),
    (((signed_request_admission demoEnv true []
      (demoClient "1.2.3.4" "/app/s/idx.m3u8?rtspURI=cam1&t=fresh") "app".toList "s".toList
      (demoUrl [("rtspURI".toList, "cam1".toList), ("t".toList, "fresh".toList)]) demoVhost
      (by decide) (by decide) (by decide) (by decide) (by decide) (by decide)).2
      { ip_address := "1.2.3.4".toList, port := 50000 } "fresh".toList "cam1".toList
      (demoToken false "S1".toList) (by decide) (by decide) (by decide) rfl (by decide)
      (by decide) (by decide)).1 (by decide)).1,
    (((signed_request_admission demoEnv true []
      (demoClient "9.9.9.9" "/app/s/idx.m3u8?rtspURI=cam1&t=fresh") "app".toList "s".toList
      (demoUrl [("rtspURI".toList, "cam1".toList), ("t".toList, "fresh".toList)]) demoVhost
      (by decide) (by decide) (by decide) (by decide) (by decide) (by decide)).2
      { ip_address := "9.9.9.9".toList, port := 50000 } "fresh".toList "cam1".toList
      (demoToken false "S1".toList) (by decide) (by decide) (by decide) rfl (by decide)
      (by decide) (by decide)).2 (by decide)).2⟩

/-- The tail of `OnPlayListRequest` keeps the calls made so far. -/
theorem finishPlayList_events (table : PlaylistTable) (w : W) (events : List Event)
    (stream : Option SegmentStream) :
    (finishPlayList table w events stream).events = events := by
  cases stream with
  | none => rfl
  | some s => cases h : s.play_list <;> simp [finishPlayList, h]

/-- The stream lookup only adds calls after those already made. -/
theorem lookupAndServe_events (env : Env W) (w : W) (table : PlaylistTable)
    (app_name stream_name : Str) (parsed_url : Url) (events : List Event) :
    ∃ later, (lookupAndServe env w table app_name stream_name parsed_url events).events =
      events ++ later := by
  unfold lookupAndServe
  cases env.get_stream w app_name stream_name with
  | some s =>
    exact ⟨[Event.getStream app_name stream_name], by simp only [finishPlayList_events]⟩
  | none =>
    by_cases hr : isRtspApp app_name = true
    · simp only [hr, if_true]
      cases mapFind parsed_url.query_map "rtspURI".toList with
      | none => exact ⟨[Event.getStream app_name stream_name], rfl⟩
      | some rtsp_uri =>
        cases hp : (env.request_pull_stream w app_name stream_name (some rtsp_uri)).1 with
        | true =>
          refine ⟨[Event.getStream app_name stream_name,
            Event.requestPull app_name stream_name (some rtsp_uri),
            Event.getStream app_name stream_name], ?_⟩
          simp [hp, finishPlayList_events]
        | false =>
          refine ⟨[Event.getStream app_name stream_name,
            Event.requestPull app_name stream_name (some rtsp_uri)], ?_⟩
          simp [hp]
    · simp only [hr]
      cases hp : (env.request_pull_stream w app_name stream_name none).1 with
      | true =>
        refine ⟨[Event.getStream app_name stream_name,
          Event.requestPull app_name stream_name none,
          Event.getStream app_name stream_name], ?_⟩
        simp [hp, finishPlayList_events]
      | false =>
        refine ⟨[Event.getStream app_name stream_name,
          Event.requestPull app_name stream_name none], ?_⟩
        simp [hp]

/-- C4 (amended): for an application name that does not end in `_insecure`, a
playlist response (status 200 or 202, or a pull request to the Orchestrator)
is produced only if `HandleSignedUrl` was evaluated first for the parsed request
URL and returned true; for an application name that ends in `_insecure`,
`HandleSignedUrl` is not evaluated and the request goes straight to the stream
lookup. -/
theorem admission_enforced_unless_insecure (env : Env W) (w : W) (table : PlaylistTable)
    (client : HttpClient) (app_name stream_name : Str) :
    (HasSuffix app_name "_insecure".toList = false →
        ((OnPlayListRequest env w table client app_name stream_name).status = some .OK ∨
          (OnPlayListRequest env w table client app_name stream_name).status =
            some .Accepted ∨
          ∃ a b u, Event.requestPull a b u ∈
            (OnPlayListRequest env w table client app_name stream_name).events) →
        ∃ request_url, env.url_parse client.uri = some request_url ∧
          (HandleSignedUrl env table app_name stream_name client request_url).ok = true ∧
          (OnPlayListRequest env w table client app_name stream_name).events.head? =
            some (Event.signedUrl true)) ∧
      (HasSuffix app_name "_insecure".toList = true →
        ∀ request_url, env.url_parse client.uri = some request_url →
          OnPlayListRequest env w table client app_name stream_name =
            lookupAndServe env w table app_name stream_name request_url []) := by
  constructor
  · intro hsecure hout
    cases hparse : env.url_parse client.uri with
    | none =>
      exfalso
      have hr : OnPlayListRequest env w table client app_name stream_name =
          { ret := true, status := some .BadRequest, play_list := none, table := table,
            world := w, events := [] } := by
        unfold OnPlayListRequest
        simp only [hparse]
      rw [hr] at hout
      simp at hout
    | some request_url =>
      cases hok : (HandleSignedUrl env table app_name stream_name client request_url).ok with
      | false =>
        exfalso
        rw [OnPlayListRequest_rejected env w table client app_name stream_name request_url
          hparse hsecure hok] at hout
        simp at hout
      | true =>
        refine ⟨request_url, rfl, hok, ?_⟩
        rw [OnPlayListRequest_admitted env w table client app_name stream_name request_url
          hparse hsecure hok]
        obtain ⟨later, hl⟩ := lookupAndServe_events env w
          (HandleSignedUrl env table app_name stream_name client request_url).table
          app_name stream_name request_url [Event.signedUrl true]
        rw [hl]
        rfl
  · intro hinsecure request_url hparse
    unfold OnPlayListRequest
    simp only [hparse, hinsecure]
    simp

/-- C4, the claim as written fails: on the virtual host that configures the key
`K`, a request without any token from `9.9.9.9` for the application
`app_insecure` gets status 200 although `HandleSignedUrl` is not evaluated (and
returns false for this request). -/
theorem insecure_application_skips_admission :
    (OnPlayListRequest demoEnv true [] (demoClient "9.9.9.9" "/app/s/idx.m3u8")
        "app_insecure".toList "s".toList).status = some .OK ∧
      (OnPlayListRequest demoEnv true [] (demoClient "9.9.9.9" "/app/s/idx.m3u8")
        "app_insecure".toList "s".toList).events =
          [Event.getStream "app_insecure".toList "s".toList] ∧
      (HandleSignedUrl demoEnv [] "app_insecure".toList "s".toList
        (demoClient "9.9.9.9" "/app/s/idx.m3u8") (demoUrl [])).ok = false :=
  ⟨by decide, by decide, by decide⟩

/-- C4 (amended), at the deployment: the request of `1.2.3.4` for the application
`app` gets status 200 after `HandleSignedUrl` returned true, and the request for
`app_insecure` goes straight to the stream lookup. -/
theorem admission_enforced_unless_insecure_witness :
    (∃ request_url,
      demoEnv.url_parse
        (demoClient "1.2.3.4" "/app/s/idx.m3u8?rtspURI=cam1&t=fresh").uri = some request_url ∧
      (HandleSignedUrl demoEnv [] "app".toList "s".toList
        (demoClient "1.2.3.4" "/app/s/idx.m3u8?rtspURI=cam1&t=fresh") request_url).ok = true ∧
      (OnPlayListRequest demoEnv true []
        (demoClient "1.2.3.4" "/app/s/idx.m3u8?rtspURI=cam1&t=fresh")
        "app".toList "s".toList).events.head? = some (Event.signedUrl true)) ∧
      OnPlayListRequest demoEnv true [] (demoClient "9.9.9.9" "/app/s/idx.m3u8")
          "app_insecure".toList "s".toList =
        lookupAndServe demoEnv true [] "app_insecure".toList "s".toList (demoUrl []) [] :=
  ⟨(admission_enforced_unless_insecure demoEnv true []
      (demoClient "1.2.3.4" "/app/s/idx.m3u8?rtspURI=cam1&t=fresh") "app".toList
      "s".toList).1 (by decide) (Or.inl (by decide)),
    (admission_enforced_unless_insecure demoEnv true []
      (demoClient "9.9.9.9" "/app/s/idx.m3u8") "app_insecure".toList "s".toList).2
      (by decide) (demoUrl []) (by decide)⟩

/-- C5: whenever `HandleSignedUrl` is evaluated for a playlist request and returns
false, `OnPlayListRequest` sets status 403 and returns true, with no stream
lookup and no pull request, and the playlist-request table and the streams are
as before; this holds whichever check failed. -/
theorem OnPlayListRequest_forbidden (env : Env W) (w : W) (table : PlaylistTable)
    (client : HttpClient) (app_name stream_name : Str) (request_url : Url)
    (hparse : env.url_parse client.uri = some request_url)
    (hsecure : HasSuffix app_name "_insecure".toList = false)
    (hrej : (HandleSignedUrl env table app_name stream_name client request_url).ok = false) :
    (OnPlayListRequest env w table client app_name stream_name).status = some .Forbidden ∧
      (OnPlayListRequest env w table client app_name stream_name).ret = true ∧
      (OnPlayListRequest env w table client app_name stream_name).events =
        [Event.signedUrl false] ∧
      (OnPlayListRequest env w table client app_name stream_name).table = table ∧
      (OnPlayListRequest env w table client app_name stream_name).world = w ∧
      (OnPlayListRequest env w table client app_name stream_name).play_list = none ∧
      (HandleSignedUrl env table app_name stream_name client request_url).table = table := by
  have htable := HandleSignedUrl_false_table env table app_name stream_name client
    request_url hrej
  have hr : OnPlayListRequest env w table client app_name stream_name =
      { ret := true, status := some .Forbidden, play_list := none, table := table,
        world := w, events := [Event.signedUrl false] } := by
    unfold OnPlayListRequest
    simp only [hparse, hsecure, hrej]
    simp [htable]
  rw [hr]
  exact ⟨rfl, rfl, rfl, rfl, rfl, rfl, htable⟩

/-- C5, at the deployment: the fresh token presented from `9.9.9.9`, on a table
that already holds an authorized session. -/
theorem OnPlayListRequest_forbidden_witness :
    (OnPlayListRequest demoEnv true
        [("S2".toList, makeRequestInfo demoEnv "app".toList "s".toList
          { ip_address := "1.2.3.4".toList, port := 50000 } (demoToken false "S2".toList))]
        (demoClient "9.9.9.9" "/app/s/idx.m3u8?rtspURI=cam1&t=fresh")
        "app".toList "s".toList).status = some .Forbidden :=
  (OnPlayListRequest_forbidden demoEnv true
    [("S2".toList, makeRequestInfo demoEnv "app".toList "s".toList
      { ip_address := "1.2.3.4".toList, port := 50000 } (demoToken false "S2".toList))]
    (demoClient "9.9.9.9" "/app/s/idx.m3u8?rtspURI=cam1&t=fresh") "app".toList "s".toList
    (demoUrl [("rtspURI".toList, "cam1".toList), ("t".toList, "fresh".toList)])
    (by decide) (by decide) (by decide)).1

/-- C6: when the virtual host of the request has no parsed signed-URL
configuration or an empty crypto key, `HandleSignedUrl` returns true whatever the
client, the query string and the decoder are, and the playlist-request table is
as before. -/
theorem HandleSignedUrl_open_admission (env : Env W) (table : PlaylistTable)
    (app_name stream_name : Str) (client : HttpClient) (request_url : Url)
    (vhost : VirtualHost)
    (hname : (env.vhost_name_from_domain request_url.domain).isEmpty = false)
    (hvhost : env.vhost_list.find?
        (fun v => v.name == env.vhost_name_from_domain request_url.domain) = some vhost)
    (hopen : vhost.signed_url.is_parsed = false ∨ vhost.signed_url.crypto_key = []) :
    (HandleSignedUrl env table app_name stream_name client request_url).ok = true ∧
      (HandleSignedUrl env table app_name stream_name client request_url).table = table := by
  have hguard : (!vhost.signed_url.is_parsed || vhost.signed_url.crypto_key.isEmpty) = true := by
    rcases hopen with h | h
    · simp [h]
    · simp [h]
  unfold HandleSignedUrl
  simp only [hname, hvhost, hguard]
  simp

/-- C6, at a deployment whose virtual host has an empty crypto key: a request
without token from `9.9.9.9` is admitted and the table stays empty. -/
theorem HandleSignedUrl_open_admission_witness :
    (HandleSignedUrl
        { demoEnv with vhost_list :=
            [{ name := "default".toList
               signed_url := { is_parsed := true, crypto_key := [], query_string_key := [] } }] }
        [] "app".toList "s".toList (demoClient "9.9.9.9" "/app/s/idx.m3u8") (demoUrl [])).ok =
        true ∧
      (HandleSignedUrl
        { demoEnv with vhost_list :=
            [{ name := "default".toList
               signed_url := { is_parsed := true, crypto_key := [], query_string_key := [] } }] }
        [] "app".toList "s".toList (demoClient "9.9.9.9" "/app/s/idx.m3u8")
        (demoUrl [])).table = [] :=
  HandleSignedUrl_open_admission
    { demoEnv with vhost_list :=
        [{ name := "default".toList
           signed_url := { is_parsed := true, crypto_key := [], query_string_key := [] } }] }
    [] "app".toList "s".toList (demoClient "9.9.9.9" "/app/s/idx.m3u8") (demoUrl [])
    { name := "default".toList
      signed_url := { is_parsed := true, crypto_key := [], query_string_key := [] } }
    (by decide) (by decide) (Or.inr rfl)

end Admission

/-! ## Theorems: CORS -/

/-- The test `UrlExistCheck` is membership. -/
theorem UrlExistCheck_iff (l : List Str) (x : Str) : UrlExistCheck l x = true ↔ x ∈ l := by
  unfold UrlExistCheck
  rw [List.find?_isSome]
  constructor
  · rintro ⟨y, hy, h⟩
    have : x = y := by simpa using h
    exact this ▸ hy
  · intro h
    exact ⟨x, h, by simp⟩

/-- The members of a list after `push_back` of a URL that is not yet in it. -/
theorem mem_pushIfAbsent (l : List Str) (x u : Str) :
    u ∈ pushIfAbsent l x ↔ u ∈ l ∨ u = x := by
  unfold pushIfAbsent
  by_cases h : UrlExistCheck l x = true
  · rw [if_pos h]
    constructor
    · exact Or.inl
    · rintro (h' | h')
      · exact h'
      · rw [h']; exact (UrlExistCheck_iff l x).1 h
  · rw [if_neg h]
    simp

/-- The test `HasSuffix` is the suffix relation on lists. -/
theorem HasSuffix_iff (s suf : Str) : HasSuffix s suf = true ↔ suf <:+ s := by
  unfold HasSuffix
  exact List.isSuffixOf_iff_suffix

/-- Against the entry `http://*.D` the predicate of `SetAllowOrigin` tests the
suffix `.D`. -/
theorem corsMatch_http_wildcard (origin D : Str) :
    corsMatch origin ("http://*.".toList ++ D) = HasSuffix origin ('.' :: D) := by
  have h8 : "http://*".length = 8 := by decide
  simp [corsMatch, HasPrefix, Substring, h8]

/-- C7: with the CORS list made of the one entry `http://*.D` (as `SetCrossDomain`
builds it from that URL on a new server), every origin `http://<sub>.D` is
accepted and echoed in `Access-Control-Allow-Origin`, and every origin that does
not end with `.D` is rejected without that header. -/
theorem wildcard_entry_accepts_subdomains (s : SegmentStreamServer) (D sub origin : Str)
    (hs : s.cors_urls = ["http://*.".toList ++ D]) :
    (SetCrossDomain SegmentStreamServer.new ["http://*.".toList ++ D]).cors_urls =
        ["http://*.".toList ++ D] ∧
      SetAllowOrigin s ("http://".toList ++ sub ++ '.' :: D) =
        (true, some ("http://".toList ++ sub ++ '.' :: D)) ∧
      (¬ ('.' :: D) <:+ origin → SetAllowOrigin s origin = (false, none)) := by
  refine ⟨?_, ?_, ?_⟩
  · have hne : ("http://*.".toList ++ D) ≠ "*".toList := by simp
    have hp : HasPrefix ("http://*.".toList ++ D) http_prefix = true := by
      simp [HasPrefix, http_prefix]
    have hnew : SegmentStreamServer.new.cors_urls = [] := rfl
    simp only [SetCrossDomain, crossDomainLoop, crossDomainStep, hne, hp, hnew, if_true,
      if_false, List.isEmpty_cons]
    simp [pushIfAbsent, UrlExistCheck]
  · have hm : corsMatch ("http://".toList ++ sub ++ '.' :: D) ("http://*.".toList ++ D) =
        true := by
      rw [corsMatch_http_wildcard, HasSuffix_iff]
      exact List.suffix_append _ _
    unfold SetAllowOrigin
    rw [hs]
    simp only [List.isEmpty_cons, List.find?_cons, hm]
    simp
  · intro hno
    have hm : corsMatch origin ("http://*.".toList ++ D) = false := by
      rw [corsMatch_http_wildcard, ← Bool.not_eq_true, HasSuffix_iff]
      exact hno
    unfold SetAllowOrigin
    rw [hs]
    simp only [List.isEmpty_cons, List.find?_cons, hm]
    simp

/-- C7, the example of the spec: `http://*.example.com` accepts
`http://x.example.com` and rejects `http://example.com.evil`. -/
theorem wildcard_entry_accepts_subdomains_witness :
    SetAllowOrigin
        (SetCrossDomain SegmentStreamServer.new ["http://*.example.com".toList])
        "http://x.example.com".toList = (true, some "http://x.example.com".toList) ∧
      SetAllowOrigin
        (SetCrossDomain SegmentStreamServer.new ["http://*.example.com".toList])
        "http://example.com.evil".toList = (false, none) :=
  have h := wildcard_entry_accepts_subdomains
    (SetCrossDomain SegmentStreamServer.new ["http://*.example.com".toList])
    "example.com".toList "x".toList "http://example.com.evil".toList (by decide)
  ⟨h.2.1, h.2.2 (by decide)⟩

/-- One iteration of the loop of `SetCrossDomain` adds `corsEntries url` to the
CORS list. -/
theorem mem_crossDomainStep (url : Str) (st : List Str × List Str) (u : Str) :
    u ∈ (crossDomainStep url st).2 ↔ u ∈ st.2 ∨ u ∈ corsEntries url := by
  unfold crossDomainStep corsEntries
  by_cases h1 : HasPrefix url http_prefix = true
  · simp [h1, mem_pushIfAbsent]
  · by_cases h2 : HasPrefix url https_prefix = true
    · simp [h1, h2, mem_pushIfAbsent]
    · simp [h1, h2, mem_pushIfAbsent, or_assoc]

/-- Without an entry `*` the loop of `SetCrossDomain` runs to its end, and the
CORS list then holds what it held before and the entries of every URL. -/
theorem crossDomainLoop_some (url_list : List Str) (hstar : "*".toList ∉ url_list)
    (st : List Str × List Str) :
    ∃ st', crossDomainLoop url_list st = some st' ∧
      ∀ u, u ∈ st'.2 ↔ u ∈ st.2 ∨ ∃ e ∈ url_list, u ∈ corsEntries e := by
  induction url_list generalizing st with
  | nil => exact ⟨st, rfl, by simp⟩
  | cons url rest ih =>
    have hne : url ≠ "*".toList := fun h => hstar (h ▸ List.mem_cons_self _ _)
    have hrest : "*".toList ∉ rest := fun h => hstar (List.mem_cons_of_mem _ h)
    obtain ⟨st', hl, hm⟩ := ih hrest (crossDomainStep url st)
    refine ⟨st', ?_, ?_⟩
    · unfold crossDomainLoop
      rw [if_neg hne]
      exact hl
    · intro u
      rw [hm u, mem_crossDomainStep]
      simp only [List.mem_cons, exists_eq_or_imp, or_assoc]

/-- With an entry `*` anywhere in the list the loop of `SetCrossDomain` takes the
early return. -/
theorem crossDomainLoop_star (url_list : List Str) (hstar : "*".toList ∈ url_list)
    (st : List Str × List Str) : crossDomainLoop url_list st = none := by
  induction url_list generalizing st with
  | nil => exact absurd hstar (List.not_mem_nil _)
  | cons url rest ih =>
    unfold crossDomainLoop
    by_cases hne : url = "*".toList
    · rw [if_pos hne]
    · rw [if_neg hne]
      rcases List.mem_cons.1 hstar with h | h
      · exact absurd h.symm hne
      · exact ih h _

/-- An entry of the CORS list that comes from a URL without wildcard is compared
with the origin character for character. -/
theorem corsMatch_exact (origin e u : Str) (hu : u ∈ corsEntries e)
    (hw : HasPrefix e "http://*.".toList = false ∧ HasPrefix e "https://*.".toList = false ∧
      HasPrefix e "*.".toList = false) :
    corsMatch origin u = (origin == u) := by
  obtain ⟨hw1, hw2, hw3⟩ := hw
  unfold corsEntries at hu
  unfold corsMatch
  by_cases h1 : HasPrefix e http_prefix = true
  · rw [if_pos h1] at hu
    have : u = e := by simpa using hu
    subst this
    rw [hw1, hw2]
    rfl
  · by_cases h2 : HasPrefix e https_prefix = true
    · rw [if_neg h1, if_pos h2] at hu
      have : u = e := by simpa using hu
      subst this
      rw [hw1, hw2]
      rfl
    · rw [if_neg h1, if_neg h2] at hu
      have hp : ∀ p : Str, HasPrefix ( http_prefix ++ e) ("http://".toList ++ p) =
          HasPrefix e p := by
        intro p; simp [HasPrefix, http_prefix]
      have hps : ∀ p : Str, HasPrefix ( https_prefix ++ e) ("https://".toList ++ p) =
          HasPrefix e p := by
        intro p; simp [HasPrefix, https_prefix]
      have a1 : HasPrefix ( http_prefix ++ e) "http://*.".toList = false := by
        have := hp "*.".toList
        simp only [hw3] at this
        exact this
      have a2 : HasPrefix ( http_prefix ++ e) "https://*.".toList = false := by
        simp [HasPrefix, http_prefix, List.isPrefixOf]
      have b1 : HasPrefix ( https_prefix ++ e) "http://*.".toList = false := by
        simp [HasPrefix, https_prefix, List.isPrefixOf]
      have b2 : HasPrefix ( https_prefix ++ e) "https://*.".toList = false := by
        have := hps "*.".toList
        simp only [hw3] at this
        exact this
      rcases List.mem_cons.1 hu with h | h
      · subst h; rw [a1, a2]; rfl
      · have : u = https_prefix ++ e := by simpa using h
        subst this; rw [b1, b2]; rfl

/-- C8 (amended): a URL list that contains `*` at any position leaves the CORS
list empty, and `SetAllowOrigin` then accepts every origin with the header value
`*`; for a non-empty list without `*` and without wildcard entries, set on a new
server, `SetAllowOrigin` accepts an origin exactly when it equals a configured
`http://` or `https://` entry or `http://d` or `https://d` for a configured
scheme-less entry d. -/
theorem star_and_exact_origins (s : SegmentStreamServer) (url_list : List Str)
    (origin : Str) :
    ("*".toList ∈ url_list →
        (SetCrossDomain s url_list).cors_urls = [] ∧
        SetAllowOrigin (SetCrossDomain s url_list) origin = (true, some "*".toList)) ∧
      (url_list ≠ [] → "*".toList ∉ url_list →
        (∀ e ∈ url_list, HasPrefix e "http://*.".toList = false ∧
          HasPrefix e "https://*.".toList = false ∧ HasPrefix e "*.".toList = false) →
        ((SetAllowOrigin (SetCrossDomain SegmentStreamServer.new url_list) origin).1 = true ↔
          ∃ e ∈ url_list,
            ((HasPrefix e http_prefix = true ∨ HasPrefix e https_prefix = true) ∧
              origin = e) ∨
            (HasPrefix e http_prefix = false ∧ HasPrefix e https_prefix = false ∧
              (origin = http_prefix ++ e ∨ origin = https_prefix ++ e)))) := by
  constructor
  · intro hstar
    have hne : url_list.isEmpty = false := by
      cases url_list with
      | nil => exact absurd hstar (List.not_mem_nil _)
      | cons a l => rfl
    have hc : (SetCrossDomain s url_list).cors_urls = [] := by
      unfold SetCrossDomain
      rw [hne, crossDomainLoop_star url_list hstar]
      rfl
    refine ⟨hc, ?_⟩
    unfold SetAllowOrigin
    rw [hc]
    rfl
  · intro hne hstar hw
    obtain ⟨st', hl, hm⟩ := crossDomainLoop_some url_list hstar ([], [])
    have hempty : url_list.isEmpty = false := by
      cases url_list with
      | nil => exact absurd rfl hne
      | cons a l => rfl
    have hc : (SetCrossDomain SegmentStreamServer.new url_list).cors_urls = st'.2 := by
      unfold SetCrossDomain
      rw [hempty]
      have hnew : SegmentStreamServer.new.cors_urls = [] := rfl
      rw [hnew, hl]
      rfl
    have hmem : ∀ u, u ∈ st'.2 ↔ ∃ e ∈ url_list, u ∈ corsEntries e := by
      intro u
      rw [hm u]
      simp
    have hentries : ∀ e u : Str, u ∈ corsEntries e ↔
        ((HasPrefix e http_prefix = true ∨ HasPrefix e https_prefix = true) ∧ u = e) ∨
          (HasPrefix e http_prefix = false ∧ HasPrefix e https_prefix = false ∧
            (u = http_prefix ++ e ∨ u = https_prefix ++ e)) := by
      intro e u
      unfold corsEntries
      cases HasPrefix e http_prefix <;> cases HasPrefix e https_prefix <;> simp
    have hnonempty : st'.2.isEmpty = false := by
      obtain ⟨e, he⟩ := List.exists_mem_of_ne_nil url_list hne
      have hx : ∃ u, u ∈ corsEntries e := by
        unfold corsEntries
        by_cases h1 : HasPrefix e http_prefix = true
        · exact ⟨e, by simp [h1]⟩
        · by_cases h2 : HasPrefix e https_prefix = true
          · exact ⟨e, by simp [h1, h2]⟩
          · exact ⟨ http_prefix ++ e, by simp [h1, h2]⟩
      obtain ⟨u, hu⟩ := hx
      have : u ∈ st'.2 := (hmem u).2 ⟨e, he, hu⟩
      cases h : st'.2 with
      | nil => rw [h] at this; exact absurd this (List.not_mem_nil _)
      | cons a l => rfl
    have hfind : (st'.2.find? (corsMatch origin)).isSome = true ↔ origin ∈ st'.2 := by
      rw [List.find?_isSome]
      constructor
      · rintro ⟨u, hu, hmatch⟩
        obtain ⟨e, he, hue⟩ := (hmem u).1 hu
        rw [corsMatch_exact origin e u hue (hw e he)] at hmatch
        have : origin = u := by simpa using hmatch
        exact this ▸ hu
      · intro ho
        obtain ⟨e, he, hoe⟩ := (hmem origin).1 ho
        exact ⟨origin, ho, by rw [corsMatch_exact origin e origin hoe (hw e he)]; simp⟩
    have hres : (SetAllowOrigin (SetCrossDomain SegmentStreamServer.new url_list) origin).1 =
        (st'.2.find? (corsMatch origin)).isSome := by
      unfold SetAllowOrigin
      rw [hc, hnonempty]
      cases st'.2.find? (corsMatch origin) <;> rfl
    rw [hres, hfind, hmem]
    constructor
    · rintro ⟨e, he, h⟩
      exact ⟨e, he, (hentries e origin).1 h⟩
    · rintro ⟨e, he, h⟩
      exact ⟨e, he, (hentries e origin).2 h⟩

/-- C8, the claim as written fails for the empty URL list: nothing is configured,
yet `SetAllowOrigin` accepts the origin `http://evil.test` (with the header value
`*`). -/
theorem empty_url_list_accepts_every_origin :
    SetAllowOrigin (SetCrossDomain SegmentStreamServer.new []) "http://evil.test".toList =
      (true, some "*".toList) :=
  by decide

/-- C8 (amended), at the lists `[a.com, *]` and `[http://a.com, b.org]`: the
first leaves the CORS list empty, and with the second the origin `https://b.org`
is accepted. -/
theorem star_and_exact_origins_witness :
    (SetCrossDomain SegmentStreamServer.new ["a.com".toList, "*".toList]).cors_urls = [] ∧
      (SetAllowOrigin
        (SetCrossDomain SegmentStreamServer.new ["http://a.com".toList, "b.org".toList])
        "https://b.org".toList).1 = true :=
  ⟨((star_and_exact_origins SegmentStreamServer.new ["a.com".toList, "*".toList]
      "https://b.org".toList).1 (by decide)).1,
    ((star_and_exact_origins SegmentStreamServer.new
      ["http://a.com".toList, "b.org".toList] "https://b.org".toList).2
    (by decide) (by decide) (by decide)).2
    ⟨"b.org".toList, by decide, Or.inr ⟨by decide, by decide, Or.inr (by decide)⟩⟩⟩

/-! ## Theorems: ParseRequestUrl -/

/-- The first piece of `Split` is the part before the first separator. -/
theorem Split_eq_cons (sep : Char) (s : Str) :
    ∃ rest, Split sep s = s.takeWhile (fun c => c != sep) :: rest := by
  induction s with
  | nil => exact ⟨[], rfl⟩
  | cons c cs ih =>
    obtain ⟨rest, hr⟩ := ih
    unfold Split
    by_cases h : c = sep
    · exact ⟨Split sep cs, by simp [h]⟩
    · refine ⟨rest, ?_⟩
      rw [if_neg h, hr]
      simp [h]

/-- The pieces of `Split` are one more than the separators in the string. -/
theorem Split_length (sep : Char) (s : Str) : (Split sep s).length = s.count sep + 1 := by
  induction s with
  | nil => rfl
  | cons c cs ih =>
    obtain ⟨rest, hr⟩ := Split_eq_cons sep cs
    unfold Split
    by_cases h : c = sep
    · rw [if_pos h, List.length_cons, ih, h, List.count_cons_self]
    · rw [if_neg h]
      rw [hr] at ih
      rw [hr, List.count_cons_of_ne (Ne.symm h)]
      simpa using ih

/-- Joining the pieces of `Split` with the separator gives the string back. -/
theorem Split_join (sep : Char) (s : Str) : [sep].intercalate (Split sep s) = s := by
  induction s with
  | nil => rfl
  | cons c cs ih =>
    obtain ⟨rest, hr⟩ := Split_eq_cons sep cs
    unfold Split
    by_cases h : c = sep
    · rw [if_pos h]
      rw [hr] at ih ⊢
      rw [h]
      simpa [List.intercalate] using ih
    · rw [if_neg h]
      rw [hr] at ih ⊢
      cases rest with
      | nil => simpa [List.intercalate] using ih
      | cons r rs => simpa [List.intercalate] using ih

/-- No piece of `Split` contains the separator. -/
theorem Split_no_sep (sep : Char) (s : Str) : ∀ t ∈ Split sep s, sep ∉ t := by
  induction s with
  | nil => intro t ht; simp [Split] at ht; simp [ht]
  | cons c cs ih =>
    intro t ht
    unfold Split at ht
    by_cases h : c = sep
    · rw [if_pos h] at ht
      rcases List.mem_cons.1 ht with h' | h'
      · simp [h']
      · exact ih t h'
    · rw [if_neg h] at ht
      cases hs : Split sep cs with
      | nil => rw [hs] at ht; simp at ht; simp [ht, Ne.symm h]
      | cons a l =>
        rw [hs] at ht ih
        rcases List.mem_cons.1 ht with h' | h'
        · rw [h']
          have := ih a (List.mem_cons_self _ _)
          simp [this, Ne.symm h]
        · exact ih t (List.mem_cons_of_mem _ h')

/-- The result of `ParseRequestUrl` depends on the request target only through the part before
the first `?`. -/
theorem ParseRequestUrl_path (request_url : Str) (init : ParsedRequest) :
    ParseRequestUrl request_url init =
      ParseRequestUrl (request_url.takeWhile (fun c => c != '?')) init := by
  obtain ⟨r1, h1⟩ := Split_eq_cons '?' request_url
  obtain ⟨r2, h2⟩ := Split_eq_cons '?' (request_url.takeWhile (fun c => c != '?'))
  rw [List.takeWhile_idem] at h2
  unfold ParseRequestUrl
  simp only [h1, h2]

/-- C9: `ParseRequestUrl` returns true exactly when the part before the first `?`
splits on `/` into at least three components and the last one splits on `.` into
exactly two parts (it holds exactly one dot); then app_name, stream_name and
file_name are the last three components, file_name is the whole last component,
file_ext is its part after the dot, and nothing depends on the query string. -/
theorem ParseRequestUrl_shape (request_url : Str) (init : ParsedRequest) :
    ((ParseRequestUrl request_url init).ok = true ↔
        3 ≤ (Split '/' (request_url.takeWhile (fun c => c != '?'))).length ∧
        (Split '.' ((Split '/' (request_url.takeWhile (fun c => c != '?'))).getD
          ((Split '/' (request_url.takeWhile (fun c => c != '?'))).length - 1) [])).length =
            2) ∧
      ((ParseRequestUrl request_url init).ok = true →
        (ParseRequestUrl request_url init).app_name =
          (Split '/' (request_url.takeWhile (fun c => c != '?'))).getD
            ((Split '/' (request_url.takeWhile (fun c => c != '?'))).length - 3) [] ∧
        (ParseRequestUrl request_url init).stream_name =
          (Split '/' (request_url.takeWhile (fun c => c != '?'))).getD
            ((Split '/' (request_url.takeWhile (fun c => c != '?'))).length - 2) [] ∧
        (ParseRequestUrl request_url init).file_name =
          (Split '/' (request_url.takeWhile (fun c => c != '?'))).getD
            ((Split '/' (request_url.takeWhile (fun c => c != '?'))).length - 1) [] ∧
        (∃ stem, (ParseRequestUrl request_url init).file_name =
            stem ++ '.' :: (ParseRequestUrl request_url init).file_ext ∧ '.' ∉ stem ∧
            '.' ∉ (ParseRequestUrl request_url init).file_ext)) ∧
      ((ParseRequestUrl request_url init).ok = true →
        ((ParseRequestUrl request_url init).file_name).count '.' = 1) ∧
      (∀ query : Str, '?' ∉ request_url →
        ParseRequestUrl (request_url ++ '?' :: query) init =
          ParseRequestUrl request_url init) := by
  have hpath := ParseRequestUrl_path request_url init
  obtain ⟨r, hr⟩ := Split_eq_cons '?' (request_url.takeWhile (fun c => c != '?'))
  rw [List.takeWhile_idem] at hr
  generalize hp : request_url.takeWhile (fun c => c != '?') = path at hpath hr ⊢
  generalize hc : Split '/' path = comps
  have hunf : ParseRequestUrl request_url init =
      if comps.length < 3 then { init with ok := false }
      else if (Split '.' (comps.getD (comps.length - 1) [])).length ≠ 2 then
        { init with ok := false, app_name := comps.getD (comps.length - 3) [],
                    stream_name := comps.getD (comps.length - 2) [],
                    file_name := comps.getD (comps.length - 1) [] }
      else
        { ok := true, app_name := comps.getD (comps.length - 3) [],
          stream_name := comps.getD (comps.length - 2) [],
          file_name := comps.getD (comps.length - 1) [],
          file_ext := (Split '.' (comps.getD (comps.length - 1) [])).getD 1 [] } := by
    rw [hpath]
    unfold ParseRequestUrl
    simp only [hr, hc]
  have hdot : ∀ f : Str, (Split '.' f).length = 2 →
      ∃ stem, f = stem ++ '.' :: (Split '.' f).getD 1 [] ∧ '.' ∉ stem ∧
        '.' ∉ (Split '.' f).getD 1 [] := by
    intro f hf
    have hj := Split_join '.' f
    have hn := Split_no_sep '.' f
    match hs : Split '.' f, hf with
    | [a, b], _ =>
      rw [hs] at hj hn
      refine ⟨a, ?_, hn a (by simp), ?_⟩
      · rw [← hj]; simp [List.intercalate]
      · simpa using hn b (by simp)
  have hA : comps.length < 3 → (ParseRequestUrl request_url init).ok = false := by
    intro h1; rw [hunf, if_pos h1]
  have hB : ¬ comps.length < 3 →
      (Split '.' (comps.getD (comps.length - 1) [])).length ≠ 2 →
      (ParseRequestUrl request_url init).ok = false := by
    intro h1 h2; rw [hunf, if_neg h1, if_pos h2]
  have hC : ¬ comps.length < 3 →
      (Split '.' (comps.getD (comps.length - 1) [])).length = 2 →
      ParseRequestUrl request_url init =
        { ok := true, app_name := comps.getD (comps.length - 3) [],
          stream_name := comps.getD (comps.length - 2) [],
          file_name := comps.getD (comps.length - 1) [],
          file_ext := (Split '.' (comps.getD (comps.length - 1) [])).getD 1 [] } := by
    intro h1 h2; rw [hunf, if_neg h1, if_neg (not_not.mpr h2)]
  have hok : (ParseRequestUrl request_url init).ok = true →
      ¬ comps.length < 3 ∧ (Split '.' (comps.getD (comps.length - 1) [])).length = 2 := by
    intro h
    by_cases h1 : comps.length < 3
    · rw [hA h1] at h; exact Bool.noConfusion h
    · by_cases h2 : (Split '.' (comps.getD (comps.length - 1) [])).length = 2
      · exact ⟨h1, h2⟩
      · rw [hB h1 h2] at h; exact Bool.noConfusion h
  refine ⟨?_, ?_, ?_, ?_⟩
  · constructor
    · intro h
      exact ⟨by have := (hok h).1; omega, (hok h).2⟩
    · rintro ⟨h1, h2⟩
      rw [hC (by omega) h2]
  · intro h
    rw [hC (hok h).1 (hok h).2]
    exact ⟨rfl, rfl, rfl, hdot _ (hok h).2⟩
  · intro h
    rw [hC (hok h).1 (hok h).2]
    have h2 := (hok h).2
    have := Split_length '.' (comps.getD (comps.length - 1) [])
    show List.count '.' (comps.getD (comps.length - 1) []) = 1
    omega
  · intro query hq
    have htw : ∀ (l : Str), '?' ∉ l →
        (l ++ '?' :: query).takeWhile (fun c => c != '?') = l := by
      intro l hl
      induction l with
      | nil => rfl
      | cons c cs ih =>
        have hc' : c ≠ '?' := fun h => hl (h ▸ List.mem_cons_self _ _)
        have hcs : '?' ∉ cs := fun h => hl (List.mem_cons_of_mem _ h)
        simp [List.takeWhile_cons, hc', ih hcs]
    rw [ParseRequestUrl_path (request_url ++ '?' :: query), htw request_url hq]

/-- C9, at `/app/stream/file.ts?x=1`: accepted with the names `app`, `stream`,
`file.ts` and the extension `ts`; `file.tar.gz` and `file` are rejected. -/
theorem ParseRequestUrl_shape_witness :
    ParseRequestUrl "/app/stream/file.ts?x=1".toList ParsedRequest.empty =
        { ok := true, app_name := "app".toList, stream_name := "stream".toList,
          file_name := "file.ts".toList, file_ext := "ts".toList } ∧
      (ParseRequestUrl "/app/stream/file.tar.gz".toList ParsedRequest.empty).ok = false ∧
      (ParseRequestUrl "/app/stream/file".toList ParsedRequest.empty).ok = false ∧
      ParseRequestUrl ("/app/stream/file.ts".toList ++ '?' :: "x=1".toList)
          ParsedRequest.empty =
        ParseRequestUrl "/app/stream/file.ts".toList ParsedRequest.empty :=
  ⟨by decide, by decide, by decide,
    (ParseRequestUrl_shape "/app/stream/file.ts".toList ParsedRequest.empty).2.2.2
      "x=1".toList (by decide)⟩

/-! ## Theorems: the segment-request table -/

/-- The loop over `equal_range(ip)` erases the first entry stored under the IP of
`info` for which `IsNextRequest(info)` holds. -/
theorem eraseNextRequest_eq (env : SessionEnv) (info : SegmentRequestInfo)
    (t : SegmentTable) :
    eraseNextRequest env info t =
      (t.find? (fun e => decide (e.1 = info.ip_address) && env.is_next_request e.2 info)).map
        (fun e => (e.2,
          t.eraseP (fun e => decide (e.1 = info.ip_address) && env.is_next_request e.2 info))) := by
  induction t with
  | nil => rfl
  | cons e rest ih =>
    unfold eraseNextRequest
    by_cases h1 : e.1 = info.ip_address
    · by_cases h2 : env.is_next_request e.2 info = true
      · simp [h1, h2]
      · simp only [Bool.not_eq_true] at h2
        rw [if_pos h1, ih]
        simp [h1, h2, List.eraseP_cons]
        cases List.find? (fun e => decide (e.1 = info.ip_address) &&
          env.is_next_request e.2 info) rest <;> simp
    · rw [if_neg h1, ih]
      simp [h1, List.eraseP_cons]
      cases List.find? (fun e => decide (e.1 = info.ip_address) &&
        env.is_next_request e.2 info) rest <;> simp

/-- The method `insert` of the multimap adds one entry and keeps the others. -/
theorem multimapInsert_perm {β : Type} (t : List (Str × β)) (k : Str) (v : β) :
    (multimapInsert t k v).Perm ((k, v) :: t) := by
  induction t with
  | nil => exact List.Perm.refl _
  | cons e rest ih =>
    unfold multimapInsert
    by_cases h : k < e.1
    · rw [if_pos h]
    · rw [if_neg h]
      exact (List.Perm.cons e ih).trans (List.Perm.swap _ _ _)

/-- The method `insert` of the multimap leaves the entries under other keys in
place. -/
theorem multimapInsert_filter {β : Type} (t : List (Str × β)) (k : Str) (v : β) :
    (multimapInsert t k v).filter (fun e => decide (e.1 ≠ k)) =
      t.filter (fun e => decide (e.1 ≠ k)) := by
  induction t with
  | nil => simp [multimapInsert]
  | cons e rest ih =>
    unfold multimapInsert
    by_cases h : k < e.1
    · rw [if_pos h]; simp
    · rw [if_neg h, List.filter_cons, List.filter_cons, ih]

/-- Erasing an entry stored under `k` leaves the entries under other keys in
place. -/
theorem eraseP_filter_other {β : Type} (t : List (Str × β)) (k : Str)
    (p : Str × β → Bool) (hp : ∀ e, p e = true → e.1 = k) :
    (t.eraseP p).filter (fun e => decide (e.1 ≠ k)) =
      t.filter (fun e => decide (e.1 ≠ k)) := by
  induction t with
  | nil => rfl
  | cons e rest ih =>
    by_cases h : p e = true
    · rw [List.eraseP_cons_of_pos h]
      have := hp e h
      simp [this]
    · rw [List.eraseP_cons_of_neg h, List.filter_cons, List.filter_cons, ih]

/-- C10: new-session detection. If the table holds under the client IP of `info`
an entry with `IsNextRequest(info)`, the first such entry is replaced by `info`
(which takes over the count of that entry), the number of entries and every
other entry are unchanged and `OnSessionConnected` is not called; otherwise
nothing is removed, `info` is added (one entry more) and `OnSessionConnected` is
called once exactly when the stream has metrics. Entries under other client IPs
stay as they are, and the outcome does not depend on what `IsNextRequest` says
about them. -/
theorem UpdateSegmentRequestInfo_sessions (env : SessionEnv) (st : SessionState)
    (info : SegmentRequestInfo) :
    (∀ e, st.table.find? (fun e => decide (e.1 = info.ip_address) &&
          env.is_next_request e.2 info) = some e →
        (UpdateSegmentRequestInfo env st info).1.table.Perm
          ((info.ip_address, info.SetCount e.2.count) ::
            st.table.eraseP (fun e => decide (e.1 = info.ip_address) &&
              env.is_next_request e.2 info)) ∧
        (UpdateSegmentRequestInfo env st info).1.table.length = st.table.length ∧
        (UpdateSegmentRequestInfo env st info).1.connected = st.connected) ∧
      (st.table.find? (fun e => decide (e.1 = info.ip_address) &&
          env.is_next_request e.2 info) = none →
        (UpdateSegmentRequestInfo env st info).1.table.Perm
          ((info.ip_address, info) :: st.table) ∧
        (UpdateSegmentRequestInfo env st info).1.table.length = st.table.length + 1 ∧
        (UpdateSegmentRequestInfo env st info).1.connected =
          if env.has_metrics info.stream_info then
            st.connected ++ [(info.stream_info, info.publisher_type)]
          else st.connected) ∧
      (UpdateSegmentRequestInfo env st info).1.table.filter
          (fun e => decide (e.1 ≠ info.ip_address)) =
        st.table.filter (fun e => decide (e.1 ≠ info.ip_address)) ∧
      (∀ env' : SessionEnv,
        (∀ e ∈ st.table, e.1 = info.ip_address →
          env'.is_next_request e.2 info = env.is_next_request e.2 info) →
        env'.has_metrics = env.has_metrics →
        UpdateSegmentRequestInfo env' st info = UpdateSegmentRequestInfo env st info) := by
  have hip : ∀ c : Nat, (info.SetCount c).ip_address = info.ip_address := fun _ => rfl
  refine ⟨?_, ?_, ?_, ?_⟩
  · intro e he
    have hr : UpdateSegmentRequestInfo env st info =
        ({ table := multimapInsert (st.table.eraseP (fun e =>
              decide (e.1 = info.ip_address) && env.is_next_request e.2 info))
            info.ip_address (info.SetCount e.2.count),
           connected := st.connected }, info.SetCount e.2.count) := by
      unfold UpdateSegmentRequestInfo
      rw [eraseNextRequest_eq, he]
      rfl
    rw [hr]
    refine ⟨multimapInsert_perm _ _ _, ?_, rfl⟩
    have hlen := (multimapInsert_perm (st.table.eraseP (fun e =>
      decide (e.1 = info.ip_address) && env.is_next_request e.2 info))
      info.ip_address (info.SetCount e.2.count)).length_eq
    have hmem := List.mem_of_find?_eq_some he
    have hpe := List.find?_some he
    have herase := List.length_eraseP_of_mem
      (p := fun e => decide (e.1 = info.ip_address) && env.is_next_request e.2 info)
      hmem hpe
    have hpos : 0 < st.table.length := List.length_pos_of_mem hmem
    simp only [List.length_cons] at hlen
    show (multimapInsert _ _ _).length = _
    omega
  · intro hnone
    have hr : UpdateSegmentRequestInfo env st info =
        if env.has_metrics info.stream_info then
          ({ table := multimapInsert st.table info.ip_address info,
             connected := st.connected ++ [(info.stream_info, info.publisher_type)] }, info)
        else ({ table := multimapInsert st.table info.ip_address info,
                connected := st.connected }, info) := by
      unfold UpdateSegmentRequestInfo
      rw [eraseNextRequest_eq, hnone]
      rfl
    rw [hr]
    have hlen := (multimapInsert_perm st.table info.ip_address info).length_eq
    simp only [List.length_cons] at hlen
    cases env.has_metrics info.stream_info
    · exact ⟨multimapInsert_perm _ _ _, hlen, rfl⟩
    · exact ⟨multimapInsert_perm _ _ _, hlen, rfl⟩
  · unfold UpdateSegmentRequestInfo
    rw [eraseNextRequest_eq]
    cases hf : st.table.find? (fun e => decide (e.1 = info.ip_address) &&
        env.is_next_request e.2 info) with
    | none =>
      cases hm : env.has_metrics info.stream_info <;>
        simp only [Option.map_none', hm] <;> exact multimapInsert_filter _ _ _
    | some e =>
      simp only [Option.map_some']
      rw [hip, multimapInsert_filter]
      exact eraseP_filter_other _ _ _ (fun x hx => by
        simp only [Bool.and_eq_true, decide_eq_true_eq] at hx
        exact hx.1)
  · intro env' hagree hmetrics
    have hloop : ∀ t : SegmentTable,
        (∀ e ∈ t, e.1 = info.ip_address →
          env'.is_next_request e.2 info = env.is_next_request e.2 info) →
        eraseNextRequest env' info t = eraseNextRequest env info t := by
      intro t
      induction t with
      | nil => intro _; rfl
      | cons e rest ih =>
        intro h
        have hrest := ih (fun x hx => h x (List.mem_cons_of_mem _ hx))
        unfold eraseNextRequest
        by_cases h1 : e.1 = info.ip_address
        · rw [if_pos h1, if_pos h1, h e (List.mem_cons_self _ _) h1, hrest]
        · rw [if_neg h1, if_neg h1, hrest]
    unfold UpdateSegmentRequestInfo
    rw [hloop st.table hagree, hmetrics]

/-- C10, at the table of the scenarios: segment 8 from `1.2.3.4` continues the
first session of that client (count 3 carried over, three entries as before, no
new connection), and segment 50 opens a new session (four entries, one call of
`OnSessionConnected`). -/
theorem UpdateSegmentRequestInfo_sessions_witness :
    ((UpdateSegmentRequestInfo demoSessionEnv { table := demoSegmentTable, connected := [] }
        (demoSegmentRequest "1.2.3.4" 8 0)).1.table =
        [("1.2.3.4".toList, demoSegmentRequest "1.2.3.4" 20 1),
         ("1.2.3.4".toList, demoSegmentRequest "1.2.3.4" 8 3),
         ("9.9.9.9".toList, demoSegmentRequest "9.9.9.9" 7 2)] ∧
      (UpdateSegmentRequestInfo demoSessionEnv { table := demoSegmentTable, connected := [] }
        (demoSegmentRequest "1.2.3.4" 8 0)).1.table.length = demoSegmentTable.length ∧
      (UpdateSegmentRequestInfo demoSessionEnv { table := demoSegmentTable, connected := [] }
        (demoSegmentRequest "1.2.3.4" 8 0)).1.connected = []) ∧
      ((UpdateSegmentRequestInfo demoSessionEnv { table := demoSegmentTable, connected := [] }
        (demoSegmentRequest "1.2.3.4" 50 0)).1.table.length = demoSegmentTable.length + 1 ∧
      (UpdateSegmentRequestInfo demoSessionEnv { table := demoSegmentTable, connected := [] }
        (demoSegmentRequest "1.2.3.4" 50 0)).1.connected =
          [((demoSegmentRequest "1.2.3.4" 50 0).stream_info, 4)]) :=
  have h₁ := (UpdateSegmentRequestInfo_sessions demoSessionEnv
    { table := demoSegmentTable, connected := [] } (demoSegmentRequest "1.2.3.4" 8 0)).1
    ("1.2.3.4".toList, demoSegmentRequest "1.2.3.4" 7 3) (by decide)
  have h₂ := (UpdateSegmentRequestInfo_sessions demoSessionEnv
    { table := demoSegmentTable, connected := [] } (demoSegmentRequest "1.2.3.4" 50 0)).2.1
    (by decide)
  ⟨⟨by decide, h₁.2.1, h₁.2.2⟩, h₂.2.1, h₂.2.2⟩

/-! ## Theorems: the housekeeping sweep and segment requests -/

/-- The sweep of the segment-request table keeps the entries that are not
expired, in place. -/
theorem sweepSegmentTable_fst (env : SweepEnv) (t : SegmentTable) :
    (sweepSegmentTable env t).1 = t.filter (fun e => !env.is_expired_request e.2) := by
  induction t with
  | nil => rfl
  | cons item rest ih =>
    unfold sweepSegmentTable
    cases h1 : env.is_expired_request item.2 <;>
      cases h2 : env.has_metrics item.2.stream_info <;> simp [h1, ih]

/-- The sweep of the segment-request table calls `OnSessionDisconnected` once for
each expired entry whose stream has metrics, in table order. -/
theorem sweepSegmentTable_snd (env : SweepEnv) (t : SegmentTable) :
    (sweepSegmentTable env t).2 =
      (t.filter (fun e => env.is_expired_request e.2 &&
        env.has_metrics e.2.stream_info)).map
        (fun e => (e.2.stream_info, e.2.publisher_type)) := by
  induction t with
  | nil => rfl
  | cons item rest ih =>
    unfold sweepSegmentTable
    cases h1 : env.is_expired_request item.2 <;>
      cases h2 : env.has_metrics item.2.stream_info <;> simp [h1, h2, ih]

/-- The sweep of the playlist-request table keeps the entries that are not too
old, in place. -/
theorem sweepPlaylistTable_eq (env : SweepEnv) (t : PlaylistTable) :
    sweepPlaylistTable env t = t.filter (fun e => !env.is_too_old e.2) := by
  induction t with
  | nil => rfl
  | cons item rest ih =>
    unfold sweepPlaylistTable
    cases h1 : env.is_too_old item.2 <;> simp [h1, ih]

/-- C11: one pass of the sweep removes from the segment-request table exactly the
entries with `IsExpiredRequest()` and from the playlist-request table exactly the
entries with `IsTooOld()`; every other entry stays, unchanged and in place, and
`OnSessionDisconnected` is called exactly once for each removed segment-request
entry whose stream has metrics (an expired entry without metrics is removed
without a call). -/
theorem RequestTableUpdatePass_sweep (env : SweepEnv) (segment_table : SegmentTable)
    (playlist_table : PlaylistTable) :
    (RequestTableUpdatePass env segment_table playlist_table).segment_table =
        segment_table.filter (fun e => !env.is_expired_request e.2) ∧
      (RequestTableUpdatePass env segment_table playlist_table).playlist_table =
        playlist_table.filter (fun e => !env.is_too_old e.2) ∧
      (RequestTableUpdatePass env segment_table playlist_table).disconnected =
        (segment_table.filter (fun e => env.is_expired_request e.2 &&
          env.has_metrics e.2.stream_info)).map
          (fun e => (e.2.stream_info, e.2.publisher_type)) ∧
      (∀ e, e ∈ (RequestTableUpdatePass env segment_table playlist_table).segment_table ↔
        e ∈ segment_table ∧ env.is_expired_request e.2 = false) ∧
      (∀ e, e ∈ (RequestTableUpdatePass env segment_table playlist_table).playlist_table ↔
        e ∈ playlist_table ∧ env.is_too_old e.2 = false) ∧
      (RequestTableUpdatePass env segment_table playlist_table).disconnected.length =
        segment_table.countP (fun e => env.is_expired_request e.2 &&
          env.has_metrics e.2.stream_info) := by
  have h1 := sweepSegmentTable_fst env segment_table
  have h2 := sweepSegmentTable_snd env segment_table
  have h3 := sweepPlaylistTable_eq env playlist_table
  refine ⟨h1, h3, h2, ?_, ?_, ?_⟩
  · intro e
    show e ∈ (sweepSegmentTable env segment_table).1 ↔ _
    rw [h1]
    simp
  · intro e
    show e ∈ sweepPlaylistTable env playlist_table ↔ _
    rw [h3]
    simp
  · show (sweepSegmentTable env segment_table).2.length = _
    rw [h2, List.length_map, List.countP_eq_length_filter]

/-- The entry `UpdateSegmentRequestInfo` stores is `info` with some count, under
the client IP of `info`. -/
theorem UpdateSegmentRequestInfo_stores (env : SessionEnv) (st : SessionState)
    (info : SegmentRequestInfo) :
    ∃ count, (info.ip_address, info.SetCount count) ∈
      (UpdateSegmentRequestInfo env st info).1.table := by
  unfold UpdateSegmentRequestInfo
  cases h : eraseNextRequest env info st.table with
  | none =>
    refine ⟨info.count, ?_⟩
    have hp := multimapInsert_perm st.table info.ip_address info
    have hm : (info.ip_address, info) ∈ multimapInsert st.table info.ip_address info :=
      hp.symm.subset (List.mem_cons_self _ _)
    cases hmet : env.has_metrics info.stream_info <;> simpa [hmet] using hm
  | some r =>
    refine ⟨r.1.count, ?_⟩
    have hp := multimapInsert_perm r.2 info.ip_address (info.SetCount r.1.count)
    exact hp.symm.subset (List.mem_cons_self _ _)

/-- The table after `UpdateSegmentRequestInfo` has as many entries as before, or
one more. -/
theorem UpdateSegmentRequestInfo_length (env : SessionEnv) (st : SessionState)
    (info : SegmentRequestInfo) :
    (UpdateSegmentRequestInfo env st info).1.table.length = st.table.length ∨
      (UpdateSegmentRequestInfo env st info).1.table.length = st.table.length + 1 := by
  unfold UpdateSegmentRequestInfo
  rw [eraseNextRequest_eq]
  cases h : st.table.find? (fun e => decide (e.1 = info.ip_address) &&
      env.is_next_request e.2 info) with
  | none =>
    right
    have hp := (multimapInsert_perm st.table info.ip_address info).length_eq
    cases hmet : env.has_metrics info.stream_info <;> simpa [hmet] using hp
  | some e =>
    left
    have hp := (multimapInsert_perm (st.table.eraseP (fun e =>
      decide (e.1 = info.ip_address) && env.is_next_request e.2 info))
      info.ip_address (info.SetCount e.2.count)).length_eq
    have hmem := List.mem_of_find?_eq_some h
    have hpe := List.find?_some h
    have herase := List.length_eraseP_of_mem
      (p := fun e => decide (e.1 = info.ip_address) && env.is_next_request e.2 info)
      hmem hpe
    have hpos : 0 < st.table.length := List.length_pos_of_mem hmem
    simp only [List.length_cons] at hp
    simp only [Option.map_some']
    have hip : (info.SetCount e.2.count).ip_address = info.ip_address := rfl
    rw [hip]
    show (multimapInsert _ _ _).length = _
    omega

/-- C12: `OnSegmentRequest` returns true exactly when the stream exists, the
segment returned for `file_name` exists and its data pointer is set; it then hands
back that segment and makes one call of `UpdateSegmentRequestInfo` with a
`SegmentRequestInfo` built from the client IP, the sequence number and the
duration of the segment, which is stored in the table (at most one entry more).
Otherwise it returns false and leaves the segment-request table and the session
counters as they were. -/
theorem OnSegmentRequest_outcome (env : SegmentRequestEnv) (st : SessionState)
    (remote_address : SocketAddress) (app_name stream_name file_name : Str)
    (segment : Option SegmentData) :
    ((OnSegmentRequest env st remote_address app_name stream_name file_name segment).ret =
          true ↔
        ∃ stream seg data, env.get_stream app_name stream_name = some stream ∧
          stream.get_segment_data file_name = some seg ∧ seg.data = some data) ∧
      (∀ stream seg data, env.get_stream app_name stream_name = some stream →
        stream.get_segment_data file_name = some seg → seg.data = some data →
        (OnSegmentRequest env st remote_address app_name stream_name file_name
            segment).segment = some seg ∧
          (OnSegmentRequest env st remote_address app_name stream_name file_name
            segment).state =
            (UpdateSegmentRequestInfo env.session st
              (SegmentRequestInfo.create env.publisher_type stream.info
                remote_address.ip_address seg.sequence_number seg.duration env.now)).1 ∧
          (∃ count, (remote_address.ip_address,
              (SegmentRequestInfo.create env.publisher_type stream.info
                remote_address.ip_address seg.sequence_number seg.duration
                env.now).SetCount count) ∈
            (OnSegmentRequest env st remote_address app_name stream_name file_name
              segment).state.table) ∧
          ((OnSegmentRequest env st remote_address app_name stream_name file_name
              segment).state.table.length = st.table.length ∨
            (OnSegmentRequest env st remote_address app_name stream_name file_name
              segment).state.table.length = st.table.length + 1)) ∧
      ((OnSegmentRequest env st remote_address app_name stream_name file_name segment).ret =
          false →
        (OnSegmentRequest env st remote_address app_name stream_name file_name
          segment).state = st) := by
  cases hs : env.get_stream app_name stream_name with
  | none => simp [OnSegmentRequest, hs]
  | some stream =>
    cases hg : stream.get_segment_data file_name with
    | none =>
      refine ⟨by simp [OnSegmentRequest, hs, hg], ?_, by simp [OnSegmentRequest, hs, hg]⟩
      intro stream' seg' data' h1 h2 h3
      simp only [Option.some.injEq] at h1
      subst h1
      rw [hg] at h2
      exact Option.noConfusion h2
    | some seg =>
      cases hd : seg.data with
      | none =>
        refine ⟨?_, ?_, by simp [OnSegmentRequest, hs, hg, hd]⟩
        · simp only [OnSegmentRequest, hs, hg, hd]
          constructor
          · intro h; exact Bool.noConfusion h
          · rintro ⟨stream', seg', data', h1, h2, h3⟩
            simp only [Option.some.injEq] at h1
            subst h1
            rw [hg] at h2
            simp only [Option.some.injEq] at h2
            subst h2
            rw [hd] at h3
            exact Option.noConfusion h3
        · intro stream' seg' data' h1 h2 h3
          simp only [Option.some.injEq] at h1
          subst h1
          rw [hg] at h2
          simp only [Option.some.injEq] at h2
          subst h2
          rw [hd] at h3
          exact Option.noConfusion h3
      | some data =>
        have hr : OnSegmentRequest env st remote_address app_name stream_name file_name
            segment =
            { ret := true, segment := some seg,
              state := (UpdateSegmentRequestInfo env.session st
                (SegmentRequestInfo.create env.publisher_type stream.info
                  remote_address.ip_address seg.sequence_number seg.duration env.now)).1 } := by
          simp [OnSegmentRequest, hs, hg, hd]
        rw [hr]
        refine ⟨by simp [hg, hd], ?_, by simp⟩
        intro stream' seg' data' h1 h2 h3
        simp only [Option.some.injEq] at h1
        subst h1
        rw [hg] at h2
        simp only [Option.some.injEq] at h2
        subst h2
        exact ⟨rfl, rfl, UpdateSegmentRequestInfo_stores _ _ _,
          UpdateSegmentRequestInfo_length _ _ _⟩

/-- C12, at the stream `app/s`: `seg7.ts` from `1.2.3.4` is handed back and opens
a session (one entry, one call of `OnSessionConnected`); `null.ts`, a segment
without data, gives false and changes nothing. -/
theorem OnSegmentRequest_outcome_witness :
    ((OnSegmentRequest demoSegmentEnv { table := [], connected := [] }
        { ip_address := "1.2.3.4".toList, port := 50000 }
        "app".toList "s".toList "seg7.ts".toList none).segment =
        some { sequence_number := 7, duration := 5, data := some [71, 64, 0] } ∧
      (OnSegmentRequest demoSegmentEnv { table := [], connected := [] }
        { ip_address := "1.2.3.4".toList, port := 50000 }
        "app".toList "s".toList "seg7.ts".toList none).state =
        { table := [("1.2.3.4".toList,
            SegmentRequestInfo.create 4 demoStreamSegments.info "1.2.3.4".toList 7 5 100)]
          connected := [(demoStreamSegments.info, 4)] }) ∧
      (OnSegmentRequest demoSegmentEnv { table := [], connected := [] }
        { ip_address := "1.2.3.4".toList, port := 50000 }
        "app".toList "s".toList "null.ts".toList none).state =
        { table := [], connected := [] } :=
  have h := OnSegmentRequest_outcome demoSegmentEnv { table := [], connected := [] }
    { ip_address := "1.2.3.4".toList, port := 50000 }
    "app".toList "s".toList "seg7.ts".toList none
  have h' := OnSegmentRequest_outcome demoSegmentEnv { table := [], connected := [] }
    { ip_address := "1.2.3.4".toList, port := 50000 }
    "app".toList "s".toList "null.ts".toList none
  ⟨⟨(h.2.1 demoStreamSegments
      { sequence_number := 7, duration := 5, data := some [71, 64, 0] } [71, 64, 0]
      rfl (by decide) rfl).1, by decide⟩,
    h'.2.2 (by decide)⟩

/-! ## Theorems: the playlist request flow -/

section PlaylistFlow

variable {W : Type}

/-- The tail of `OnPlayListRequest` for a stream that was found. -/
theorem finishPlayList_some (table : PlaylistTable) (w : W) (events : List Event)
    (s : SegmentStream) :
    (finishPlayList table w events (some s)).ret = true ∧
      (finishPlayList table w events (some s)).status =
        some (if s.play_list.isSome then HttpStatusCode.OK else HttpStatusCode.Accepted) := by
  cases h : s.play_list <;> simp [finishPlayList, h]

/-- The tail of `OnPlayListRequest` for a stream that is still absent. -/
theorem finishPlayList_none (table : PlaylistTable) (w : W) (events : List Event) :
    (finishPlayList table w events none).ret = false ∧
      (finishPlayList table w events none).status = none :=
  ⟨rfl, rfl⟩

/-- The stream lookup when the stream is found at once. -/
theorem lookupAndServe_found (env : Env W) (w : W) (table : PlaylistTable)
    (app_name stream_name : Str) (parsed_url : Url) (events : List Event)
    (s : SegmentStream) (h : env.get_stream w app_name stream_name = some s) :
    lookupAndServe env w table app_name stream_name parsed_url events =
      finishPlayList table w (events ++ [Event.getStream app_name stream_name]) (some s) := by
  unfold lookupAndServe
  simp only [h]

/-- The stream lookup when the stream is absent and no pull can be requested. -/
theorem lookupAndServe_no_uri (env : Env W) (w : W) (table : PlaylistTable)
    (app_name stream_name : Str) (parsed_url : Url) (events : List Event)
    (h : env.get_stream w app_name stream_name = none)
    (hp : pullArgument app_name parsed_url = none) :
    lookupAndServe env w table app_name stream_name parsed_url events =
      { ret := true, status := some .BadRequest, play_list := none, table := table,
        world := w, events := events ++ [Event.getStream app_name stream_name] } := by
  unfold pullArgument at hp
  unfold lookupAndServe
  by_cases hr : isRtspApp app_name = true
  · rw [if_pos hr] at hp
    cases hm : mapFind parsed_url.query_map "rtspURI".toList with
    | none => simp only [h, hr, hm, if_true]
    | some u => rw [hm] at hp; exact Option.noConfusion hp
  · rw [if_neg hr] at hp
    exact Option.noConfusion hp

/-- The stream lookup when the stream is absent and a pull is requested. -/
theorem lookupAndServe_pull (env : Env W) (w : W) (table : PlaylistTable)
    (app_name stream_name : Str) (parsed_url : Url) (events : List Event)
    (u : Option Str)
    (h : env.get_stream w app_name stream_name = none)
    (hp : pullArgument app_name parsed_url = some u) :
    lookupAndServe env w table app_name stream_name parsed_url events =
      if (env.request_pull_stream w app_name stream_name u).1 = true then
        finishPlayList table (env.request_pull_stream w app_name stream_name u).2
          (events ++ [Event.getStream app_name stream_name,
            Event.requestPull app_name stream_name u,
            Event.getStream app_name stream_name])
          (env.get_stream (env.request_pull_stream w app_name stream_name u).2
            app_name stream_name)
      else
        { ret := true, status := some .NotAcceptable, play_list := none, table := table,
          world := (env.request_pull_stream w app_name stream_name u).2,
          events := events ++ [Event.getStream app_name stream_name,
            Event.requestPull app_name stream_name u] } := by
  unfold pullArgument at hp
  unfold lookupAndServe
  by_cases hr : isRtspApp app_name = true
  · rw [if_pos hr] at hp
    cases hm : mapFind parsed_url.query_map "rtspURI".toList with
    | none => rw [hm] at hp; exact Option.noConfusion hp
    | some v =>
      rw [hm] at hp
      simp only [Option.map_some', Option.some.injEq] at hp
      subst hp
      simp only [h, hr, hm, if_true]
      cases hpull : (env.request_pull_stream w app_name stream_name (some v)).1 <;> simp
  · rw [if_neg hr] at hp
    simp only [Option.some.injEq] at hp
    subst hp
    simp only [h, hr]
    cases hpull : (env.request_pull_stream w app_name stream_name none).1 <;> simp

/-- The request of an application whose name ends in `_insecure` goes straight
to the stream lookup. -/
theorem OnPlayListRequest_insecure (env : Env W) (w : W) (table : PlaylistTable)
    (client : HttpClient) (app_name stream_name : Str) (request_url : Url)
    (hparse : env.url_parse client.uri = some request_url)
    (hinsecure : HasSuffix app_name "_insecure".toList = true) :
    OnPlayListRequest env w table client app_name stream_name =
      lookupAndServe env w table app_name stream_name request_url [] := by
  unfold OnPlayListRequest
  simp only [hparse, hinsecure]
  simp

/-- The stream lookup, the pull request and the playlist, case by case. -/
theorem lookupAndServe_flow (env : Env W) (w : W) (table : PlaylistTable)
    (app_name stream_name : Str) (url : Url) (events : List Event)
    (r : PlayListResponse W)
    (hr : r = lookupAndServe env w table app_name stream_name url events) :
    (∀ s, env.get_stream w app_name stream_name = some s →
        r.events = events ++ [Event.getStream app_name stream_name] ∧
        r.ret = true ∧
        r.status =
          some (if s.play_list.isSome then HttpStatusCode.OK else HttpStatusCode.Accepted)) ∧
      (env.get_stream w app_name stream_name = none →
        (pullArgument app_name url = none →
          r.events = events ++ [Event.getStream app_name stream_name] ∧
          r.ret = true ∧ r.status = some .BadRequest) ∧
        (∀ u, pullArgument app_name url = some u →
          ((env.request_pull_stream w app_name stream_name u).1 = false →
            r.events = events ++ [Event.getStream app_name stream_name,
              Event.requestPull app_name stream_name u] ∧
            r.ret = true ∧ r.status = some .NotAcceptable) ∧
          ((env.request_pull_stream w app_name stream_name u).1 = true →
            r.events = events ++ [Event.getStream app_name stream_name,
              Event.requestPull app_name stream_name u,
              Event.getStream app_name stream_name] ∧
            (env.get_stream (env.request_pull_stream w app_name stream_name u).2
                app_name stream_name = none →
              r.ret = false ∧ r.status = none) ∧
            (∀ s, env.get_stream (env.request_pull_stream w app_name stream_name u).2
                app_name stream_name = some s →
              r.ret = true ∧
              r.status = some (if s.play_list.isSome then HttpStatusCode.OK
                else HttpStatusCode.Accepted))))) := by
  subst hr
  constructor
  · intro s hs
    rw [lookupAndServe_found env w _ app_name stream_name url _ s hs]
    have h := finishPlayList_some table w
      (events ++ [Event.getStream app_name stream_name]) s
    exact ⟨by rw [finishPlayList_events], h.1, h.2⟩
  · intro hnone
    constructor
    · intro hp
      rw [lookupAndServe_no_uri env w _ app_name stream_name url _ hnone hp]
      exact ⟨rfl, rfl, rfl⟩
    · intro u hp
      rw [lookupAndServe_pull env w _ app_name stream_name url _ u hnone hp]
      constructor
      · intro hfail
        rw [if_neg (by rw [hfail]; exact Bool.false_ne_true)]
        exact ⟨rfl, rfl, rfl⟩
      · intro hok
        rw [if_pos hok]
        refine ⟨by rw [finishPlayList_events], ?_, ?_⟩
        · intro h2
          rw [h2]
          exact finishPlayList_none _ _ _
        · intro s h2
          rw [h2]
          exact finishPlayList_some _ _ _ s

/-- C13 (amended): the playlist request flow. An unparsable URL gives status 400.
After admission (`HandleSignedUrl` returned true, or the application name ends in
`_insecure` and it was skipped), a stream found on the first lookup is served
without a pull request; for an absent stream of an application with an RTSP
suffix whose query string has no `rtspURI`, status 400 is set and no pull is
requested; otherwise `RequestPullStream` is called exactly once, a failed pull
gives 406 without a second lookup, and after a successful pull the stream is
looked up exactly once more. A stream still absent then gives the return value
false with no status; a stream whose `GetPlayList` fails gives 202, otherwise
200. The return value is true in every case but the still-absent stream. -/
theorem playlist_flow (env : Env W) (w : W) (table : PlaylistTable)
    (client : HttpClient) (app_name stream_name : Str) (r : PlayListResponse W)
    (hr : r = OnPlayListRequest env w table client app_name stream_name) :
    (env.url_parse client.uri = none →
        r.ret = true ∧ r.status = some .BadRequest ∧ r.events = []) ∧
      (∀ url events, env.url_parse client.uri = some url →
        (HasSuffix app_name "_insecure".toList = true ∧ events = [] ∨
          HasSuffix app_name "_insecure".toList = false ∧
            (HandleSignedUrl env table app_name stream_name client url).ok = true ∧
            events = [Event.signedUrl true]) →
        (∀ s, env.get_stream w app_name stream_name = some s →
          r.events = events ++ [Event.getStream app_name stream_name] ∧
          r.ret = true ∧
          r.status =
            some (if s.play_list.isSome then HttpStatusCode.OK else HttpStatusCode.Accepted)) ∧
        (env.get_stream w app_name stream_name = none →
          (pullArgument app_name url = none →
            r.events = events ++ [Event.getStream app_name stream_name] ∧
            r.ret = true ∧ r.status = some .BadRequest) ∧
          (∀ u, pullArgument app_name url = some u →
            ((env.request_pull_stream w app_name stream_name u).1 = false →
              r.events = events ++ [Event.getStream app_name stream_name,
                Event.requestPull app_name stream_name u] ∧
              r.ret = true ∧ r.status = some .NotAcceptable) ∧
            ((env.request_pull_stream w app_name stream_name u).1 = true →
              r.events = events ++ [Event.getStream app_name stream_name,
                Event.requestPull app_name stream_name u,
                Event.getStream app_name stream_name] ∧
              (env.get_stream (env.request_pull_stream w app_name stream_name u).2
                  app_name stream_name = none →
                r.ret = false ∧ r.status = none) ∧
              (∀ s, env.get_stream (env.request_pull_stream w app_name stream_name u).2
                  app_name stream_name = some s →
                r.ret = true ∧
                r.status = some (if s.play_list.isSome then HttpStatusCode.OK
                  else HttpStatusCode.Accepted)))))) := by
  constructor
  · intro hparse
    have hbad : OnPlayListRequest env w table client app_name stream_name =
        { ret := true, status := some .BadRequest, play_list := none, table := table,
          world := w, events := [] } := by
      unfold OnPlayListRequest
      simp only [hparse]
    rw [hr, hbad]
    exact ⟨rfl, rfl, rfl⟩
  · intro url events hparse hadm
    rcases hadm with ⟨hinsecure, hev⟩ | ⟨hsecure, hok, hev⟩
    · rw [OnPlayListRequest_insecure env w table client app_name stream_name url hparse
        hinsecure] at hr
      subst hev
      exact lookupAndServe_flow env w table app_name stream_name url [] r hr
    · rw [OnPlayListRequest_admitted env w table client app_name stream_name url hparse
        hsecure hok] at hr
      subst hev
      exact lookupAndServe_flow env w _ app_name stream_name url [Event.signedUrl true] r hr

/-- C13, the claim as written fails: with the signed-URL feature off, the request
`/app/s/idx.m3u8` for the application `live#rtsp_live` is parsed and admitted and
its stream is absent, yet no pull is requested and the status is 400, because
the query string has no `rtspURI`. -/
theorem rtsp_application_without_uri_is_not_pulled :
    demoOpenEnv.url_parse (demoClient "1.2.3.4" "/app/s/idx.m3u8").uri = some (demoUrl []) ∧
      (HandleSignedUrl demoOpenEnv [] "live#rtsp_live".toList "s".toList
        (demoClient "1.2.3.4" "/app/s/idx.m3u8") (demoUrl [])).ok = true ∧
      demoOpenEnv.get_stream false "live#rtsp_live".toList "s".toList = none ∧
      (OnPlayListRequest demoOpenEnv false [] (demoClient "1.2.3.4" "/app/s/idx.m3u8")
        "live#rtsp_live".toList "s".toList).events =
        [Event.signedUrl true, Event.getStream "live#rtsp_live".toList "s".toList] ∧
      (OnPlayListRequest demoOpenEnv false [] (demoClient "1.2.3.4" "/app/s/idx.m3u8")
        "live#rtsp_live".toList "s".toList).status = some .BadRequest :=
  ⟨by decide, by decide, by decide, by decide, by decide⟩

/-- C13 (amended), at the deployment with the signed-URL feature off: the stream
of `app` is absent, one pull is requested and succeeds, the second lookup finds
the stream, and the status is 200. -/
theorem playlist_flow_witness :
    (OnPlayListRequest demoOpenEnv false [] (demoClient "1.2.3.4" "/app/s/idx.m3u8")
        "app".toList "s".toList).events =
        [Event.signedUrl true, Event.getStream "app".toList "s".toList,
          Event.requestPull "app".toList "s".toList none,
          Event.getStream "app".toList "s".toList] ∧
      (OnPlayListRequest demoOpenEnv false [] (demoClient "1.2.3.4" "/app/s/idx.m3u8")
        "app".toList "s".toList).ret = true ∧
      (OnPlayListRequest demoOpenEnv false [] (demoClient "1.2.3.4" "/app/s/idx.m3u8")
        "app".toList "s".toList).status = some .OK :=
  have h := ((((playlist_flow demoOpenEnv false [] (demoClient "1.2.3.4" "/app/s/idx.m3u8")
    "app".toList "s".toList _ rfl).2 (demoUrl []) [Event.signedUrl true] (by decide)
    (Or.inr ⟨by decide, by decide, rfl⟩)).2 (by decide)).2 none (by decide)).2 (by decide)
  ⟨h.1, (h.2.2 { play_list := some "#EXTM3U".toList } (by decide)).1,
    (h.2.2 { play_list := some "#EXTM3U".toList } (by decide)).2⟩

end PlaylistFlow

/-! ## Theorems: HttpServer::ProcessData -/

section HttpServer

variable {P : Type}

/-- The loop over the interceptor list stops at the first interceptor that
accepts the request: the interceptors before it are asked and refuse, it is
asked and bound, and the interceptors after it are not asked. -/
theorem findInterceptor_first (parsed : P) (pre post : List (HttpRequestInterceptor P))
    (m : HttpRequestInterceptor P)
    (hpre : ∀ i ∈ pre, i.is_interceptor_for_request parsed = false)
    (hm : m.is_interceptor_for_request parsed = true) :
    findInterceptor parsed (pre ++ m :: post) =
      (pre.map (fun i => HttpEvent.isInterceptorForRequest i.id) ++
        [HttpEvent.isInterceptorForRequest m.id, HttpEvent.setRequestInterceptor m.id],
        some m) := by
  induction pre with
  | nil => simp [findInterceptor, hm]
  | cons i rest ih =>
    have hi := hpre i (List.mem_cons_self _ _)
    have hrest := ih (fun j hj => hpre j (List.mem_cons_of_mem _ hj))
    show findInterceptor parsed (i :: (rest ++ m :: post)) = _
    unfold findInterceptor
    rw [hi, hrest]
    simp

/-- A request whose header is not parsed yet is not reinitialized. -/
theorem reinitializes_partial (request : HttpRequest P)
    (h : request.parse_status = .PartialContent) : reinitializes request = false := by
  simp [reinitializes, h]

/-- The condition under which `ProcessData` calls `InitParseInfo`, spelled out:
the request is parsed and bound, and either the version is above 1.0 and the
`Connection` header is missing or exactly `keep-alive`, or the version is at most
1.0 and the header is exactly `keep-alive`. -/
theorem reinitializes_iff (request : HttpRequest P) :
    reinitializes request = true ↔
      request.parse_status = .OK ∧ request.request_interceptor.isSome = true ∧
        ((10 < request.http_version_tenths ∧
            (request.header "Connection".toList = none ∨
              request.header "Connection".toList = some "keep-alive".toList)) ∨
          (request.http_version_tenths ≤ 10 ∧
            request.header "Connection".toList = some "keep-alive".toList)) := by
  unfold reinitializes keepAliveCondition HttpRequest.GetHeader
  cases hh : request.header "Connection".toList with
  | none =>
    have hne : ("close".toList == "keep-alive".toList) = false := by decide
    simp [hne, and_assoc]
  | some v =>
    simp
    tauto

/-- C14 (amended): when header parsing of a request completes, the interceptor
bound to the request is the first one, in list (registration) order, whose
`IsInterceptorForRequest` is true; the interceptors before it are asked, none
after it is; `OnHttpPrepare` is invoked on it and, unless `OnHttpPrepare` asks to
disconnect, `OnHttpData` follows with exactly the bytes after the parsed header.
Later data that reaches the `switch` with parse status OK and that interceptor
still bound goes to `OnHttpData` of the same interceptor. `AddInterceptor` puts a
new interceptor at the end of the list. -/
theorem ProcessData_binds_first_match (env : HttpServerEnv P) (request : HttpRequest P)
    (data : List Nat) (n : Int) (parsed : HttpRequest P)
    (pre post : List (HttpRequestInterceptor P)) (m : HttpRequestInterceptor P)
    (hstatus : request.parse_status = .PartialContent)
    (hparse : env.process_data request data = (n, parsed))
    (hn : 0 ≤ n) (hok : parsed.parse_status = .OK)
    (hlist : env.interceptor_list = pre ++ m :: post)
    (hpre : ∀ i ∈ pre, i.is_interceptor_for_request parsed.parse_info = false)
    (hm : m.is_interceptor_for_request parsed.parse_info = true) :
    (ProcessData env request data).request = { parsed with request_interceptor := some m } ∧
      (ProcessData env request data).events =
        pre.map (fun i => HttpEvent.isInterceptorForRequest i.id) ++
          [HttpEvent.isInterceptorForRequest m.id, HttpEvent.setRequestInterceptor m.id,
            HttpEvent.onHttpPrepare m.id] ++
          (if m.on_http_prepare parsed.parse_info = .Disconnect then
            [HttpEvent.response, HttpEvent.close]
          else
            HttpEvent.onHttpData m.id (data.drop n.toNat) ::
              (if m.on_http_data parsed.parse_info (data.drop n.toNat) = .Disconnect then
                [HttpEvent.response, HttpEvent.close]
              else [])) ∧
      (∀ (later : HttpRequest P) (more : List Nat),
        (afterKeepAlive env later).parse_status = .OK →
        (afterKeepAlive env later).request_interceptor = some m →
        (ProcessData env later more).events =
          (if reinitializes later then [HttpEvent.initParseInfo] else []) ++
            HttpEvent.onHttpData m.id more ::
              (if m.on_http_data (afterKeepAlive env later).parse_info more = .Disconnect then
                [HttpEvent.response, HttpEvent.close]
              else [])) ∧
      (∀ i : HttpRequestInterceptor P, (∀ j ∈ env.interceptor_list, j.id ≠ i.id) →
        AddInterceptor env.interceptor_list i = (env.interceptor_list ++ [i], true)) := by
  have hre := reinitializes_partial request hstatus
  have hak : afterKeepAlive env request = request := by
    unfold afterKeepAlive
    rw [hre]
    rfl
  have hfind := findInterceptor_first parsed.parse_info pre post m hpre hm
  refine ⟨?_, ?_, ?_, ?_⟩
  · unfold ProcessData
    simp only [hak, hstatus, hparse, hn, hok, hlist, hfind, hre]
    cases hp : m.on_http_prepare parsed.parse_info <;>
      simp [finishProcessData, hp]
  · unfold ProcessData
    simp only [hak, hstatus, hparse, hn, hok, hlist, hfind, hre]
    cases hp : m.on_http_prepare parsed.parse_info <;>
      cases hd : m.on_http_data parsed.parse_info (data.drop n.toNat) <;>
      simp [finishProcessData, hp, hd]
  · intro later more hs hi
    unfold ProcessData
    simp only [hs, hi]
    cases hd : m.on_http_data (afterKeepAlive env later).parse_info more <;>
      simp [finishProcessData, hd]
  · intro i hi
    unfold AddInterceptor
    have hnone : env.interceptor_list.find? (fun value => value.id == i.id) = none := by
      rw [List.find?_eq_none]
      intro j hj
      simpa using hi j hj
    rw [hnone]
    rfl

/-- C14, the claim as written fails: the header `GET` is parsed, the interceptor 2
is the first to accept the request and is bound, `OnHttpPrepare` is invoked on
it and asks to disconnect, and `OnHttpData` is not invoked. -/
theorem prepare_disconnect_skips_data :
    (demoProcessData demoFreshRequest [71, 69, 84, 10, 1, 2]).2.parse_status = .OK ∧
      ((ProcessData (demoHttpEnv true) demoFreshRequest
        [71, 69, 84, 10, 1, 2]).request.request_interceptor.map (fun i => i.id)) = some 2 ∧
      (ProcessData (demoHttpEnv true) demoFreshRequest [71, 69, 84, 10, 1, 2]).events =
        [HttpEvent.isInterceptorForRequest 1, HttpEvent.isInterceptorForRequest 2,
          HttpEvent.setRequestInterceptor 2, HttpEvent.onHttpPrepare 2,
          HttpEvent.response, HttpEvent.close] :=
  ⟨by decide, by decide, by decide⟩

/-- C14 (amended), at the server of the scenarios: the header `GET` followed by the
bytes 1, 2 binds the interceptor 2 (the interceptor 1 refuses, the interceptor 3
is not asked), which gets `OnHttpPrepare` and then `OnHttpData` with the bytes
1, 2. -/
theorem ProcessData_binds_first_match_witness :
    (ProcessData (demoHttpEnv false) demoFreshRequest [71, 69, 84, 10, 1, 2]).events =
      [HttpEvent.isInterceptorForRequest 1, HttpEvent.isInterceptorForRequest 2,
        HttpEvent.setRequestInterceptor 2, HttpEvent.onHttpPrepare 2,
        HttpEvent.onHttpData 2 [1, 2]] :=
  (ProcessData_binds_first_match (demoHttpEnv false) demoFreshRequest
    [71, 69, 84, 10, 1, 2] 4
    { demoFreshRequest with parse_status := .OK, parse_info := [71, 69, 84] }
    [demoInterceptor 1 87 false] [demoInterceptor 3 71 false] (demoInterceptor 2 71 false)
    rfl rfl (by decide) rfl rfl (by decide) (by decide)).2.1

/-- C15, at the failing input: an HTTP/1.1 request that is parsed and bound and
carries `Connection: Keep-Alive` is not reinitialized when new data arrives; the
bytes of the next request go to `OnHttpData` of the bound interceptor instead of
being parsed as a new request. With `Connection: keep-alive`, or without the
header, the same request is reinitialized. -/
theorem keep_alive_letter_case_not_reinitialized :
    reinitializes (demoBoundRequest 11 (some "Keep-Alive")) = false ∧
      (ProcessData (demoHttpEnv false) (demoBoundRequest 11 (some "Keep-Alive"))
        [71, 69, 84, 10]).events = [HttpEvent.onHttpData 2 [71, 69, 84, 10]] ∧
      reinitializes (demoBoundRequest 11 (some "keep-alive")) = true ∧
      reinitializes (demoBoundRequest 11 none) = true ∧
      reinitializes (demoBoundRequest 10 (some "keep-alive")) = true ∧
      reinitializes (demoBoundRequest 11 (some "close")) = false ∧
      reinitializes (demoBoundRequest 10 none) = false :=
  ⟨by decide, by decide, by decide, by decide, by decide, by decide, by decide⟩

end HttpServer

/-! ## Theorems: the VP8 picture id -/

/-- One call of `AllocateVP8PictureID` on a 16-bit value: the successor, or 0x8000
after 0xFFFF. -/
theorem AllocateVP8PictureID_eq (p : Nat) (hp : p < 2 ^ 16) :
    AllocateVP8PictureID p =
      if p = 0xFFFF then (0x8000, 0x8000) else (p + 1, p + 1) := by
  unfold AllocateVP8PictureID
  by_cases h : p = 0xFFFF
  · subst h; rfl
  · have h1 : (p + 1) % 2 ^ 16 = p + 1 := Nat.mod_eq_of_lt (by omega)
    simp only [h1, if_neg h]
    have h2 : p + 1 ≠ 0 := by omega
    simp [h2]

/-- The stored picture id after `n` calls on a new stream, in closed form. -/
theorem pictureIdAfter_eq (n : Nat) : pictureIdAfter n = 0x8000 + n % 0x8000 := by
  induction n with
  | zero => rfl
  | succ n ih =>
    unfold pictureIdAfter
    rw [ih, AllocateVP8PictureID_eq _ (by omega)]
    by_cases h : 0x8000 + n % 0x8000 = 0xFFFF
    · rw [if_pos h]
      show 0x8000 = 0x8000 + (n + 1) % 0x8000
      omega
    · rw [if_neg h]
      show 0x8000 + n % 0x8000 + 1 = 0x8000 + (n + 1) % 0x8000
      omega

/-- C16: on a new stream the value returned by every call of
`AllocateVP8PictureID` (the call number `n + 1`, for every `n`) lies between
0x8000 and 0xFFFF: the marker bit of the 15-bit length is set, the value is never
0, and its low 15 bits are a 15-bit picture id. -/
theorem vp8_picture_id_never_zero (n : Nat) :
    0x8000 ≤ (AllocateVP8PictureID (pictureIdAfter n)).2 ∧
      (AllocateVP8PictureID (pictureIdAfter n)).2 ≤ 0xFFFF ∧
      (AllocateVP8PictureID (pictureIdAfter n)).2 ≠ 0 ∧
      (AllocateVP8PictureID (pictureIdAfter n)).2 / 0x8000 % 2 = 1 ∧
      (AllocateVP8PictureID (pictureIdAfter n)).2 % 0x8000 < 2 ^ 15 := by
  have hsame : (AllocateVP8PictureID (pictureIdAfter n)).2 = pictureIdAfter (n + 1) := rfl
  rw [hsame, pictureIdAfter_eq]
  omega

/-- C17: for a stored 16-bit value `p`, `AllocateVP8PictureID` returns and stores
`p + 1` when `p` is not 0xFFFF and 0x8000 when it is. On a new stream the first
id is 0x8001, the id after 0xFFFF is 0x8000, and the ids repeat with period
0x8000 calls: two calls get the same id exactly when their numbers differ by a
multiple of 0x8000. -/
theorem vp8_picture_id_increments_and_wraps (p : Nat) (hp : p < 2 ^ 16) :
    (p ≠ 0xFFFF → AllocateVP8PictureID p = (p + 1, p + 1)) ∧
      (p = 0xFFFF → AllocateVP8PictureID p = (0x8000, 0x8000)) ∧
      (AllocateVP8PictureID initialVP8PictureID).2 = 0x8001 ∧
      (∀ n, pictureIdAfter (n + 0x8000) = pictureIdAfter n) ∧
      (∀ m n, pictureIdAfter m = pictureIdAfter n ↔ m % 0x8000 = n % 0x8000) ∧
      (∀ n, pictureIdAfter n ≠ 0xFFFF → pictureIdAfter (n + 1) = pictureIdAfter n + 1) := by
  have h := AllocateVP8PictureID_eq p hp
  refine ⟨?_, ?_, rfl, ?_, ?_, ?_⟩
  · intro hne; rw [h, if_neg hne]
  · intro he; rw [h, if_pos he]
  · intro n
    rw [pictureIdAfter_eq, pictureIdAfter_eq]
    omega
  · intro m n
    rw [pictureIdAfter_eq, pictureIdAfter_eq]
    omega
  · intro n
    rw [pictureIdAfter_eq, pictureIdAfter_eq]
    omega

/-- C17, at the stored value 0xFFFF and at 0x8000: the next ids are 0x8000 and
0x8001. -/
theorem vp8_picture_id_increments_and_wraps_witness :
    AllocateVP8PictureID 0xFFFF = (0x8000, 0x8000) ∧
      AllocateVP8PictureID 0x8000 = (0x8001, 0x8001) :=
  ⟨(vp8_picture_id_increments_and_wraps 0xFFFF (by decide)).2.1 rfl,
    (vp8_picture_id_increments_and_wraps 0x8000 (by decide)).1 (by decide)⟩

/-! ## Theorems: the broadcast class key -/

/-- The three components of the key are bytes. -/
theorem key_components_lt (red_payload_type : Nat) (packet : RtpPacket) :
    packet.PayloadType < 2 ^ 8 ∧ redBlockPt red_payload_type packet < 2 ^ 8 ∧
      originPtOfFec red_payload_type packet < 2 ^ 8 := by
  refine ⟨Nat.mod_lt _ (by decide), ?_, ?_⟩
  · unfold redBlockPt RtpPacket.lastHeaderByte
    split
    · exact Nat.mod_lt _ (by decide)
    · decide
  · unfold originPtOfFec RtpPacket.OriginPayloadType
    split
    · split
      · exact Nat.mod_lt _ (by decide)
      · decide
    · decide

/-- No 32-bit operation of `OnRtpPacketized` overflows: the key is the plain
combination of its three components. -/
theorem OnRtpPacketized_key (red_payload_type : Nat) (packet : RtpPacket) :
    (OnRtpPacketized red_payload_type packet).2.1 =
      packet.PayloadType ||| (redBlockPt red_payload_type packet <<< 8) |||
        (originPtOfFec red_payload_type packet <<< 16) := by
  obtain ⟨h1, h2, h3⟩ := key_components_lt red_payload_type packet
  have e2 : redBlockPt red_payload_type packet <<< 8 < 2 ^ 24 := by
    rw [Nat.shiftLeft_eq]; omega
  have e3 : originPtOfFec red_payload_type packet <<< 16 < 2 ^ 24 := by
    rw [Nat.shiftLeft_eq]; omega
  have e1 : packet.PayloadType < 2 ^ 24 := by omega
  have hlt : packet.PayloadType ||| (redBlockPt red_payload_type packet <<< 8) |||
      (originPtOfFec red_payload_type packet <<< 16) < 2 ^ 24 :=
    Nat.or_lt_two_pow (Nat.or_lt_two_pow e1 e2) e3
  show (packet.PayloadType ||| (redBlockPt red_payload_type packet <<< 8) % 2 ^ 32 |||
    (originPtOfFec red_payload_type packet <<< 16) % 2 ^ 32) % 2 ^ 32 = _
  rw [Nat.mod_eq_of_lt (show redBlockPt red_payload_type packet <<< 8 < 2 ^ 32 by omega),
    Nat.mod_eq_of_lt (show originPtOfFec red_payload_type packet <<< 16 < 2 ^ 32 by omega),
    Nat.mod_eq_of_lt (by omega)]

/-- C18: the key `OnRtpPacketized` passes to `BroadcastPacket` is
`pt | (red_block_pt << 8) | (origin_pt_of_fec << 16)`, where `red_block_pt` is
the last header byte when `pt` is `RED_PAYLOAD_TYPE` and 0 otherwise, and
`origin_pt_of_fec` is `OriginPayloadType()` when `pt` is `RED_PAYLOAD_TYPE` and
the packet is flagged ULPFEC, and 0 otherwise; for a packet that is not RED the
key is `pt`, whatever its ULPFEC flag. -/
theorem broadcast_key_composition (red_payload_type : Nat) (packet : RtpPacket) :
    (OnRtpPacketized red_payload_type packet).1 = true ∧
      (OnRtpPacketized red_payload_type packet).2.2 = packet.data ∧
      (OnRtpPacketized red_payload_type packet).2.1 =
        packet.PayloadType |||
          ((if packet.PayloadType = red_payload_type then packet.lastHeaderByte else 0) <<< 8) |||
          ((if packet.PayloadType = red_payload_type ∧ packet.IsUlpfec = true then
              packet.OriginPayloadType else 0) <<< 16) ∧
      (packet.PayloadType ≠ red_payload_type →
        (OnRtpPacketized red_payload_type packet).2.1 = packet.PayloadType) := by
  have hk := OnRtpPacketized_key red_payload_type packet
  refine ⟨rfl, rfl, ?_, ?_⟩
  · rw [hk]
    unfold redBlockPt originPtOfFec
    by_cases h1 : packet.PayloadType = red_payload_type
    · cases h2 : packet.IsUlpfec <;> simp [h1, h2]
    · simp [h1]
  · intro hne
    rw [hk]
    unfold redBlockPt originPtOfFec
    simp [hne]

/-- C18, at a media packet of payload type 98 flagged ULPFEC with origin 110, and
with 123 for `RED_PAYLOAD_TYPE`: the key is 98; the RED packet carrying it as a
FEC block has the key `123 | (98 << 8) | (110 << 16)`. -/
theorem broadcast_key_composition_witness :
    (OnRtpPacketized 123
        { payload_type := 98, is_fec := true, origin_payload_type := 110,
          header := [128, 98, 0, 1], data := [1, 2, 3] }).2.1 = 98 ∧
      (OnRtpPacketized 123
        { payload_type := 123, is_fec := true, origin_payload_type := 110,
          header := [128, 123, 0, 1, 98], data := [1, 2, 3] }).2.1 =
        123 ||| (98 <<< 8) ||| (110 <<< 16) :=
  ⟨(broadcast_key_composition 123
      { payload_type := 98, is_fec := true, origin_payload_type := 110,
        header := [128, 98, 0, 1], data := [1, 2, 3] }).2.2.2 (by decide),
    by decide⟩

/-! ## Theorems: the SDP offer -/

/-- The loop step for a supported video track adds one payload with the codec
name of the track and NACK enabled. -/
theorem startStep_video (env : RtcEnv) (s : StartState) (track : MediaTrack) (codec : Str)
    (hv : track.media_type = .Video) (hc : videoCodecName track.codec_id = some codec) :
    ∃ p, p.codec = codec ∧ p.rtcpfb_nack = true ∧
      startStep env s track =
        { s with
          media_order :=
            if s.video_payloads.isNone then s.media_order ++ [MediaType.Video]
            else s.media_order
          video_payloads := some (s.video_payloads.getD [] ++ [p])
          payload_type_num := (s.payload_type_num + 1) % 2 ^ 8 } := by
  refine ⟨((if track.codec_id = .H264 then
      PayloadAttr.new.SetFmtp (env.h264_fmtp track.codec_extradata)
    else PayloadAttr.new).SetRtpmap s.payload_type_num codec 90000 []).EnableRtcpFbNack true,
    rfl, rfl, ?_⟩
  unfold startStep
  simp only [hv, hc]

/-- The loop step for a track that is not a supported video track leaves the
video payloads alone and adds at most an OPUS payload. -/
theorem startStep_other (env : RtcEnv) (s : StartState) (track : MediaTrack)
    (h : (decide (track.media_type = .Video) && (videoCodecName track.codec_id).isSome) =
      false) :
    (startStep env s track).video_payloads = s.video_payloads ∧
      (startStep env s track).media_order.filter (fun t => decide (t = MediaType.Video)) =
        s.media_order.filter (fun t => decide (t = MediaType.Video)) ∧
      (∀ p ∈ (startStep env s track).audio_payloads.getD [],
        p ∈ s.audio_payloads.getD [] ∨ p.codec = "OPUS".toList) := by
  have hsame : startStep env s track = s →
      (startStep env s track).video_payloads = s.video_payloads ∧
      (startStep env s track).media_order.filter (fun t => decide (t = MediaType.Video)) =
        s.media_order.filter (fun t => decide (t = MediaType.Video)) ∧
      (∀ p ∈ (startStep env s track).audio_payloads.getD [],
        p ∈ s.audio_payloads.getD [] ∨ p.codec = "OPUS".toList) := by
    intro e
    rw [e]
    exact ⟨rfl, rfl, fun p hp => Or.inl hp⟩
  cases hm : track.media_type with
  | Video =>
    simp only [hm, decide_True, Bool.true_and] at h
    cases hc : videoCodecName track.codec_id with
    | none =>
      apply hsame
      unfold startStep
      simp only [hm, hc]
    | some c => rw [hc] at h; exact Bool.noConfusion h
  | Audio =>
    by_cases hcodec : track.codec_id = .Opus
    · have e : startStep env s track =
          { s with
            media_order :=
              if s.audio_payloads.isNone then s.media_order ++ [MediaType.Audio]
              else s.media_order
            audio_payloads := some (s.audio_payloads.getD [] ++
              [(if track.stereo then PayloadAttr.new.SetFmtp "stereo=1;useinbandfec=1;".toList
                else PayloadAttr.new.SetFmtp "useinbandfec=1;".toList).SetRtpmap
                  s.payload_type_num "OPUS".toList track.sample_rate
                  (Nat.repr track.channel_count).toList])
            payload_type_num := (s.payload_type_num + 1) % 2 ^ 8 } := by
        unfold startStep
        simp only [hm, hcodec]
      rw [e]
      refine ⟨rfl, ?_, ?_⟩
      · cases s.audio_payloads <;> simp [List.filter_append]
      · intro p hp
        simp only [Option.getD_some, List.mem_append, List.mem_singleton] at hp
        rcases hp with hp | hp
        · exact Or.inl hp
        · right; rw [hp]; rfl
    · apply hsame
      unfold startStep
      simp only [hm]
  | Unknown =>
    apply hsame
    unfold startStep
    simp only [hm]
  | Data =>
    apply hsame
    unfold startStep
    simp only [hm]

/-- The loop of `Start`: the codec names of the video payloads are those held
before followed by those of the supported video tracks in track order,
`video_media_desc` is set exactly when it was set before or a supported video
track was seen, and the loop keeps `StartInv`. -/
theorem startLoop (env : RtcEnv) (tracks : List MediaTrack) (s : StartState) :
    ((tracks.foldl (startStep env) s).video_payloads.getD []).map (fun p => p.codec) =
        (s.video_payloads.getD []).map (fun p => p.codec) ++
          (supportedVideoTracks tracks).map (fun t => (videoCodecName t.codec_id).getD []) ∧
      (tracks.foldl (startStep env) s).video_payloads.isSome =
        (s.video_payloads.isSome || !(supportedVideoTracks tracks).isEmpty) ∧
      (StartInv s → StartInv (tracks.foldl (startStep env) s)) := by
  induction tracks generalizing s with
  | nil => simp [supportedVideoTracks]
  | cons track rest ih =>
    obtain ⟨ih1, ih2, ih3⟩ := ih (startStep env s track)
    simp only [List.foldl_cons]
    cases hsup : decide (track.media_type = .Video) &&
        (videoCodecName track.codec_id).isSome with
    | false =>
      obtain ⟨hv, ho, ha⟩ := startStep_other env s track hsup
      have hfilter : supportedVideoTracks (track :: rest) = supportedVideoTracks rest := by
        unfold supportedVideoTracks
        rw [List.filter_cons, hsup]
        rfl
      rw [hfilter, ih1, ih2, hv]
      refine ⟨rfl, rfl, ?_⟩
      intro hinv
      apply ih3
      exact
        { video_once := by rw [ho, hv]; exact hinv.video_once
          audio_codec := fun p hp => by
            rcases ha p hp with h | h
            · exact hinv.audio_codec p h
            · exact h
          video_nack := by rw [hv]; exact hinv.video_nack }
    | true =>
      have hv : track.media_type = .Video := by
        simp only [Bool.and_eq_true, decide_eq_true_eq] at hsup
        exact hsup.1
      obtain ⟨codec, hc⟩ : ∃ codec, videoCodecName track.codec_id = some codec := by
        simp only [Bool.and_eq_true] at hsup
        exact Option.isSome_iff_exists.1 hsup.2
      obtain ⟨p, hp1, hp2, hstep⟩ := startStep_video env s track codec hv hc
      have hfilter : supportedVideoTracks (track :: rest) =
          track :: supportedVideoTracks rest := by
        unfold supportedVideoTracks
        rw [List.filter_cons, hsup]
        rfl
      rw [hfilter, ih1, ih2, hstep]
      refine ⟨?_, ?_, ?_⟩
      · simp [hc, hp1]
      · simp
      · intro hinv
        rw [← hstep]
        apply ih3
        rw [hstep]
        exact
          { video_once := by
              have h1 := hinv.video_once
              cases hs : s.video_payloads with
              | none =>
                rw [hs] at h1
                simp only [Option.isNone_none, if_true, List.filter_append, Option.isSome_some]
                simp only [Option.isSome_none] at h1
                rw [h1]
                rfl
              | some ps =>
                rw [hs] at h1
                simpa using h1
            audio_codec := hinv.audio_codec
            video_nack := fun q hq => by
              simp only [Option.getD_some, List.mem_append, List.mem_singleton] at hq
              rcases hq with h | h
              · exact hinv.video_nack q h
              · rw [h]; exact hp2 }

/-- The locals of `Start` before the loop satisfy `StartInv`. -/
theorem startInit_inv (env : RtcEnv) : StartInv (startInit env) :=
  { video_once := rfl
    audio_codec := fun p hp => by simp [startInit] at hp
    video_nack := fun p hp => by simp [startInit] at hp }

/-- The video media descriptions of the offer: there is one exactly when there is
a supported video track, and its payloads are the codec payloads, with NACK
enabled, in track order, then the RED payload, then the ULPFEC payload. Every
payload of another media description is an OPUS payload. -/
theorem Start_media (env : RtcEnv) (tracks : List MediaTrack) :
    ∃ codec_payloads : List PayloadAttr,
      codec_payloads.map (fun p => p.codec) =
        (supportedVideoTracks tracks).map (fun t => (videoCodecName t.codec_id).getD []) ∧
      (∀ p ∈ codec_payloads, p.rtcpfb_nack = true) ∧
      (Start env tracks).media_list.filter (fun m => decide (m.media_type = .Video)) =
        (if supportedVideoTracks tracks = [] then []
         else [{ media_type := .Video,
                 payloads := codec_payloads ++ [redPayload env, ulpfecPayload env] }]) ∧
      (∀ m ∈ (Start env tracks).media_list, m.media_type ≠ .Video →
        ∀ p ∈ m.payloads, p.codec = "OPUS".toList) := by
  obtain ⟨h1, h2, h3⟩ := startLoop env tracks (startInit env)
  have hinv := h3 (startInit_inv env)
  generalize hs : tracks.foldl (startStep env) (startInit env) = s at h1 h2 hinv
  have hstart : (Start env tracks).media_list = s.media_order.map (fun media_type =>
      match media_type with
      | .Video => { media_type := .Video, payloads := (finalVideoPayloads env s).getD [] }
      | other => { media_type := other, payloads := s.audio_payloads.getD [] }) := by
    unfold Start
    simp only [hs]
  have htype : ∀ t : MediaType,
      (match t with
        | .Video => ({ media_type := .Video,
                       payloads := (finalVideoPayloads env s).getD [] } : MediaDescription)
        | other => { media_type := other, payloads := s.audio_payloads.getD [] }).media_type =
        t := by
    intro t; cases t <;> rfl
  refine ⟨s.video_payloads.getD [], ?_, hinv.video_nack, ?_, ?_⟩
  · rw [h1]
    simp [startInit]
  · rw [hstart, List.filter_map]
    have hcomp : ((fun m : MediaDescription => decide (m.media_type = .Video)) ∘
        (fun media_type : MediaType =>
          match media_type with
          | .Video => ({ media_type := .Video,
                         payloads := (finalVideoPayloads env s).getD [] } : MediaDescription)
          | other => { media_type := other, payloads := s.audio_payloads.getD [] })) =
        (fun t => decide (t = MediaType.Video)) := by
      funext t
      simp only [Function.comp, htype t]
    rw [hcomp, hinv.video_once]
    have hsome : s.video_payloads.isSome = !(supportedVideoTracks tracks).isEmpty := by
      rw [h2]; simp [startInit]
    cases hv : s.video_payloads with
    | none =>
      rw [hv] at hsome
      have : supportedVideoTracks tracks = [] := by
        cases hl : supportedVideoTracks tracks with
        | nil => rfl
        | cons a l => rw [hl] at hsome; simp at hsome
      simp [this]
    | some ps =>
      rw [hv] at hsome
      have : supportedVideoTracks tracks ≠ [] := by
        intro hl; rw [hl] at hsome; simp at hsome
      simp [this, finalVideoPayloads, hv]
  · intro m hm hne p hp
    rw [hstart] at hm
    obtain ⟨t, _, ht⟩ := List.mem_map.1 hm
    subst ht
    cases t with
    | Video => exact absurd rfl hne
    | Unknown => exact hinv.audio_codec p hp
    | Audio => exact hinv.audio_codec p hp
    | Data => exact hinv.audio_codec p hp

/-- C20 (amended): in every video media description of the offer, the payloads are
the codec payloads followed by the RED and the ULPFEC payload; `rtcp-fb` NACK is
enabled on every codec payload, and `Start` does not enable it on the RED payload
nor on the ULPFEC payload. -/
theorem nack_on_codec_payloads (env : RtcEnv) (tracks : List MediaTrack)
    (m : MediaDescription) (hm : m ∈ (Start env tracks).media_list)
    (hvideo : m.media_type = .Video) :
    ∃ codec_payloads : List PayloadAttr,
      m.payloads = codec_payloads ++ [redPayload env, ulpfecPayload env] ∧
      codec_payloads.length = (supportedVideoTracks tracks).length ∧
      (∀ p ∈ codec_payloads, p.rtcpfb_nack = true) ∧
      (redPayload env).rtcpfb_nack = false ∧ (ulpfecPayload env).rtcpfb_nack = false := by
  obtain ⟨codec_payloads, hcodec, hnack, hfilter, _⟩ := Start_media env tracks
  have hmem : m ∈ (Start env tracks).media_list.filter
      (fun m => decide (m.media_type = .Video)) :=
    List.mem_filter.2 ⟨hm, by simpa using hvideo⟩
  rw [hfilter] at hmem
  by_cases hnil : supportedVideoTracks tracks = []
  · rw [if_pos hnil] at hmem
    exact absurd hmem (List.not_mem_nil _)
  · rw [if_neg hnil] at hmem
    have hm' := List.mem_singleton.1 hmem
    refine ⟨codec_payloads, by rw [hm'], ?_, hnack, rfl, rfl⟩
    have := congrArg List.length hcodec
    simpa using this

/-- C20, the claim as written fails: in the offer for one H.264 track the video
payloads are H264 with NACK enabled, then red and ulpfec without it. -/
theorem red_and_ulpfec_have_no_nack :
    (Start demoRtcEnv [demoTrack 0 .Video .H264]).media_list.map
        (fun m => m.payloads.map (fun p => (p.codec, p.rtcpfb_nack))) =
      [[("H264".toList, true), ("red".toList, false), ("ulpfec".toList, false)]] :=
  by decide

/-- C20 (amended), at the offer for an OPUS, a VP8 and an H.264 track: the video
media description holds two codec payloads with NACK, then red and ulpfec. -/
theorem nack_on_codec_payloads_witness :
    ∃ codec_payloads : List PayloadAttr,
      ({ media_type := .Video,
         payloads :=
          [{ id := 101, codec := "VP8".toList, rate := 90000, codec_param := [], fmtp := [],
             rtcpfb_nack := true },
           { id := 102, codec := "H264".toList, rate := 90000, codec_param := [],
             fmtp := "packetization-mode=1".toList, rtcpfb_nack := true },
           redPayload demoRtcEnv, ulpfecPayload demoRtcEnv] } : MediaDescription).payloads =
        codec_payloads ++ [redPayload demoRtcEnv, ulpfecPayload demoRtcEnv] ∧
      codec_payloads.length =
        (supportedVideoTracks [demoTrack 0 .Audio .Opus, demoTrack 1 .Video .Vp8,
          demoTrack 2 .Video .H264]).length ∧
      (∀ p ∈ codec_payloads, p.rtcpfb_nack = true) ∧
      (redPayload demoRtcEnv).rtcpfb_nack = false ∧
      (ulpfecPayload demoRtcEnv).rtcpfb_nack = false :=
  nack_on_codec_payloads demoRtcEnv
    [demoTrack 0 .Audio .Opus, demoTrack 1 .Video .Vp8, demoTrack 2 .Video .H264]
    { media_type := .Video,
      payloads :=
        [{ id := 101, codec := "VP8".toList, rate := 90000, codec_param := [], fmtp := [],
           rtcpfb_nack := true },
         { id := 102, codec := "H264".toList, rate := 90000, codec_param := [],
           fmtp := "packetization-mode=1".toList, rtcpfb_nack := true },
         redPayload demoRtcEnv, ulpfecPayload demoRtcEnv] }
    (by decide) rfl

/-! ## Theorems: the broadcast class key is injective -/

/-- Three bytes combined with `|` and shifts of 8 and 16 are the digits of the
result in base 256. -/
theorem key_digits (a b c : Nat) (ha : a < 2 ^ 8) (hb : b < 2 ^ 8) :
    a ||| (b <<< 8) ||| (c <<< 16) = a + 2 ^ 8 * b + 2 ^ 16 * c := by
  have h1 : a ||| (b <<< 8) = 2 ^ 8 * b + a := by
    rw [Nat.or_comm, Nat.shiftLeft_eq, Nat.mul_comm]
    exact (Nat.mul_add_lt_is_or ha b).symm
  have h1lt : a ||| (b <<< 8) < 2 ^ 16 := by
    rw [h1]; omega
  have h2 : a ||| (b <<< 8) ||| (c <<< 16) = 2 ^ 16 * c + (a ||| (b <<< 8)) := by
    rw [Nat.or_comm, Nat.shiftLeft_eq, Nat.mul_comm]
    exact (Nat.mul_add_lt_is_or h1lt c).symm
  rw [h2, h1]; omega

/-- The key of `OnRtpPacketized` written in base 256. -/
theorem OnRtpPacketized_key_digits (red_payload_type : Nat) (packet : RtpPacket) :
    (OnRtpPacketized red_payload_type packet).2.1 =
      packet.PayloadType + 2 ^ 8 * redBlockPt red_payload_type packet +
        2 ^ 16 * originPtOfFec red_payload_type packet := by
  obtain ⟨h1, h2, h3⟩ := key_components_lt red_payload_type packet
  rw [OnRtpPacketized_key, key_digits _ _ _ h1 h2]

/-- C28: the key `OnRtpPacketized` passes to `BroadcastPacket` is below `2^24`,
its three components are read back from it as `key & 0xFF`, `(key >> 8) & 0xFF`
and `(key >> 16) & 0xFF`, and two packets (under any values of
`RED_PAYLOAD_TYPE`) with equal keys have the same RTP payload type, the same RED
block byte and the same FEC origin payload type. -/
theorem broadcast_key_injective (red red2 : Nat) (p q : RtpPacket) :
    (OnRtpPacketized red p).2.1 < 2 ^ 24 ∧
      (OnRtpPacketized red p).2.1 &&& 0xFF = p.PayloadType ∧
      ((OnRtpPacketized red p).2.1 >>> 8) &&& 0xFF = redBlockPt red p ∧
      ((OnRtpPacketized red p).2.1 >>> 16) &&& 0xFF = originPtOfFec red p ∧
      ((OnRtpPacketized red p).2.1 = (OnRtpPacketized red2 q).2.1 →
        p.PayloadType = q.PayloadType ∧ redBlockPt red p = redBlockPt red2 q ∧
          originPtOfFec red p = originPtOfFec red2 q) := by
  obtain ⟨h1, h2, h3⟩ := key_components_lt red p
  obtain ⟨k1, k2, k3⟩ := key_components_lt red2 q
  have hp := OnRtpPacketized_key_digits red p
  have hq := OnRtpPacketized_key_digits red2 q
  have hff : (0xFF : Nat) = 2 ^ 8 - 1 := by decide
  refine ⟨by omega, ?_, ?_, ?_, ?_⟩
  · rw [hff, Nat.and_pow_two_sub_one_eq_mod, hp]; omega
  · rw [hff, Nat.and_pow_two_sub_one_eq_mod, Nat.shiftRight_eq_div_pow, hp]; omega
  · rw [hff, Nat.and_pow_two_sub_one_eq_mod, Nat.shiftRight_eq_div_pow, hp]; omega
  · intro heq
    rw [hp, hq] at heq
    omega

/-- C28, with 123 for `RED_PAYLOAD_TYPE`: a media packet of payload type 98 flagged
ULPFEC and another media packet of payload type 98 have the same key, and so the
same three components; the key of a RED packet that carries a FEC block of
origin 110 gives back 123, 98 and 110. -/
theorem broadcast_key_injective_witness :
    (OnRtpPacketized 123
        { payload_type := 98, is_fec := true, origin_payload_type := 110,
          header := [128, 98, 0, 1], data := [1, 2, 3] }).2.1 =
      (OnRtpPacketized 123
        { payload_type := 98, is_fec := false, origin_payload_type := 0,
          header := [128, 98, 0, 2], data := [4, 5] }).2.1 ∧
      redBlockPt 123
        { payload_type := 98, is_fec := true, origin_payload_type := 110,
          header := [128, 98, 0, 1], data := [1, 2, 3] } =
      redBlockPt 123
        { payload_type := 98, is_fec := false, origin_payload_type := 0,
          header := [128, 98, 0, 2], data := [4, 5] } ∧
      (OnRtpPacketized 123
        { payload_type := 123, is_fec := true, origin_payload_type := 110,
          header := [128, 123, 0, 1, 98], data := [1, 2, 3] }).2.1 = 7234171 ∧
      7234171 &&& 0xFF = 123 ∧ (7234171 >>> 8) &&& 0xFF = 98 ∧
      (7234171 >>> 16) &&& 0xFF = 110 :=
  ⟨by decide,
    ((broadcast_key_injective 123 123
      { payload_type := 98, is_fec := true, origin_payload_type := 110,
        header := [128, 98, 0, 1], data := [1, 2, 3] }
      { payload_type := 98, is_fec := false, origin_payload_type := 0,
        header := [128, 98, 0, 2], data := [4, 5] }).2.2.2.2 (by decide)).2.1,
    by decide, by decide, by decide, by decide⟩

/-! ## Theorems: wildcard CORS entries are suffix tests -/

/-- Against the entry `https://*.D` the predicate of `SetAllowOrigin` tests the
suffix `.D`. -/
theorem corsMatch_https_wildcard (origin D : Str) :
    corsMatch origin ("https://*.".toList ++ D) = HasSuffix origin ('.' :: D) := by
  have h9 : "https://*".length = 9 := by decide
  simp [corsMatch, HasPrefix, Substring, h9]

/-- The string `http://D` does not end with `.D`. -/
theorem bare_origin_no_suffix (D : Str) : ¬ ('.' :: D) <:+ ("http://".toList ++ D) := by
  rintro ⟨t, ht⟩
  have h1 : (t ++ ['.']) ++ D = "http://".toList ++ D := by
    rw [← ht]; simp
  have h2 := List.append_cancel_right h1
  have h3 : (t ++ ['.']).getLast? = ("http://".toList).getLast? := by rw [h2]
  simp at h3

/-- With one entry in the CORS list, `SetAllowOrigin` accepts an origin exactly
when the predicate of `find_if` holds for that entry. -/
theorem SetAllowOrigin_singleton (s : SegmentStreamServer) (entry origin : Str)
    (hs : s.cors_urls = [entry]) :
    SetAllowOrigin s origin =
      if corsMatch origin entry then (true, some origin) else (false, none) := by
  unfold SetAllowOrigin
  rw [hs]
  cases h : corsMatch origin entry <;> simp [h]

/-- C29: an origin matches the CORS entry `http://*.D` (and likewise
`https://*.D`) exactly when the origin string ends with `.D`, whatever its scheme
and host are; a server whose CORS list is that one entry accepts exactly these
origins. So `https://x.D` and `http://evil.test/.D` are accepted by the entry
`http://*.D`, and the bare origin `http://D` is not. -/
theorem wildcard_match_is_suffix_test (s : SegmentStreamServer) (D origin x : Str)
    (hs : s.cors_urls = ["http://*.".toList ++ D]) :
    (corsMatch origin ("http://*.".toList ++ D) = true ↔ ('.' :: D) <:+ origin) ∧
      (corsMatch origin ("https://*.".toList ++ D) = true ↔ ('.' :: D) <:+ origin) ∧
      (SetAllowOrigin s origin = (true, some origin) ↔ ('.' :: D) <:+ origin) ∧
      (SetAllowOrigin s origin = (false, none) ↔ ¬ ('.' :: D) <:+ origin) ∧
      SetAllowOrigin s ("https://".toList ++ x ++ '.' :: D) =
        (true, some ("https://".toList ++ x ++ '.' :: D)) ∧
      SetAllowOrigin s ("http://evil.test/".toList ++ '.' :: D) =
        (true, some ("http://evil.test/".toList ++ '.' :: D)) ∧
      SetAllowOrigin s ("http://".toList ++ D) = (false, none) := by
  have hiff : ∀ o : Str, corsMatch o ("http://*.".toList ++ D) = true ↔ ('.' :: D) <:+ o := by
    intro o
    rw [corsMatch_http_wildcard, HasSuffix_iff]
  have hyes : ∀ o : Str, ('.' :: D) <:+ o → SetAllowOrigin s o = (true, some o) := by
    intro o h
    rw [SetAllowOrigin_singleton s _ o hs, if_pos ((hiff o).2 h)]
  have hno : ∀ o : Str, ¬ ('.' :: D) <:+ o → SetAllowOrigin s o = (false, none) := by
    intro o h
    have hf : ¬ corsMatch o ("http://*.".toList ++ D) = true := fun hc => h ((hiff o).1 hc)
    rw [SetAllowOrigin_singleton s _ o hs, if_neg hf]
  refine ⟨hiff origin, ?_, ?_, ?_, ?_, ?_, ?_⟩
  · rw [corsMatch_https_wildcard, HasSuffix_iff]
  · constructor
    · intro h
      by_contra hc
      rw [hno origin hc] at h
      simp at h
    · exact hyes origin
  · constructor
    · intro h hc
      rw [hyes origin hc] at h
      simp at h
    · exact hno origin
  · exact hyes _ (List.suffix_append _ _)
  · exact hyes _ (List.suffix_append _ _)
  · exact hno _ (bare_origin_no_suffix D)

/-- C29, with the entry `http://*.example.com` that `SetCrossDomain` stores on a new
server: `https://x.example.com`, `http://evil.test/.example.com` and the origin
`ftp://a.example.com` (it ends with `.example.com`) are accepted, the bare origin
`http://example.com` is rejected. -/
theorem wildcard_match_is_suffix_test_witness :
    SetAllowOrigin
        (SetCrossDomain SegmentStreamServer.new ["http://*.example.com".toList])
        "ftp://a.example.com".toList = (true, some "ftp://a.example.com".toList) ∧
      SetAllowOrigin
        (SetCrossDomain SegmentStreamServer.new ["http://*.example.com".toList])
        "https://x.example.com".toList = (true, some "https://x.example.com".toList) ∧
      SetAllowOrigin
        (SetCrossDomain SegmentStreamServer.new ["http://*.example.com".toList])
        "http://evil.test/.example.com".toList =
          (true, some "http://evil.test/.example.com".toList) ∧
      SetAllowOrigin
        (SetCrossDomain SegmentStreamServer.new ["http://*.example.com".toList])
        "http://example.com".toList = (false, none) :=
  have h := wildcard_match_is_suffix_test
    (SetCrossDomain SegmentStreamServer.new ["http://*.example.com".toList])
    "example.com".toList "ftp://a.example.com".toList "x".toList (by decide)
  ⟨h.2.2.1.2 (by decide), h.2.2.2.2.1, h.2.2.2.2.2.1, h.2.2.2.2.2.2⟩

/-! ## Theorems: the request count of a continuing session -/

/-- When one entry only satisfies the test, `eraseP` removes that entry. -/
theorem eraseP_perm_of_unique {α : Type} (l others : List α) (p : α → Bool) (a : α)
    (hperm : l.Perm (a :: others)) (hpa : p a = true) (ho : ∀ x ∈ others, ¬ p x = true) :
    (l.eraseP p).Perm others := by
  have hmem : a ∈ l := hperm.symm.subset (List.mem_cons_self _ _)
  obtain ⟨b, l₁, l₂, _, hpb, hl, he⟩ := List.exists_of_eraseP hmem hpa
  have hb : b ∈ l := by rw [hl]; simp
  have hba : b = a := by
    rcases List.mem_cons.1 (hperm.subset hb) with h | h
    · exact h
    · exact absurd hpb (ho b h)
  rw [he]
  have h1 : (a :: (l₁ ++ l₂)).Perm (a :: others) := by
    refine List.Perm.trans ?_ hperm
    rw [hl, hba]
    exact List.perm_middle.symm
  exact h1.cons_inv

/-- One continuing request: when the table holds the entry `e` of the session under
the IP of `info`, `e.IsNextRequest(info)` holds and no other entry of the table
passes that test, `UpdateSegmentRequestInfo` puts `info` with the count of `e`
in the place of `e`. -/
theorem UpdateSegmentRequestInfo_continue (env : SessionEnv) (st : SessionState)
    (e info : SegmentRequestInfo) (others : SegmentTable)
    (htable : st.table.Perm ((info.ip_address, e) :: others))
    (hnext : env.is_next_request e info = true)
    (hothers : ∀ a ∈ others, ¬ (a.1 = info.ip_address ∧ env.is_next_request a.2 info = true)) :
    (UpdateSegmentRequestInfo env st info).2 = info.SetCount e.count ∧
      (UpdateSegmentRequestInfo env st info).1.connected = st.connected ∧
      (UpdateSegmentRequestInfo env st info).1.table.Perm
        ((info.ip_address, info.SetCount e.count) :: others) := by
  have hmem : (info.ip_address, e) ∈ st.table := htable.symm.subset (List.mem_cons_self _ _)
  have hp : ∀ x ∈ st.table,
      (decide (x.1 = info.ip_address) && env.is_next_request x.2 info) = true ↔
        x = (info.ip_address, e) := by
    intro x hx
    constructor
    · intro hpx
      rcases List.mem_cons.1 (htable.subset hx) with h | h
      · exact h
      · exact absurd (by simpa using hpx) (hothers x h)
    · intro hxe
      rw [hxe]
      simp [hnext]
  have hfind : st.table.find? (fun x => decide (x.1 = info.ip_address) &&
      env.is_next_request x.2 info) = some (info.ip_address, e) := by
    cases hf : st.table.find? (fun x => decide (x.1 = info.ip_address) &&
        env.is_next_request x.2 info) with
    | none =>
      rw [List.find?_eq_none] at hf
      exact absurd ((hp _ hmem).2 rfl) (hf _ hmem)
    | some x =>
      have hpx := List.find?_some hf
      rw [(hp x (List.mem_of_find?_eq_some hf)).1 hpx]
  have herase : (st.table.eraseP (fun x => decide (x.1 = info.ip_address) &&
      env.is_next_request x.2 info)).Perm others := by
    refine eraseP_perm_of_unique st.table others _ (info.ip_address, e) htable ?_ ?_
    · simp [hnext]
    · intro x hx hpx
      exact hothers x hx (by simpa using hpx)
  unfold UpdateSegmentRequestInfo
  rw [eraseNextRequest_eq, hfind]
  refine ⟨rfl, rfl, ?_⟩
  exact (multimapInsert_perm _ _ _).trans (List.Perm.cons _ herase)

/-- A chain of consecutive requests of one session: after all of them the table
holds the last request with the count `c` the stored entry had at the start. -/
theorem UpdateSegmentRequestInfo_chain (env : SessionEnv) (c : Nat) (others : SegmentTable)
    (reqs : List SegmentRequestInfo) :
    ∀ (st : SessionState) (e : SegmentRequestInfo),
      st.table.Perm ((e.ip_address, e.SetCount c) :: others) →
      List.Chain (fun a b => b.ip_address = a.ip_address ∧
        env.is_next_request (a.SetCount c) b = true) e reqs →
      (∀ a ∈ others, ∀ r ∈ reqs, ¬ (a.1 = r.ip_address ∧ env.is_next_request a.2 r = true)) →
      (reqs.foldl (fun s r => (UpdateSegmentRequestInfo env s r).1) st).table.Perm
          (((reqs.getLastD e).ip_address, (reqs.getLastD e).SetCount c) :: others) ∧
        (reqs.foldl (fun s r => (UpdateSegmentRequestInfo env s r).1) st).connected =
          st.connected := by
  induction reqs with
  | nil =>
    intro st e htable _ _
    exact ⟨htable, rfl⟩
  | cons r rs ih =>
    intro st e htable hchain hothers
    rw [List.chain_cons] at hchain
    obtain ⟨⟨hip, hnext⟩, hrest⟩ := hchain
    have htable2 : st.table.Perm ((r.ip_address, e.SetCount c) :: others) := by
      rw [hip]; exact htable
    obtain ⟨_, h2, h3⟩ := UpdateSegmentRequestInfo_continue env st (e.SetCount c) r others
      htable2 hnext (fun a ha => hothers a ha r (List.mem_cons_self _ _))
    have h4 := ih (UpdateSegmentRequestInfo env st r).1 r h3 hrest
      (fun a ha x hx => hothers a ha x (List.mem_cons_of_mem _ hx))
    rw [List.foldl_cons, List.getLastD_cons]
    exact ⟨h4.1, h4.2.trans h2⟩

/-- C30: when `UpdateSegmentRequestInfo(info)` finds an entry `e` with
`e.IsNextRequest(info)`, the entry it stores in the place of `e` is `info` with
the count of `e` unchanged, and `info` leaves the call with that count. Hence
along a chain of consecutive requests of one session (each request comes from the
IP of the session, is the next request of the entry stored before it, and is the
next request of no other entry of the table) the table keeps the other entries,
no session is reported as new, and the stored entry of the session is the last
request with the count of the first entry of the session. -/
theorem continuing_session_keeps_count (env : SessionEnv) (st : SessionState)
    (e₀ : SegmentRequestInfo) (others : SegmentTable) (reqs : List SegmentRequestInfo)
    (htable : st.table.Perm ((e₀.ip_address, e₀) :: others))
    (hchain : List.Chain (fun a b => b.ip_address = a.ip_address ∧
      env.is_next_request (a.SetCount e₀.count) b = true) e₀ reqs)
    (hothers : ∀ a ∈ others, ∀ r ∈ reqs,
      ¬ (a.1 = r.ip_address ∧ env.is_next_request a.2 r = true)) :
    (∀ (s : SessionState) (info e : SegmentRequestInfo) (t : SegmentTable),
        eraseNextRequest env info s.table = some (e, t) →
        (info.ip_address, e) ∈ s.table ∧ env.is_next_request e info = true ∧
          (UpdateSegmentRequestInfo env s info).2 = info.SetCount e.count ∧
          (UpdateSegmentRequestInfo env s info).2.count = e.count ∧
          (UpdateSegmentRequestInfo env s info).1.table =
            multimapInsert t info.ip_address (info.SetCount e.count) ∧
          (info.ip_address, info.SetCount e.count) ∈
            (UpdateSegmentRequestInfo env s info).1.table) ∧
      (reqs.foldl (fun s r => (UpdateSegmentRequestInfo env s r).1) st).table.Perm
        (((reqs.getLastD e₀).ip_address, (reqs.getLastD e₀).SetCount e₀.count) :: others) ∧
      (reqs.foldl (fun s r => (UpdateSegmentRequestInfo env s r).1) st).connected =
        st.connected ∧
      ((reqs.getLastD e₀).SetCount e₀.count).count = e₀.count := by
  refine ⟨?_, ?_, ?_, rfl⟩
  · intro s info e t herase
    have hU : UpdateSegmentRequestInfo env s info =
        ({ table := multimapInsert t info.ip_address (info.SetCount e.count),
           connected := s.connected }, info.SetCount e.count) := by
      unfold UpdateSegmentRequestInfo
      rw [herase]
      rfl
    rw [eraseNextRequest_eq] at herase
    cases hf : s.table.find? (fun x => decide (x.1 = info.ip_address) &&
        env.is_next_request x.2 info) with
    | none => rw [hf] at herase; simp at herase
    | some x =>
      rw [hf] at herase
      have hx : x.2 = e := by
        have := congrArg (fun o => o.map Prod.fst) herase
        simpa using this
      have hpx := List.find?_some hf
      have hmem := List.mem_of_find?_eq_some hf
      have hpx2 : x.1 = info.ip_address ∧ env.is_next_request x.2 info = true := by
        simpa using hpx
      have hxe : x = (info.ip_address, e) := by
        rw [← hpx2.1, ← hx]
      rw [hU]
      refine ⟨hxe ▸ hmem, hx ▸ hpx2.2, rfl, rfl, rfl, ?_⟩
      exact (multimapInsert_perm _ _ _).symm.subset (List.mem_cons_self _ _)
  · exact (UpdateSegmentRequestInfo_chain env e₀.count others reqs st e₀ htable hchain
      hothers).1
  · exact (UpdateSegmentRequestInfo_chain env e₀.count others reqs st e₀ htable hchain
      hothers).2

/-- C30, in the table of the scenarios: the session of `1.2.3.4` that stands at
segment 7 with the count 3 asks for the segments 8, 9 and 10; its entry then
stands at segment 10, still with the count 3, and the two other entries are
kept. -/
theorem continuing_session_keeps_count_witness :
    ([demoSegmentRequest "1.2.3.4" 8 0, demoSegmentRequest "1.2.3.4" 9 0,
        demoSegmentRequest "1.2.3.4" 10 0].foldl
        (fun s r => (UpdateSegmentRequestInfo demoSessionEnv s r).1)
        { table := demoSegmentTable, connected := [] }).table.Perm
      [("1.2.3.4".toList, demoSegmentRequest "1.2.3.4" 10 3),
       ("1.2.3.4".toList, demoSegmentRequest "1.2.3.4" 20 1),
       ("9.9.9.9".toList, demoSegmentRequest "9.9.9.9" 7 2)] :=
  (continuing_session_keeps_count demoSessionEnv
    { table := demoSegmentTable, connected := [] } (demoSegmentRequest "1.2.3.4" 7 3)
    [("1.2.3.4".toList, demoSegmentRequest "1.2.3.4" 20 1),
     ("9.9.9.9".toList, demoSegmentRequest "9.9.9.9" 7 2)]
    [demoSegmentRequest "1.2.3.4" 8 0, demoSegmentRequest "1.2.3.4" 9 0,
      demoSegmentRequest "1.2.3.4" 10 0]
    (List.Perm.refl _)
    (List.Chain.cons (by decide) (List.Chain.cons (by decide)
      (List.Chain.cons (by decide) List.Chain.nil)))
    (by decide)).2.1

/-! ## Theorems: NACK::GetLostId -/

/-- On a NACK with at least one lost id `GetLostId` is bounds-safe: it returns the
id at `index` when `index` is below the count, and 0 otherwise. -/
theorem GetLostId_nonempty (n : NACK) (index : Nat) (hne : n.lost_ids ≠ [])
    (hlen : n.lost_ids.length < 2 ^ 64) :
    n.GetLostId index =
      some (if index < n.GetLostIdCount then n.lost_ids.getD index 0 else 0) := by
  have hpos : 0 < n.lost_ids.length := List.length_pos.2 hne
  have hc : n.GetLostIdCount = n.lost_ids.length := Nat.mod_eq_of_lt hlen
  have hm : (n.GetLostIdCount + 2 ^ 64 - 1) % 2 ^ 64 = n.lost_ids.length - 1 := by
    rw [hc]; omega
  unfold NACK.GetLostId
  rw [hm, hc]
  by_cases h : index < n.lost_ids.length
  · rw [if_neg (by omega), if_pos h, List.getD_eq_getElem?_getD, List.getElem?_eq_getElem h]
    rfl
  · rw [if_pos (by omega), if_neg h]

/-- On a NACK without lost ids the guard of `GetLostId` never fires for an index of
type `size_t`: the vector is read outside its bounds. -/
theorem GetLostId_empty (index : Nat) (hidx : index < 2 ^ 64) :
    NACK.GetLostId { lost_ids := [] } index = none := by
  unfold NACK.GetLostId NACK.GetLostIdCount
  rw [if_neg (by simp; omega)]
  rfl

/-- C26: on a NACK whose list of lost ids is empty, `GetLostIdCount() - 1` wraps
to `2^64 - 1`, the guard `index > GetLostIdCount() - 1` is false, and
`GetLostId(0)` (the same for the indices 1 and `2^64 - 1`) reads `_lost_ids`
outside the vector instead of returning 0; with the ids 7 and 9 in the list the
indices 0 and 1 give 7 and 9, and the index 2 gives 0. -/
theorem GetLostId_reads_outside_empty_list :
    NACK.GetLostIdCount { lost_ids := [] } = 0 ∧
      NACK.GetLostId { lost_ids := [] } 0 = none ∧
      NACK.GetLostId { lost_ids := [] } 1 = none ∧
      NACK.GetLostId { lost_ids := [] } (2 ^ 64 - 1) = none ∧
      NACK.GetLostId { lost_ids := [7, 9] } 0 = some 7 ∧
      NACK.GetLostId { lost_ids := [7, 9] } 1 = some 9 ∧
      NACK.GetLostId { lost_ids := [7, 9] } 2 = some 0 := by
  decide

/-! ## Theorems: crossdomain.xml and the CORS list -/

/-- The test `HasPrefix` is the prefix relation on lists. -/
theorem HasPrefix_iff (s pre : Str) : HasPrefix s pre = true ↔ pre <+: s := by
  unfold HasPrefix
  exact List.isPrefixOf_iff_prefix

/-- The members of `firstOccurrences l` are those of `l`. -/
theorem mem_firstOccurrences (l : List Str) (x : Str) : x ∈ firstOccurrences l ↔ x ∈ l := by
  induction l with
  | nil => simp [firstOccurrences]
  | cons a rest ih =>
    simp only [firstOccurrences, List.mem_cons, List.mem_filter, ih, decide_eq_true_eq]
    constructor
    · rintro (h | ⟨h, _⟩)
      · exact Or.inl h
      · exact Or.inr h
    · intro h
      by_cases hx : x = a
      · exact Or.inl hx
      · rcases h with h | h
        · exact absurd h hx
        · exact Or.inr ⟨h, hx⟩

/-- No element occurs twice in `firstOccurrences l`. -/
theorem nodup_firstOccurrences (l : List Str) : (firstOccurrences l).Nodup := by
  induction l with
  | nil => simp [firstOccurrences]
  | cons a rest ih =>
    simp only [firstOccurrences, List.nodup_cons, List.mem_filter, decide_eq_true_eq]
    exact ⟨fun h => h.2 rfl, ih.filter _⟩

/-- Repeated `push_back` of the URLs that are not yet in the list appends the
distinct new URLs in the order of their first occurrence. -/
theorem foldl_pushIfAbsent (l acc : List Str) :
    l.foldl pushIfAbsent acc = acc ++ (firstOccurrences l).filter (fun y => decide (y ∉ acc)) := by
  induction l generalizing acc with
  | nil => simp [firstOccurrences]
  | cons x xs ih =>
    rw [List.foldl_cons, ih]
    unfold pushIfAbsent
    by_cases hx : x ∈ acc
    · rw [if_pos ((UrlExistCheck_iff acc x).2 hx)]
      congr 1
      simp only [firstOccurrences, List.filter_cons, hx, not_true_eq_false, decide_False,
        Bool.false_eq_true, if_false, List.filter_filter]
      apply List.filter_congr
      intro y _
      by_cases hy : y ∈ acc
      · simp [hy]
      · have : y ≠ x := fun h => hy (h ▸ hx)
        simp [hy, this]
    · have hx' : ¬ UrlExistCheck acc x = true := fun h => hx ((UrlExistCheck_iff acc x).1 h)
      rw [if_neg hx']
      simp only [firstOccurrences, List.filter_cons, hx, not_false_eq_true, decide_True,
        if_true, List.filter_filter, List.append_assoc, List.singleton_append]
      congr 2
      apply List.filter_congr
      intro y _
      by_cases hy : y ∈ acc
      · simp [hy]
      · by_cases hyx : y = x
        · simp [hyx]
        · simp [hy, hyx]

/-- One iteration of the loop of `SetCrossDomain`, by what it adds to the two
lists. -/
theorem crossDomainStep_eq (url : Str) (st : List Str × List Str) :
    crossDomainStep url st =
      (pushIfAbsent st.1 (stripScheme url), (corsEntries url).foldl pushIfAbsent st.2) := by
  unfold crossDomainStep stripScheme corsEntries
  by_cases h1 : HasPrefix url http_prefix = true
  · simp [h1]
  · by_cases h2 : HasPrefix url https_prefix = true
    · simp [h1, h2]
    · simp [h1, h2]

/-- Without an entry `*` the loop of `SetCrossDomain` runs to its end; the two
lists then hold the stripped URLs and the CORS entries of all URLs. -/
theorem crossDomainLoop_eq (url_list : List Str) (hstar : "*".toList ∉ url_list)
    (st : List Str × List Str) :
    crossDomainLoop url_list st =
      some ((url_list.map stripScheme).foldl pushIfAbsent st.1,
        (url_list.flatMap corsEntries).foldl pushIfAbsent st.2) := by
  induction url_list generalizing st with
  | nil => rfl
  | cons url rest ih =>
    have hne : url ≠ "*".toList := fun h => hstar (h ▸ List.mem_cons_self _ _)
    have hrest : "*".toList ∉ rest := fun h => hstar (List.mem_cons_of_mem _ h)
    unfold crossDomainLoop
    rw [if_neg hne, ih hrest, crossDomainStep_eq]
    simp [List.flatMap_cons, List.foldl_append]

/-- On a new server and for a list without `*`, `SetCrossDomain` stores the CORS
entries of the URLs and the text of crossdomain.xml built from the stripped URLs,
each without repetition and in the order of first occurrence. -/
theorem SetCrossDomain_new (url_list : List Str) (hne : url_list ≠ [])
    (hstar : "*".toList ∉ url_list) :
    SetCrossDomain SegmentStreamServer.new url_list =
      { cors_urls := firstOccurrences (url_list.flatMap corsEntries)
        cross_domain_xml := crossDomainXml (firstOccurrences (url_list.map stripScheme)) } := by
  have hnew : SegmentStreamServer.new.cors_urls = [] := rfl
  have hemp : url_list.isEmpty = false := by
    cases url_list with
    | nil => exact absurd rfl hne
    | cons a l => rfl
  unfold SetCrossDomain
  rw [hemp, crossDomainLoop_eq url_list hstar, hnew]
  simp [foldl_pushIfAbsent]

/-- A domain is the stripped form of a URL exactly when one of the CORS entries of
that URL is the domain under `http://` or `https://`. -/
theorem stripScheme_iff (e d : Str) :
    stripScheme e = d ↔ ( http_prefix ++ d ∈ corsEntries e ∨ https_prefix ++ d ∈ corsEntries e) := by
  unfold stripScheme corsEntries
  by_cases h1 : HasPrefix e http_prefix = true
  · simp only [h1, if_true]
    obtain ⟨t, ht⟩ := (HasPrefix_iff _ _).1 h1
    rw [← ht]
    simp [Substring, http_prefix, https_prefix]
    exact eq_comm
  · by_cases h2 : HasPrefix e https_prefix = true
    · simp only [h1, h2, if_true, if_false]
      obtain ⟨t, ht⟩ := (HasPrefix_iff _ _).1 h2
      rw [← ht]
      simp [Substring, http_prefix, https_prefix]
      exact eq_comm
    · simp only [h1, h2, if_false]
      simp [ http_prefix, https_prefix]
      exact eq_comm

/-- C25: on a new server and for a non-empty URL list without `*`, `SetCrossDomain`
leaves (a) a CORS list without duplicates whose members are the URLs that start
with `http://` or `https://` as given and, for every other URL `d`, both
`http://d` and `https://d`, and (b) a crossdomain.xml with one
`allow-access-from` line for each distinct stripped URL, in the order of first
occurrence; a domain has a line in crossdomain.xml exactly when the CORS list
holds that domain under `http://` or `https://`. An empty URL list changes
nothing. -/
theorem crossdomain_xml_from_cors_list (url_list : List Str) (hne : url_list ≠ [])
    (hstar : "*".toList ∉ url_list) :
    (SetCrossDomain SegmentStreamServer.new url_list).cors_urls =
        firstOccurrences (url_list.flatMap corsEntries) ∧
      (SetCrossDomain SegmentStreamServer.new url_list).cors_urls.Nodup ∧
      (∀ e ∈ url_list, HasPrefix e http_prefix = true ∨ HasPrefix e https_prefix = true →
        e ∈ (SetCrossDomain SegmentStreamServer.new url_list).cors_urls) ∧
      (∀ d ∈ url_list, HasPrefix d http_prefix = false → HasPrefix d https_prefix = false →
        ( http_prefix ++ d) ∈ (SetCrossDomain SegmentStreamServer.new url_list).cors_urls ∧
        ( https_prefix ++ d) ∈ (SetCrossDomain SegmentStreamServer.new url_list).cors_urls) ∧
      (∀ u ∈ (SetCrossDomain SegmentStreamServer.new url_list).cors_urls,
        ∃ e ∈ url_list, u ∈ corsEntries e) ∧
      (SetCrossDomain SegmentStreamServer.new url_list).cross_domain_xml =
        crossDomainXml (firstOccurrences (url_list.map stripScheme)) ∧
      (firstOccurrences (url_list.map stripScheme)).Nodup ∧
      (∀ d, d ∈ firstOccurrences (url_list.map stripScheme) ↔
        ( http_prefix ++ d) ∈ (SetCrossDomain SegmentStreamServer.new url_list).cors_urls ∨
        ( https_prefix ++ d) ∈ (SetCrossDomain SegmentStreamServer.new url_list).cors_urls) ∧
      (∀ s : SegmentStreamServer, SetCrossDomain s [] = s) := by
  have hs := SetCrossDomain_new url_list hne hstar
  have hmem : ∀ u, u ∈ (SetCrossDomain SegmentStreamServer.new url_list).cors_urls ↔
      ∃ e ∈ url_list, u ∈ corsEntries e := by
    intro u
    rw [hs]
    simp [mem_firstOccurrences, List.mem_flatMap]
  refine ⟨by rw [hs], ?_, ?_, ?_, ?_, by rw [hs], nodup_firstOccurrences _, ?_, fun s => rfl⟩
  · rw [hs]
    exact nodup_firstOccurrences _
  · intro e he hp
    refine (hmem e).2 ⟨e, he, ?_⟩
    unfold corsEntries
    rcases hp with hp | hp
    · simp [hp]
    · by_cases h1 : HasPrefix e http_prefix = true
      · simp [h1]
      · simp [h1, hp]
  · intro d hd h1 h2
    have hc : corsEntries d = [ http_prefix ++ d, https_prefix ++ d] := by
      unfold corsEntries
      simp [h1, h2]
    exact ⟨(hmem _).2 ⟨d, hd, by simp [hc]⟩, (hmem _).2 ⟨d, hd, by simp [hc]⟩⟩
  · intro u hu
    exact (hmem u).1 hu
  · intro d
    rw [mem_firstOccurrences, hmem, hmem, List.mem_map]
    constructor
    · rintro ⟨e, he, hd⟩
      rcases (stripScheme_iff e d).1 hd with h | h
      · exact Or.inl ⟨e, he, h⟩
      · exact Or.inr ⟨e, he, h⟩
    · rintro (⟨e, he, h⟩ | ⟨e, he, h⟩)
      · exact ⟨e, he, (stripScheme_iff e d).2 (Or.inl h)⟩
      · exact ⟨e, he, (stripScheme_iff e d).2 (Or.inr h)⟩

/-- C25, for the list `http://a.com`, `b.com`, `https://a.com`, `b.com`: the CORS list
is `http://a.com`, `http://b.com`, `https://b.com`, `https://a.com` and
crossdomain.xml has the two lines of `a.com` and `b.com`, in this order. -/
theorem crossdomain_xml_from_cors_list_witness :
    (SetCrossDomain SegmentStreamServer.new
        ["http://a.com".toList, "b.com".toList, "https://a.com".toList,
          "b.com".toList]).cors_urls =
        ["http://a.com".toList, "http://b.com".toList, "https://b.com".toList,
          "https://a.com".toList] ∧
      (SetCrossDomain SegmentStreamServer.new
        ["http://a.com".toList, "b.com".toList, "https://a.com".toList,
          "b.com".toList]).cross_domain_xml =
        crossDomainXml ["a.com".toList, "b.com".toList] ∧
      crossDomainXml ["a.com".toList, "b.com".toList] =
        ("<?xml version=\"1.0\"?>\r\n<cross-domain-policy>\r\n" ++
         "    <allow-access-from domain=\"a.com\"/>\r\n" ++
         "    <allow-access-from domain=\"b.com\"/>\r\n" ++
         "</cross-domain-policy>").toList :=
  have h := crossdomain_xml_from_cors_list
    ["http://a.com".toList, "b.com".toList, "https://a.com".toList, "b.com".toList]
    (by decide) (by decide)
  ⟨h.1, h.2.2.2.2.2.1, by decide⟩

/-! ## Theorems: the scan loop of MakePacket -/

/-- With four bytes left from `current_index` on, the tests of lines 281-303 read
inside the packet, and a start code they find has 3 or 4 bytes. -/
theorem detectStartCode_in_bounds (data : List Nat) (i : Nat) (h : i + 3 < data.length) :
    detectStartCode data i ≠ .outOfBounds ∧
      ∀ k, detectStartCode data i = .startCode k → k = 3 ∨ k = 4 := by
  have h0 : data[i]? = some data[i] := List.getElem?_eq_getElem (by omega)
  have h1 : data[i + 1]? = some data[i + 1] := List.getElem?_eq_getElem (by omega)
  have h2 : data[i + 2]? = some data[i + 2] := List.getElem?_eq_getElem (by omega)
  have h3 : data[i + 3]? = some data[i + 3] := List.getElem?_eq_getElem (by omega)
  unfold detectStartCode
  rw [h0, h1, h2, h3]
  simp only
  split_ifs <;> simp

/-- From any state with a start-code length of at least 3, the scan loop ends
normally within `size - current_index` executions of its body. -/
theorem scanLoop_done (data : List Nat) (flags : Int) :
    ∀ (fuel : Nat) (st : ScanState), 3 ≤ st.nal_pattern_size →
      data.length ≤ st.current_index + fuel →
      ∃ st', scanLoop data flags fuel st = .done st' ∧
        st'.iterations ≤ st.iterations + (data.length - st.current_index) ∧
        3 ≤ st'.nal_pattern_size := by
  intro fuel
  induction fuel with
  | zero =>
    intro st hnal hfuel
    refine ⟨st, ?_, by omega, hnal⟩
    unfold scanLoop
    rw [if_neg (by omega)]
  | succ fuel ih =>
    intro st hnal hfuel
    unfold scanLoop
    by_cases hg : st.current_index + st.nal_pattern_size < data.length
    · rw [if_pos hg]
      obtain ⟨hb, hk⟩ := detectStartCode_in_bounds data st.current_index (by omega)
      cases hd : detectStartCode data st.current_index with
      | outOfBounds => exact absurd hd hb
      | noStartCode =>
        obtain ⟨st', h1, h2, h3⟩ := ih
          { st with current_index := st.current_index + 1, iterations := st.iterations + 1 }
          hnal (by simp only; omega)
        refine ⟨st', h1, ?_, h3⟩
        simp only at h2
        omega
      | startCode k =>
        have hk34 := hk k hd
        simp only
        by_cases hs : st.sps_start_index = -1
        · rw [if_pos hs]
          by_cases hf : flags ≠ AV_PKT_FLAG_KEY
          · rw [if_pos hf]
            exact ⟨_, rfl, by simp only; omega, by simp only; omega⟩
          · rw [if_neg hf]
            obtain ⟨st', h1, h2, h3⟩ := ih
              { st with
                nal_pattern_size := k
                fragment_count := st.fragment_count + 1
                sps_start_index := st.current_index + k
                current_index := st.current_index + k
                iterations := st.iterations + 1 }
              (by simp only; omega) (by simp only; omega)
            refine ⟨st', h1, ?_, h3⟩
            simp only at h2
            omega
        · rw [if_neg hs]
          by_cases he : st.sps_end_index = -1
          · rw [if_pos he]
            obtain ⟨st', h1, h2, h3⟩ := ih
              { st with
                nal_pattern_size := k
                fragment_count := st.fragment_count + 1
                sps_end_index := st.current_index - 1
                pps_start_index := st.current_index + k
                current_index := st.current_index + k
                iterations := st.iterations + 1 }
              (by simp only; omega) (by simp only; omega)
            refine ⟨st', h1, ?_, h3⟩
            simp only at h2
            omega
          · rw [if_neg he]
            exact ⟨_, rfl, by simp only; omega, by simp only; omega⟩
    · rw [if_neg hg]
      exact ⟨st, rfl, by omega, hnal⟩

/-- More fuel does not change a normal end of the scan loop. -/
theorem scanLoop_fuel (data : List Nat) (flags : Int) :
    ∀ (fuel : Nat) (st st' : ScanState), scanLoop data flags fuel st = .done st' →
      ∀ extra, scanLoop data flags (fuel + extra) st = .done st' := by
  intro fuel
  induction fuel with
  | zero =>
    intro st st' h extra
    unfold scanLoop at h
    by_cases hg : st.current_index + st.nal_pattern_size < data.length
    · rw [if_pos hg] at h
      exact absurd h (by simp)
    · rw [if_neg hg] at h
      cases extra with
      | zero => unfold scanLoop; rw [if_neg hg]; exact h
      | succ e => rw [Nat.zero_add]; unfold scanLoop; rw [if_neg hg]; exact h
  | succ fuel ih =>
    intro st st' h extra
    rw [Nat.add_right_comm]
    unfold scanLoop at h ⊢
    by_cases hg : st.current_index + st.nal_pattern_size < data.length
    · rw [if_pos hg] at h ⊢
      cases hd : detectStartCode data st.current_index with
      | outOfBounds => rw [hd] at h; exact absurd h (by simp)
      | noStartCode =>
        rw [hd] at h
        exact ih _ _ h extra
      | startCode k =>
        rw [hd] at h
        simp only at h ⊢
        by_cases hs : st.sps_start_index = -1
        · rw [if_pos hs] at h ⊢
          by_cases hf : flags ≠ AV_PKT_FLAG_KEY
          · rw [if_pos hf] at h ⊢
            exact h
          · rw [if_neg hf] at h ⊢
            exact ih _ _ h extra
        · rw [if_neg hs] at h ⊢
          by_cases he : st.sps_end_index = -1
          · rw [if_pos he] at h ⊢
            exact ih _ _ h extra
          · rw [if_neg he] at h ⊢
            exact h
    · rw [if_neg hg] at h ⊢
      exact h

/-- C27: for every packet and every flags value the scan loop of `MakePacket` ends
normally after at most `size` executions of its body, and more fuel gives the
same end. From any state with a start-code length of 3 or 4 an iteration is
entered only with `current_index + 3` below `size`, so the reads at
`current_index` to `current_index + 3` are inside the packet, and the loop ends
within `size - current_index` further executions of the body. -/
theorem scan_loop_terminates_in_bounds (data : List Nat) (flags : Int) :
    (∃ st, scanLoop data flags data.length ScanState.init = .done st ∧
        st.iterations ≤ data.length ∧
        ∀ fuel, data.length ≤ fuel → scanLoop data flags fuel ScanState.init = .done st) ∧
      (∀ st : ScanState, st.nal_pattern_size = 3 ∨ st.nal_pattern_size = 4 →
        (st.current_index + st.nal_pattern_size < data.length →
          st.current_index + 3 < data.length ∧
            detectStartCode data st.current_index ≠ .outOfBounds) ∧
        ∃ st', scanLoop data flags (data.length - st.current_index) st = .done st' ∧
          st'.iterations ≤ st.iterations + (data.length - st.current_index)) := by
  constructor
  · obtain ⟨st, h1, h2, _⟩ := scanLoop_done data flags data.length ScanState.init
      (by decide) (by omega)
    refine ⟨st, h1, ?_, ?_⟩
    · have h0 : ScanState.init.iterations = 0 := rfl
      have hc : ScanState.init.current_index = 0 := rfl
      omega
    · intro fuel hfuel
      have := scanLoop_fuel data flags data.length _ _ h1 (fuel - data.length)
      rwa [Nat.add_sub_cancel' hfuel] at this
  · intro st hnal
    have h3 : 3 ≤ st.nal_pattern_size := by omega
    refine ⟨fun hg => ⟨by omega, (detectStartCode_in_bounds data _ (by omega)).1⟩, ?_⟩
    obtain ⟨st', h1, h2, _⟩ := scanLoop_done data flags (data.length - st.current_index) st
      h3 (by omega)
    exact ⟨st', h1, h2⟩

/-- C27, on the packet `00 00 01 09 00 00` after a start code of 3 bytes was found at
index 0: the guard `3 + 3 < 6` is false, so no byte at index 6 is read and the
loop ends without another iteration. -/
theorem scan_loop_terminates_in_bounds_witness :
    ∃ st', scanLoop [0, 0, 1, 9, 0, 0] 1 (6 - 3)
        { nal_pattern_size := 3, sps_start_index := 3, sps_end_index := -1,
          pps_start_index := -1, pps_end_index := -1, fragment_count := 1,
          current_index := 3, iterations := 1 } = .done st' ∧
      st'.iterations ≤ 1 + (6 - 3) :=
  ((scan_loop_terminates_in_bounds [0, 0, 1, 9, 0, 0] 1).2
    { nal_pattern_size := 3, sps_start_index := 3, sps_end_index := -1,
      pps_start_index := -1, pps_end_index := -1, fragment_count := 1,
      current_index := 3, iterations := 1 } (Or.inl rfl)).2

/-! ## Theorems: the fragmentation header of MakePacket -/

/-- For every packet `MakePacket` builds a fragmentation header whose last entry
ends one byte after the end of the packet. -/
theorem MakePacketFragments_last (data : List Nat) (flags : Int) :
    ∃ h off len, MakePacketFragments data flags = some h ∧
      h.entries.getLast? = some (off, len) ∧ off + len = (data.length : Int) + 1 := by
  obtain ⟨st, h1, _⟩ := scanLoop_done data flags data.length ScanState.init
    (by decide) (by omega)
  have hM : MakePacketFragments data flags = some (fragmentHeader data.length flags st) := by
    unfold MakePacketFragments
    rw [h1]
  by_cases hf : flags = AV_PKT_FLAG_KEY
  · refine ⟨_, (st.pps_end_index + 1) + st.nal_pattern_size,
      data.length - (st.pps_end_index + st.nal_pattern_size), hM, ?_, by omega⟩
    simp [fragmentHeader, hf, FragmentationHeader.entries]
  · refine ⟨_, st.sps_start_index, data.length - (st.sps_start_index - 1), hM, ?_, by omega⟩
    simp [fragmentHeader, hf, FragmentationHeader.entries]

/-- For a packet that is not a key frame and consists of a start code and one NAL
unit, the header has one entry: the offset of the NAL unit, and its length plus
one. -/
theorem MakePacketFragments_non_key (sc nal : List Nat) (flags : Int)
    (hflags : flags ≠ AV_PKT_FLAG_KEY) (hsc : sc = [0, 0, 1] ∨ sc = [0, 0, 0, 1])
    (hlen : 4 < (sc ++ nal).length) :
    MakePacketFragments (sc ++ nal) flags =
      some { fragmentation_offset := [(sc.length : Int)]
             fragmentation_length := [(nal.length : Int) + 1] } := by
  obtain ⟨m, hm⟩ : ∃ m, (sc ++ nal).length = m + 1 := ⟨(sc ++ nal).length - 1, by omega⟩
  unfold MakePacketFragments
  rw [hm]
  unfold scanLoop
  have hg : ScanState.init.current_index + ScanState.init.nal_pattern_size <
      (sc ++ nal).length := by
    show 0 + 4 < _
    omega
  rw [if_pos hg]
  rcases hsc with hsc | hsc
  · subst hsc
    have hd : detectStartCode ([0, 0, 1] ++ nal) ScanState.init.current_index =
        .startCode 3 := by
      simp [detectStartCode, ScanState.init]
    rw [hd]
    simp only [ScanState.init, if_true, if_pos hflags, fragmentHeader, if_neg hflags]
    simp at hm ⊢
    omega
  · subst hsc
    have hd : detectStartCode ([0, 0, 0, 1] ++ nal) ScanState.init.current_index =
        .startCode 4 := by
      simp [detectStartCode, ScanState.init]
    rw [hd]
    simp only [ScanState.init, if_true, if_pos hflags, fragmentHeader, if_neg hflags]
    simp at hm ⊢
    omega

/-- C23: the last entry of the fragmentation header of `MakePacket` always ends one
byte after the end of the packet. For the non-key packet `00 00 00 01 41 9A` the
header is `[(4, 3)]` although the NAL unit has 2 bytes, and for the key frame
`00 00 00 01 67 AA BB CC 00 00 00 01 68 DD 00 00 00 01 65 EE FF` it is
`[(4, 4), (12, 2), (18, 4)]` although the IDR unit at offset 18 has 3 bytes: the
entries of SPS and PPS are exact, the last length is one too large. -/
theorem fragment_header_last_entry_overshoots :
    (∀ (data : List Nat) (flags : Int), ∃ h off len,
        MakePacketFragments data flags = some h ∧
        h.entries.getLast? = some (off, len) ∧ off + len = (data.length : Int) + 1) ∧
      (MakePacketFragments [0, 0, 0, 1, 0x41, 0x9A] 0).map FragmentationHeader.entries =
        some [(4, 3)] ∧
      (MakePacketFragments
        [0, 0, 0, 1, 0x67, 0xAA, 0xBB, 0xCC, 0, 0, 0, 1, 0x68, 0xDD, 0, 0, 0, 1,
          0x65, 0xEE, 0xFF] AV_PKT_FLAG_KEY).map FragmentationHeader.entries =
        some [(4, 4), (12, 2), (18, 4)] :=
  ⟨MakePacketFragments_last, by decide, by decide⟩

/-! ## Theorems: the fmtp line of an H.264 payload -/

/-- The conversion `%02x` of a byte gives its two hexadecimal digits. -/
theorem formatHex02_byte (b : Nat) (hb : b < 256) :
    formatHex02 b = [Nat.digitChar (b / 16), Nat.digitChar (b % 16)] := by
  interval_cases b <;> rfl

/-- The hexadecimal digits are the characters `0` to `9` and `a` to `f`. -/
theorem digitChar_lower_hex (d : Nat) (hd : d < 16) :
    Nat.digitChar d ∈ "0123456789abcdef".toList := by
  interval_cases d <;> decide

/-- The `fmtp` line of the `else` branch. -/
theorem defaultH264Fmtp_eq :
    defaultH264Fmtp =
      "packetization-mode=1;profile-level-id=42e01f;level-asymmetry-allowed=1".toList := by
  decide

/-- No base64 character is a comma. -/
theorem base64Char_ne_comma (n : Nat) : base64Char n ≠ ',' := by
  unfold base64Char
  have h : n % 64 < 64 := Nat.mod_lt _ (by decide)
  generalize n % 64 = m at h
  interval_cases m <;> decide

/-- The base64 text of a byte sequence holds no comma. -/
theorem base64Encode_no_comma : ∀ data : List Nat, ',' ∉ base64Encode data
  | [] => by simp [base64Encode]
  | [a] => by
    simp only [base64Encode, List.mem_cons, List.mem_singleton, List.not_mem_nil, or_false,
      not_or]
    exact ⟨(base64Char_ne_comma _).symm, (base64Char_ne_comma _).symm, by decide, by decide⟩
  | [a, b] => by
    simp only [base64Encode, List.mem_cons, List.mem_singleton, List.not_mem_nil, or_false,
      not_or]
    exact ⟨(base64Char_ne_comma _).symm, (base64Char_ne_comma _).symm,
      (base64Char_ne_comma _).symm, by decide⟩
  | a :: b :: c :: rest => by
    have ih := base64Encode_no_comma rest
    simp only [base64Encode, List.mem_cons, not_or]
    exact ⟨(base64Char_ne_comma _).symm, (base64Char_ne_comma _).symm,
      (base64Char_ne_comma _).symm, (base64Char_ne_comma _).symm, ih⟩

/-- The text `Base64::Encode` returns holds no comma, and it is empty only for empty
data. -/
theorem Base64_Encode_spec (data : List Nat) :
    ',' ∉ Base64.Encode data ∧ (Base64.Encode data = [] ↔ data = []) := by
  unfold Base64.Encode
  constructor
  · split
    · simp
    · exact base64Encode_no_comma data
  · match data with
    | [] => simp
    | [a] => simp [base64Encode]
    | [a, b] => simp [base64Encode]
    | a :: b :: c :: rest => simp [base64Encode]

/-- The second loop of lines 91-99, started at any index. -/
theorem ppsParameterSets_enumFrom (pps : List (List Nat)) :
    ∀ k n, n = k + pps.length →
      ((pps.enumFrom k).map (fun ip =>
        Base64.Encode ip.2 ++ (if ip.1 ≠ n - 1 then [','] else []))).flatten =
        [','].intercalate (pps.map Base64.Encode) := by
  induction pps with
  | nil => intro k n _; rfl
  | cons p rest ih =>
    intro k n hn
    cases rest with
    | nil =>
      have : k = n - 1 := by simp at hn; omega
      simp [List.enumFrom, List.intercalate, this]
    | cons q rest =>
      have hk : k ≠ n - 1 := by simp at hn; omega
      have := ih (k + 1) n (by simp at hn ⊢; omega)
      rw [List.enumFrom_cons, List.map_cons, List.flatten_cons, this]
      simp [List.intercalate, hk]

/-- The PPS part of `sprop-parameter-sets` is the base64 texts of the PPS joined
by commas. -/
theorem ppsParameterSets_eq (pps : List (List Nat)) :
    ppsParameterSets pps = [','].intercalate (pps.map Base64.Encode) := by
  unfold ppsParameterSets
  exact ppsParameterSets_enumFrom pps 0 pps.length (by omega)

/-- With at least one PPS, the two loops build the base64 texts of all SPS and then
all PPS, joined by commas. -/
theorem parameterSets_eq (sps pps : List (List Nat)) (hpps : pps ≠ []) :
    spsParameterSets sps ++ ppsParameterSets pps =
      [','].intercalate ((sps ++ pps).map Base64.Encode) := by
  induction sps with
  | nil => simp [spsParameterSets, ppsParameterSets_eq]
  | cons s rest ih =>
    have hne : rest ++ pps ≠ [] := by simp [hpps]
    obtain ⟨x, l, hx⟩ := List.exists_cons_of_ne_nil hne
    have hcons : spsParameterSets (s :: rest) =
        Base64.Encode s ++ [','] ++ spsParameterSets rest := by
      simp [spsParameterSets]
    rw [hcons, List.append_assoc, ih, List.cons_append, hx]
    simp [List.intercalate]

/-- The loop step for a supported video track adds one payload, whose `fmtp` line
is the one of lines 77-118 for H.264 and none for VP8 and H.265. -/
theorem startStep_video_fmtp (env : RtcEnv) (s : StartState) (track : MediaTrack)
    (codec : Str) (hv : track.media_type = .Video)
    (hc : videoCodecName track.codec_id = some codec) :
    ∃ p, p.fmtp = videoFmtp env track ∧
      (startStep env s track).video_payloads = some (s.video_payloads.getD [] ++ [p]) := by
  refine ⟨((if track.codec_id = .H264 then
      PayloadAttr.new.SetFmtp (env.h264_fmtp track.codec_extradata)
    else PayloadAttr.new).SetRtpmap s.payload_type_num codec 90000 []).EnableRtcpFbNack true,
    ?_, ?_⟩
  · unfold videoFmtp
    by_cases h : track.codec_id = .H264
    · rw [if_pos h, if_pos h]; rfl
    · rw [if_neg h, if_neg h]; rfl
  · unfold startStep
    simp only [hv, hc]

/-- The loop of `Start`: the `fmtp` lines of the video payloads are those held
before followed by those of the supported video tracks in track order. -/
theorem startLoop_fmtp (env : RtcEnv) (tracks : List MediaTrack) (s : StartState) :
    ((tracks.foldl (startStep env) s).video_payloads.getD []).map (fun p => p.fmtp) =
      (s.video_payloads.getD []).map (fun p => p.fmtp) ++
        (supportedVideoTracks tracks).map (videoFmtp env) := by
  induction tracks generalizing s with
  | nil => simp [supportedVideoTracks]
  | cons track rest ih =>
    simp only [List.foldl_cons]
    rw [ih]
    cases hsup : decide (track.media_type = .Video) &&
        (videoCodecName track.codec_id).isSome with
    | false =>
      obtain ⟨hv, _, _⟩ := startStep_other env s track hsup
      have hfilter : supportedVideoTracks (track :: rest) = supportedVideoTracks rest := by
        unfold supportedVideoTracks
        rw [List.filter_cons, hsup]
        rfl
      rw [hfilter, hv]
    | true =>
      have hv : track.media_type = .Video := by
        simp only [Bool.and_eq_true, decide_eq_true_eq] at hsup
        exact hsup.1
      obtain ⟨codec, hc⟩ : ∃ codec, videoCodecName track.codec_id = some codec := by
        simp only [Bool.and_eq_true] at hsup
        exact Option.isSome_iff_exists.1 hsup.2
      obtain ⟨p, hp, hstep⟩ := startStep_video_fmtp env s track codec hv hc
      have hfilter : supportedVideoTracks (track :: rest) =
          track :: supportedVideoTracks rest := by
        unfold supportedVideoTracks
        rw [List.filter_cons, hsup]
        rfl
      rw [hfilter, hstep]
      simp [hp]

/-- The `fmtp` lines of the video media description of the offer: those of the
supported video tracks in track order, then none for RED and none for ULPFEC. -/
theorem Start_video_fmtp (env : RtcEnv) (tracks : List MediaTrack) :
    ∃ codec_payloads : List PayloadAttr,
      codec_payloads.map (fun p => p.fmtp) =
        (supportedVideoTracks tracks).map (videoFmtp env) ∧
      (redPayload env).fmtp = [] ∧ (ulpfecPayload env).fmtp = [] ∧
      (Start env tracks).media_list.filter (fun m => decide (m.media_type = .Video)) =
        (if supportedVideoTracks tracks = [] then []
         else [{ media_type := .Video,
                 payloads := codec_payloads ++ [redPayload env, ulpfecPayload env] }]) := by
  obtain ⟨_, h2, h3⟩ := startLoop env tracks (startInit env)
  have h1 := startLoop_fmtp env tracks (startInit env)
  have hinv := h3 (startInit_inv env)
  generalize hs : tracks.foldl (startStep env) (startInit env) = s at h1 h2 hinv
  have hstart : (Start env tracks).media_list = s.media_order.map (fun media_type =>
      match media_type with
      | .Video => { media_type := .Video, payloads := (finalVideoPayloads env s).getD [] }
      | other => { media_type := other, payloads := s.audio_payloads.getD [] }) := by
    unfold Start
    simp only [hs]
  have htype : ∀ t : MediaType,
      (match t with
        | .Video => ({ media_type := .Video,
                       payloads := (finalVideoPayloads env s).getD [] } : MediaDescription)
        | other => { media_type := other, payloads := s.audio_payloads.getD [] }).media_type =
        t := by
    intro t; cases t <;> rfl
  refine ⟨s.video_payloads.getD [], ?_, rfl, rfl, ?_⟩
  · rw [h1]
    simp [startInit]
  · rw [hstart, List.filter_map]
    have hcomp : ((fun m : MediaDescription => decide (m.media_type = .Video)) ∘
        (fun media_type : MediaType =>
          match media_type with
          | .Video => ({ media_type := .Video,
                         payloads := (finalVideoPayloads env s).getD [] } : MediaDescription)
          | other => { media_type := other, payloads := s.audio_payloads.getD [] })) =
        (fun t => decide (t = MediaType.Video)) := by
      funext t
      simp only [Function.comp, htype t]
    rw [hcomp, hinv.video_once]
    have hsome : s.video_payloads.isSome = !(supportedVideoTracks tracks).isEmpty := by
      rw [h2]; simp [startInit]
    cases hv : s.video_payloads with
    | none =>
      rw [hv] at hsome
      have : supportedVideoTracks tracks = [] := by
        cases hl : supportedVideoTracks tracks with
        | nil => rfl
        | cons a l => rw [hl] at hsome; simp at hsome
      simp [this]
    | some ps =>
      rw [hv] at hsome
      have : supportedVideoTracks tracks ≠ [] := by
        intro hl; rw [hl] at hsome; simp at hsome
      simp [this, finalVideoPayloads, hv]

/-- The `fmtp` line of lines 77-118 when the extradata gives an SPS of at least 4
bytes and a PPS. -/
theorem h264Fmtp_parameter_sets (Deserialize : List Nat → Option H264Extradata)
    (codec_extradata : List Nat) (h : H264Extradata) (first_sps : List Nat)
    (more : List (List Nat)) (hne : codec_extradata ≠ [])
    (hd : Deserialize codec_extradata = some h) (hsps : h.sps = first_sps :: more)
    (hlen : 4 ≤ first_sps.length) (hpps : h.pps ≠ []) :
    h264Fmtp Deserialize codec_extradata =
      "packetization-mode=1;profile-level-id=".toList ++
        formatHex02 (first_sps.getD 1 0 % 256) ++ formatHex02 (first_sps.getD 2 0 % 256) ++
        formatHex02 (first_sps.getD 3 0 % 256) ++
        ";sprop-parameter-sets=".toList ++
        [','].intercalate ((h.sps ++ h.pps).map Base64.Encode) ++
        ";level-asymmetry-allowed=1".toList := by
  have he : codec_extradata.isEmpty = false := by
    cases codec_extradata with
    | nil => exact absurd rfl hne
    | cons a l => rfl
  have hp : h.pps.isEmpty = false := by
    cases hq : h.pps with
    | nil => exact absurd hq hpps
    | cons a l => rfl
  unfold h264Fmtp
  rw [he, hd]
  simp only [hsps, Bool.false_eq_true, if_false]
  rw [if_pos ⟨hlen, hp⟩, ← hsps, parameterSets_eq h.sps h.pps hpps]

/-- The `fmtp` line of lines 77-118 in every other case. -/
theorem h264Fmtp_default (Deserialize : List Nat → Option H264Extradata)
    (codec_extradata : List Nat)
    (h : codec_extradata = [] ∨ Deserialize codec_extradata = none ∨
      ∃ x, Deserialize codec_extradata = some x ∧
        (x.sps = [] ∨ (∃ first_sps more, x.sps = first_sps :: more ∧ first_sps.length < 4) ∨
          x.pps = [])) :
    h264Fmtp Deserialize codec_extradata = defaultH264Fmtp := by
  unfold h264Fmtp
  by_cases he : codec_extradata.isEmpty = true
  · rw [if_pos he]
  · rw [if_neg he]
    rcases h with h | h | ⟨x, hx, h⟩
    · rw [h] at he; exact absurd rfl he
    · rw [h]
    · rw [hx]
      rcases h with h | ⟨f, m, hf, hl⟩ | h
      · simp only [h]
      · simp only [hf]
        rw [if_neg (by omega)]
      · cases hs : x.sps with
        | nil => simp only [hs]
        | cons f m =>
          simp only [hs]
          rw [if_neg (by simp [h])]

/-- A joined text ends with its last piece. -/
theorem intercalate_append_singleton (sep : Str) (l : List Str) (x : Str) :
    ∃ pre, sep.intercalate (l ++ [x]) = pre ++ x := by
  induction l with
  | nil => exact ⟨[], by simp [List.intercalate]⟩
  | cons a t ih =>
    obtain ⟨pre, hpre⟩ := ih
    obtain ⟨y, l', hy⟩ := List.exists_cons_of_ne_nil (show t ++ [x] ≠ [] by simp)
    refine ⟨a ++ sep ++ pre, ?_⟩
    rw [hy] at hpre
    rw [List.cons_append, hy]
    simp only [List.intercalate, List.intersperse_cons_cons, List.flatten_cons] at hpre ⊢
    rw [hpre]
    simp

/-- The joined base64 texts of parameter sets do not start with a comma when the
first parameter set is not empty, and do not end with a comma when the last one
is not empty. -/
theorem parameterSets_commas (first last : List Nat) (mid : List (List Nat))
    (hfirst : first ≠ []) :
    ([','].intercalate ((first :: mid).map Base64.Encode)).head? ≠ some ',' ∧
      (last ≠ [] →
        ([','].intercalate ((first :: mid ++ [last]).map Base64.Encode)).getLast? ≠
          some ',') := by
  constructor
  · obtain ⟨hc, he⟩ := Base64_Encode_spec first
    have hne : Base64.Encode first ≠ [] := fun h => hfirst (he.1 h)
    obtain ⟨c, t, hct⟩ := List.exists_cons_of_ne_nil hne
    have hcc : c ≠ ',' := by
      intro h
      apply hc
      rw [hct, h]
      exact List.mem_cons_self _ _
    cases mid with
    | nil => simp [List.intercalate, hct, hcc]
    | cons m ms => simp [List.intercalate, hct, hcc]
  · intro hlast
    obtain ⟨hc, he⟩ := Base64_Encode_spec last
    have hne : Base64.Encode last ≠ [] := fun h => hlast (he.1 h)
    obtain ⟨pre, hpre⟩ := intercalate_append_singleton [',']
      ((first :: mid).map Base64.Encode) (Base64.Encode last)
    have hmap : (first :: mid ++ [last]).map Base64.Encode =
        (first :: mid).map Base64.Encode ++ [Base64.Encode last] := by simp
    rw [hmap, hpre, List.getLast?_append_of_ne_nil _ hne]
    intro h
    exact hc (List.mem_of_getLast?_eq_some h)

/-- A text without the separator is one piece. -/
theorem Split_of_no_sep (sep : Char) (p : Str) (hp : sep ∉ p) : Split sep p = [p] := by
  induction p with
  | nil => rfl
  | cons c cs ih =>
    have hc : c ≠ sep := fun h => hp (h ▸ List.mem_cons_self _ _)
    have hcs : sep ∉ cs := fun h => hp (List.mem_cons_of_mem _ h)
    unfold Split
    rw [if_neg hc, ih hcs]

/-- A text without the separator, followed by the separator, is cut off as the
first piece. -/
theorem Split_append_sep (sep : Char) (p s : Str) (hp : sep ∉ p) :
    Split sep (p ++ sep :: s) = p :: Split sep s := by
  induction p with
  | nil =>
    rw [List.nil_append, Split, if_pos rfl]
  | cons c cs ih =>
    have hc : c ≠ sep := fun h => hp (h ▸ List.mem_cons_self _ _)
    have hcs : sep ∉ cs := fun h => hp (List.mem_cons_of_mem _ h)
    rw [List.cons_append, Split, if_neg hc, ih hcs]

/-- Splitting a joined text at the separator gives the pieces back when no piece
holds the separator. -/
theorem Split_intercalate (sep : Char) (pieces : List Str) (hne : pieces ≠ [])
    (hp : ∀ p ∈ pieces, sep ∉ p) : Split sep ([sep].intercalate pieces) = pieces := by
  induction pieces with
  | nil => exact absurd rfl hne
  | cons a rest ih =>
    have ha : sep ∉ a := hp a (List.mem_cons_self _ _)
    cases rest with
    | nil =>
      have : [sep].intercalate [a] = a := by simp [List.intercalate]
      rw [this, Split_of_no_sep sep a ha]
    | cons b rest' =>
      have hrest := ih (by simp) (fun p hp' => hp p (List.mem_cons_of_mem _ hp'))
      have : [sep].intercalate (a :: b :: rest') =
          a ++ sep :: [sep].intercalate (b :: rest') := by
        simp [List.intercalate]
      rw [this, Split_append_sep sep a _ ha, hrest]

/-- Two separators in a row leave an empty piece after the first piece. -/
theorem Split_double_sep (sep : Char) (pre post : Str) :
    [] ∈ (Split sep (pre ++ sep :: sep :: post)).tail := by
  induction pre with
  | nil =>
    rw [List.nil_append]
    have h1 : Split sep (sep :: sep :: post) = [] :: Split sep (sep :: post) := by
      rw [Split, if_pos rfl]
    have h2 : Split sep (sep :: post) = [] :: Split sep post := by
      rw [Split, if_pos rfl]
    rw [h1, h2]
    simp
  | cons c cs ih =>
    rw [List.cons_append]
    by_cases hc : c = sep
    · have h1 : Split sep (c :: (cs ++ sep :: sep :: post)) =
          [] :: Split sep (cs ++ sep :: sep :: post) := by
        rw [Split, if_pos hc]
      rw [h1, List.tail_cons]
      exact List.mem_of_mem_tail ih
    · obtain ⟨rest, hr⟩ := Split_eq_cons sep (cs ++ sep :: sep :: post)
      have h1 : Split sep (c :: (cs ++ sep :: sep :: post)) =
          (c :: (cs ++ sep :: sep :: post).takeWhile (fun c => c != sep)) :: rest := by
        rw [Split, if_neg hc, hr]
      rw [hr, List.tail_cons] at ih
      rw [h1, List.tail_cons]
      exact ih

/-- The joined base64 texts of parameter sets: splitting them at the commas gives
the base64 texts back, and two commas in a row occur only with an empty
parameter set. -/
theorem parameterSets_split (sets : List (List Nat)) (hne : sets ≠ []) :
    Split ',' ([','].intercalate (sets.map Base64.Encode)) = sets.map Base64.Encode ∧
      ((∀ x ∈ sets, x ≠ []) →
        ¬ [',', ','] <:+: [','].intercalate (sets.map Base64.Encode)) := by
  have hsplit : Split ',' ([','].intercalate (sets.map Base64.Encode)) =
      sets.map Base64.Encode := by
    apply Split_intercalate
    · simpa using hne
    · intro p hp
      obtain ⟨x, _, hx⟩ := List.mem_map.1 hp
      rw [← hx]
      exact (Base64_Encode_spec x).1
  refine ⟨hsplit, ?_⟩
  rintro hall ⟨pre, post, hpp⟩
  have hmem := Split_double_sep ',' pre post
  have heq : pre ++ ',' :: ',' :: post = [','].intercalate (sets.map Base64.Encode) := by
    rw [← hpp]; simp
  rw [heq, hsplit] at hmem
  obtain ⟨x, hx, hxe⟩ := List.mem_map.1 (List.mem_of_mem_tail hmem)
  exact hall x hx ((Base64_Encode_spec x).2.1 hxe)

/-- C21: with the `fmtp` builder of lines 77-118 in `Start`, the codec payloads of
the video media description carry, in track order, that line for the H.264
tracks and no `fmtp` for VP8 (and H.265). For extradata that deserializes to at
least one SPS (the first of at least 4 bytes) and at least one PPS the line is
`packetization-mode=1;profile-level-id=` followed by the two hexadecimal digits
of each of the bytes 1, 2 and 3 of the first SPS, `;sprop-parameter-sets=`, the
base64 texts of all SPS and then all PPS joined by single commas, and
`;level-asymmetry-allowed=1`. Splitting the joined text at its commas gives
exactly these base64 texts in order, an empty parameter set giving an empty
text; the joined text does not start with a comma, does not end with one when no
PPS is empty, and holds no two commas in a row when no SPS and no PPS is empty.
In every other case the line is
`packetization-mode=1;profile-level-id=42e01f;level-asymmetry-allowed=1`. -/
theorem h264_fmtp_line (env : RtcEnv) (Deserialize : List Nat → Option H264Extradata)
    (tracks : List MediaTrack) (henv : env.h264_fmtp = h264Fmtp Deserialize) :
    (∃ codec_payloads : List PayloadAttr,
        codec_payloads.map (fun p => p.fmtp) =
          (supportedVideoTracks tracks).map (fun t =>
            if t.codec_id = .H264 then h264Fmtp Deserialize t.codec_extradata else []) ∧
        (Start env tracks).media_list.filter (fun m => decide (m.media_type = .Video)) =
          (if supportedVideoTracks tracks = [] then []
           else [{ media_type := .Video,
                   payloads := codec_payloads ++ [redPayload env, ulpfecPayload env] }])) ∧
      (∀ (codec_extradata : List Nat) (h : H264Extradata) (first_sps : List Nat)
          (more : List (List Nat)),
        codec_extradata ≠ [] → Deserialize codec_extradata = some h →
        h.sps = first_sps :: more → 4 ≤ first_sps.length → h.pps ≠ [] →
        h264Fmtp Deserialize codec_extradata =
            "packetization-mode=1;profile-level-id=".toList ++
              [Nat.digitChar (first_sps.getD 1 0 % 256 / 16),
               Nat.digitChar (first_sps.getD 1 0 % 256 % 16),
               Nat.digitChar (first_sps.getD 2 0 % 256 / 16),
               Nat.digitChar (first_sps.getD 2 0 % 256 % 16),
               Nat.digitChar (first_sps.getD 3 0 % 256 / 16),
               Nat.digitChar (first_sps.getD 3 0 % 256 % 16)] ++
              ";sprop-parameter-sets=".toList ++
              [','].intercalate ((h.sps ++ h.pps).map Base64.Encode) ++
              ";level-asymmetry-allowed=1".toList ∧
          Split ',' ([','].intercalate ((h.sps ++ h.pps).map Base64.Encode)) =
            (h.sps ++ h.pps).map Base64.Encode ∧
          ([','].intercalate ((h.sps ++ h.pps).map Base64.Encode)).head? ≠ some ',' ∧
          ((∀ x ∈ h.pps, x ≠ []) →
            ([','].intercalate ((h.sps ++ h.pps).map Base64.Encode)).getLast? ≠ some ',') ∧
          ((∀ x ∈ h.sps ++ h.pps, x ≠ []) →
            ¬ [',', ','] <:+: [','].intercalate ((h.sps ++ h.pps).map Base64.Encode))) ∧
      (∀ d, d < 16 → Nat.digitChar d ∈ "0123456789abcdef".toList) ∧
      (∀ codec_extradata : List Nat,
        (codec_extradata = [] ∨ Deserialize codec_extradata = none ∨
          ∃ x, Deserialize codec_extradata = some x ∧
            (x.sps = [] ∨
              (∃ first_sps more, x.sps = first_sps :: more ∧ first_sps.length < 4) ∨
              x.pps = [])) →
        h264Fmtp Deserialize codec_extradata =
          "packetization-mode=1;profile-level-id=42e01f;level-asymmetry-allowed=1".toList) := by
  refine ⟨?_, ?_, digitChar_lower_hex, ?_⟩
  · obtain ⟨ps, h1, _, _, h2⟩ := Start_video_fmtp env tracks
    refine ⟨ps, ?_, h2⟩
    rw [h1]
    apply List.map_congr_left
    intro t _
    unfold videoFmtp
    rw [henv]
  · intro codec_extradata h first_sps more hne hd hsps hlen hpps
    have hsets : h.sps ++ h.pps ≠ [] := by rw [hsps]; simp
    refine ⟨?_, (parameterSets_split _ hsets).1, ?_, ?_, (parameterSets_split _ hsets).2⟩
    · rw [h264Fmtp_parameter_sets Deserialize codec_extradata h first_sps more hne hd hsps
        hlen hpps,
        formatHex02_byte _ (Nat.mod_lt _ (by decide)),
        formatHex02_byte _ (Nat.mod_lt _ (by decide)),
        formatHex02_byte _ (Nat.mod_lt _ (by decide))]
      simp
    · have hfirst : first_sps ≠ [] := by
        intro h0
        rw [h0] at hlen
        simp at hlen
      rw [hsps, List.cons_append]
      exact (parameterSets_commas first_sps [] (more ++ h.pps) hfirst).1
    · intro hall
      have hfirst : first_sps ≠ [] := by
        intro h0
        rw [h0] at hlen
        simp at hlen
      have hsplit : h.pps = h.pps.dropLast ++ [h.pps.getLast hpps] :=
        (List.dropLast_append_getLast hpps).symm
      have hlast : h.pps.getLast hpps ≠ [] := hall _ (List.getLast_mem hpps)
      have hall2 : h.sps ++ h.pps =
          first_sps :: (more ++ h.pps.dropLast) ++ [h.pps.getLast hpps] := by
        rw [hsps]
        conv_lhs => rw [hsplit]
        simp
      rw [hall2]
      exact (parameterSets_commas first_sps (h.pps.getLast hpps) (more ++ h.pps.dropLast)
        hfirst).2 hlast
  · intro codec_extradata h
    rw [h264Fmtp_default Deserialize codec_extradata h, defaultH264Fmtp_eq]

/-- C21, the counterexample: extradata with the SPS `67 42 e0 1f` and one PPS of no
bytes meets the conditions (one SPS of 4 bytes, one PPS), and the line carries
`sprop-parameter-sets=Z0LgHw==,` with a comma at the end; with a second SPS of no
bytes before the PPS `68 ce` the line carries `Z0LgHw==,,aM4=` with two commas in
a row. -/
theorem empty_parameter_set_leaves_comma :
    demoDeserialize [4, 0x67, 0x42, 0xe0, 0x1f, 0] =
        some { sps := [[0x67, 0x42, 0xe0, 0x1f]], pps := [[]] } ∧
      h264Fmtp demoDeserialize [4, 0x67, 0x42, 0xe0, 0x1f, 0] =
        ("packetization-mode=1;profile-level-id=42e01f;" ++
          "sprop-parameter-sets=Z0LgHw==,;level-asymmetry-allowed=1").toList ∧
      h264Fmtp
          (fun _ => some { sps := [[0x67, 0x42, 0xe0, 0x1f], []], pps := [[0x68, 0xce]] })
          [1] =
        ("packetization-mode=1;profile-level-id=42e01f;" ++
          "sprop-parameter-sets=Z0LgHw==,,aM4=;level-asymmetry-allowed=1").toList := by
  decide

/-- C21, for a track whose extradata holds the SPS `67 42 e0 1f` and the PPS `68 ce`,
and for a track without extradata: the lines are
`...profile-level-id=42e01f;sprop-parameter-sets=Z0LgHw==,aM4=;...` and the
default line. -/
theorem h264_fmtp_line_witness :
    h264Fmtp demoDeserialize [4, 0x67, 0x42, 0xe0, 0x1f, 2, 0x68, 0xce] =
        ("packetization-mode=1;profile-level-id=42e01f;" ++
          "sprop-parameter-sets=Z0LgHw==,aM4=;level-asymmetry-allowed=1").toList ∧
      h264Fmtp demoDeserialize [] =
        "packetization-mode=1;profile-level-id=42e01f;level-asymmetry-allowed=1".toList :=
  have h := h264_fmtp_line demoH264Env demoDeserialize
    [{ demoTrack 1 .Video .H264 with
        codec_extradata := [4, 0x67, 0x42, 0xe0, 0x1f, 2, 0x68, 0xce] },
     demoTrack 2 .Video .Vp8] rfl
  ⟨((h.2.1 [4, 0x67, 0x42, 0xe0, 0x1f, 2, 0x68, 0xce]
      { sps := [[0x67, 0x42, 0xe0, 0x1f]], pps := [[0x68, 0xce]] } [0x67, 0x42, 0xe0, 0x1f] []
      (by decide) (by decide) rfl (by decide) (by decide)).1).trans (by decide),
    h.2.2.2 [] (Or.inl rfl)⟩

/-! ## Theorems: failures in ThreadEncode -/

/-- When `av_frame_get_buffer` or `av_frame_make_writable` fails for the frame at the
head of the input queue, the frame is gone from the queue and `ThreadEncode` is left:
the frames behind it stay in the queue, and nothing is encoded any more. -/
theorem ThreadEncode_buffer_failure {F C P : Type} (env : EncoderEnv F C P)
    (st : EncoderState F C P) (frame : F) (rest : List F) (fuel : Nat)
    (hq : st.input_buffer = frame :: rest)
    (hfail : env.av_frame_get_buffer frame < 0 ∨ env.av_frame_make_writable frame < 0) :
    ThreadEncode env (fuel + 1) st = .ended { st with input_buffer := rest } := by
  unfold ThreadEncode
  rw [hq]
  simp only
  unfold encodeFrame
  by_cases h1 : env.av_frame_get_buffer frame < 0
  · rw [if_pos h1]
  · rw [if_neg h1]
    rcases hfail with h | h
    · exact absurd h h1
    · rw [if_pos h]

/-- When `avcodec_send_frame` rejects the frame at the head of the input queue, the
frame is put back at the front of the queue and the loop goes on. -/
theorem encodeFrame_send_failure {F C P : Type} (env : EncoderEnv F C P)
    (st : EncoderState F C P) (frame : F) (rest : List F)
    (h1 : ¬ env.av_frame_get_buffer frame < 0) (h2 : ¬ env.av_frame_make_writable frame < 0)
    (h3 : (env.avcodec_send_frame st.codec frame).1 < 0) :
    (encodeFrame env st frame rest).1.input_buffer = frame :: rest ∧
      (encodeFrame env st frame rest).2 = true := by
  unfold encodeFrame
  rw [if_neg h1, if_neg h2]
  simp only [h3, if_true, and_self]

/-- A frame that is encoded without failure leaves the queue, and the loop goes
on with the frames behind it. -/
theorem encodeFrame_success {F C P : Type} (env : EncoderEnv F C P)
    (st : EncoderState F C P) (frame : F) (rest : List F)
    (h1 : ¬ env.av_frame_get_buffer frame < 0) (h2 : ¬ env.av_frame_make_writable frame < 0)
    (h3 : ¬ (env.avcodec_send_frame st.codec frame).1 < 0) :
    (encodeFrame env st frame rest).1.input_buffer = rest ∧
      (encodeFrame env st frame rest).2 = true := by
  unfold encodeFrame
  rw [if_neg h1, if_neg h2]
  simp only [h3, if_false, and_self]

/-- With the frame 7, which the codec of the scenarios rejects, at the head of the
queue, the loop never gets past it. -/
theorem ThreadEncode_rejected_frame_stays (fuel : Nat) :
    ThreadEncode demoEncoderEnv fuel { input_buffer := [7, 2], output_buffer := [], codec := [] } =
      .running { input_buffer := [7, 2], output_buffer := [], codec := [] } := by
  induction fuel with
  | zero => rfl
  | succ n ih =>
    unfold ThreadEncode
    exact ih

/-- C24: in the encoder of the scenarios, with the frames 13 and 2 queued and buffer
allocation failing for 13, `ThreadEncode` drops the frame 13 and ends: the frame 2
stays in the queue and is never encoded. With the frames 7 and 2 queued and the
codec rejecting 7, the frame 7 is put back at the front of the queue, and however
long the loop runs the queue stays `[7, 2]` and the frame 2 is not reached. With
the frames 1 and 2 queued both are encoded and the thread waits for more. -/
theorem encoder_failure_is_not_local :
    ThreadEncode demoEncoderEnv 10
        { input_buffer := [13, 2], output_buffer := [], codec := [] } =
      .ended { input_buffer := [2], output_buffer := [], codec := [] } ∧
      encodeFrame demoEncoderEnv { input_buffer := [7, 2], output_buffer := [], codec := [] }
          7 [2] =
        ({ input_buffer := [7, 2], output_buffer := [], codec := [] }, true) ∧
      (∀ fuel, ThreadEncode demoEncoderEnv fuel
          { input_buffer := [7, 2], output_buffer := [], codec := [] } =
        .running { input_buffer := [7, 2], output_buffer := [], codec := [] }) ∧
      ThreadEncode demoEncoderEnv 10
        { input_buffer := [1, 2], output_buffer := [], codec := [] } =
      .waiting { input_buffer := [], output_buffer := [1, 2], codec := [] } :=
  ⟨by decide, by decide, ThreadEncode_rejected_frame_stays, by decide⟩

/-! ## Theorems: the duration computed in MakePacket -/

/-- The function `log2Aux` with enough fuel brackets `n` between two powers of 2. -/
theorem log2Aux_spec : ∀ (fuel n : Nat), n ≤ fuel → 0 < n →
    2 ^ log2Aux fuel n ≤ n ∧ n < 2 ^ (log2Aux fuel n + 1)
  | 0, n, h1, h2 => by omega
  | fuel + 1, n, h1, h2 => by
    unfold log2Aux
    by_cases h : n < 2
    · rw [if_pos h]
      simp
      omega
    · rw [if_neg h]
      obtain ⟨ih1, ih2⟩ := log2Aux_spec fuel (n / 2) (by omega) (by omega)
      rw [pow_succ, pow_succ] at *
      omega

/-- The value `log2 n` brackets a positive `n` between two powers of 2. -/
theorem log2_spec (n : Nat) (hn : 0 < n) : 2 ^ log2 n ≤ n ∧ n < 2 ^ (log2 n + 1) :=
  log2Aux_spec n n (Nat.le_refl n) hn

/-- The value `floorLog2 a b` is a difference `i - j` of exponents with
`2^i / 2^j ≤ a / b < 2^(i+1) / 2^j`. -/
theorem floorLog2_spec (a b : Nat) (ha : 0 < a) (hb : 0 < b) :
    ∃ i j : Nat, floorLog2 a b = (i : Int) - j ∧ b * 2 ^ i ≤ a * 2 ^ j ∧
      a * 2 ^ j < b * 2 ^ (i + 1) := by
  obtain ⟨a1, a2⟩ := log2_spec a ha
  obtain ⟨b1, b2⟩ := log2_spec b hb
  unfold floorLog2
  by_cases h : b * 2 ^ log2 a ≤ a * 2 ^ log2 b
  · rw [if_pos h]
    refine ⟨log2 a, log2 b, rfl, h, ?_⟩
    calc a * 2 ^ log2 b < 2 ^ (log2 a + 1) * 2 ^ log2 b :=
          Nat.mul_lt_mul_of_pos_right a2 (by positivity)
      _ ≤ 2 ^ (log2 a + 1) * b := Nat.mul_le_mul_left _ b1
      _ = b * 2 ^ (log2 a + 1) := Nat.mul_comm _ _
  · rw [if_neg h]
    refine ⟨log2 a, log2 b + 1, by push_cast; ring, ?_, ?_⟩
    · calc b * 2 ^ log2 a ≤ 2 ^ (log2 b + 1) * 2 ^ log2 a :=
            Nat.mul_le_mul_right _ (Nat.le_of_lt b2)
        _ ≤ 2 ^ (log2 b + 1) * a := Nat.mul_le_mul_left _ a1
        _ = a * 2 ^ (log2 b + 1) := Nat.mul_comm _ _
    · have h' : a * 2 ^ log2 b < b * 2 ^ log2 a := Nat.lt_of_not_le h
      rw [pow_succ, pow_succ, ← Nat.mul_assoc, ← Nat.mul_assoc]
      omega

/-- A common factor of numerator and denominator does not change the rounded
quotient. -/
theorem roundHalfEven_scale (n d c : Nat) (hc : 0 < c) :
    roundHalfEven (n * c) (d * c) = roundHalfEven n d := by
  unfold roundHalfEven
  rw [Nat.mul_div_mul_right _ _ hc, Nat.mul_mod_mul_right]
  have h1 : 2 * (n % d * c) < d * c ↔ 2 * (n % d) < d := by
    rw [← Nat.mul_assoc]
    exact Nat.mul_lt_mul_right hc
  have h2 : d * c < 2 * (n % d * c) ↔ d < 2 * (n % d) := by
    rw [← Nat.mul_assoc]
    exact Nat.mul_lt_mul_right hc
  simp only [h1, h2]

/-- The rounded quotient lies between the quotient cut off and the next integer. -/
theorem roundHalfEven_bounds (n d : Nat) :
    n / d ≤ roundHalfEven n d ∧ roundHalfEven n d ≤ n / d + 1 := by
  unfold roundHalfEven
  split_ifs <;> omega

/-- An exact quotient is not changed by the rounding. -/
theorem roundHalfEven_exact (q d : Nat) (hd : 0 < d) : roundHalfEven (q * d) d = q := by
  unfold roundHalfEven
  rw [Nat.mul_mod_left, Nat.mul_div_cancel _ hd, if_pos (by omega)]

/-- The core of the rounding argument, with the mantissa scaled by `M = 2^K`: the
rounded mantissa of `d / n`, cut off after `K` binary places, is `d / n` cut off,
when `d` has at most `p` bits (`P = 2^(p-1)`). -/
theorem roundHalfEven_trunc (d n M P : Nat) (hn : 0 < n) (hM : 0 < M) (hP : 0 < P)
    (hlow : n * P ≤ d * M) (hdp : d ≤ 2 * P) :
    roundHalfEven (d * M) n / M = d / n := by
  have hdiv := Nat.div_add_mod d n
  have hdivM := Nat.div_add_mod (d * M) n
  have hr : d % n < n := Nat.mod_lt _ hn
  have hR : d * M % n < n := Nat.mod_lt _ hn
  generalize hQ : d / n = Q at hdiv ⊢
  generalize hrr : d % n = r at hdiv hr
  generalize hF : d * M / n = F at hdivM
  generalize hRR : d * M % n = R at hdivM hR
  have hm : roundHalfEven (d * M) n = F ∨
      (roundHalfEven (d * M) n = F + 1 ∧ n ≤ 2 * R) := by
    unfold roundHalfEven
    rw [hF, hRR]
    by_cases h1 : 2 * R < n
    · left; rw [if_pos h1]
    · rw [if_neg h1]
      by_cases h2 : n < 2 * R
      · right; rw [if_pos h2]; exact ⟨rfl, by omega⟩
      · rw [if_neg h2]
        rcases Nat.mod_two_eq_zero_or_one F with h | h
        · left; rw [h]; rfl
        · right; rw [h]; exact ⟨rfl, by omega⟩
  -- the quotient cut off lies in the right block
  have hlo : Q * M ≤ F := by
    have h : n * (Q * M) < n * (F + 1) := by
      calc n * (Q * M) = (n * Q) * M := by ring
        _ ≤ d * M := Nat.mul_le_mul_right _ (by omega)
        _ = n * F + R := hdivM.symm
        _ < n * (F + 1) := by rw [Nat.mul_add, Nat.mul_one]; omega
    have := Nat.lt_of_mul_lt_mul_left h
    omega
  have hhi : F < (Q + 1) * M := by
    have h : n * F < n * ((Q + 1) * M) := by
      calc n * F ≤ n * F + R := Nat.le_add_right _ _
        _ = d * M := hdivM
        _ < (n * (Q + 1)) * M := Nat.mul_lt_mul_of_pos_right (by rw [Nat.mul_add]; omega) hM
        _ = n * ((Q + 1) * M) := by ring
    exact Nat.lt_of_mul_lt_mul_left h
  apply Nat.div_eq_of_lt_le
  · rcases hm with h | ⟨h, _⟩ <;> rw [h] <;> omega
  · rcases hm with h | ⟨h, hup⟩
    · rw [h]; exact hhi
    · rw [h]
      by_contra hcon
      have hFeq : F + 1 = (Q + 1) * M := by omega
      -- r * M + n = n * M + R
      have e1 : n * F + n = n * (Q * M) + n * M := by
        have : n * (F + 1) = n * ((Q + 1) * M) := by rw [hFeq]
        rw [Nat.mul_add, Nat.mul_one] at this
        rw [this]; ring
      have e2 : d * M = n * (Q * M) + r * M := by
        rw [← hdiv]; ring
      have e3 : r * M + n = n * M + R := by omega
      have hMn : 2 * M ≤ n := by
        have h5 : 2 * ((n - r) * M) ≤ n := by
          have : (n - r) * M + r * M = n * M := by
            rw [← Nat.add_mul]; congr 1; omega
          omega
        have h6 : M ≤ (n - r) * M := Nat.le_mul_of_pos_left _ (by omega)
        omega
      have hnM : n ≤ 2 * M := by
        have h7 : n * P ≤ (2 * M) * P := by
          calc n * P ≤ d * M := hlow
            _ ≤ (2 * P) * M := Nat.mul_le_mul_right _ hdp
            _ = (2 * M) * P := by ring
        exact Nat.le_of_mul_le_mul_right h7 hP
      have hn2 : n = 2 * M := by omega
      have hr1 : r + 1 = n := by
        have h5 : 2 * ((n - r) * M) ≤ n := by
          have : (n - r) * M + r * M = n * M := by
            rw [← Nat.add_mul]; congr 1; omega
          omega
        have h8 : (n - r) * M ≤ M := by omega
        have h9 : n - r ≤ 1 := by
          by_contra h10
          have : 2 * M ≤ (n - r) * M := Nat.mul_le_mul_right _ (by omega)
          omega
        omega
      have hd2 : d = 2 * P := by
        have h7 : (2 * P) * M ≤ d * M := by
          calc (2 * P) * M = (2 * M) * P := by ring
            _ = n * P := by rw [hn2]
            _ ≤ d * M := hlow
        have := Nat.le_of_mul_le_mul_right h7 hM
        omega
      -- parity: d = n * Q + r with d and n even and r odd
      have hpar : 2 * P = 2 * (M * Q) + r := by
        rw [← hd2, ← hdiv, hn2]; ring
      generalize M * Q = X at hpar
      omega

/-- The quotient `d / n` of two positive integers, `d` of at most `p` bits, rounded
to `p` significant bits and then cut off to an integer, is the integer quotient
of `d` by `n` (numerator and denominator may carry a common factor `c`). -/
theorem roundToPrec_trunc (p A B d n c : Nat) (hp : 1 ≤ p) (hA : A = d * c) (hB : B = n * c)
    (hc : 0 < c) (hd : 0 < d) (hn : 0 < n) (hdp : d ≤ 2 ^ p) :
    (if 0 ≤ (roundToPrec p A B).2 then (roundToPrec p A B).1 * 2 ^ (roundToPrec p A B).2.toNat
     else (roundToPrec p A B).1 / 2 ^ (-(roundToPrec p A B).2).toNat) = d / n := by
  have hApos : 0 < A := by rw [hA]; exact Nat.mul_pos hd hc
  have hBpos : 0 < B := by rw [hB]; exact Nat.mul_pos hn hc
  obtain ⟨i, j, he0, h1, h2⟩ := floorLog2_spec A B hApos hBpos
  have hJ : 0 < 2 ^ j := by positivity
  have hpp : 2 ^ p = 2 * 2 ^ (p - 1) := by
    rw [← pow_succ']
    congr 1
    omega
  have hP : 0 < 2 ^ (p - 1) := by positivity
  -- the bracket of the logarithm without the common factor
  have h1' : n * 2 ^ i ≤ d * 2 ^ j := by
    rw [hA, hB] at h1
    have : (n * 2 ^ i) * c ≤ (d * 2 ^ j) * c := by
      calc (n * 2 ^ i) * c = n * c * 2 ^ i := by ring
        _ ≤ d * c * 2 ^ j := h1
        _ = (d * 2 ^ j) * c := by ring
    exact Nat.le_of_mul_le_mul_right this hc
  unfold roundToPrec
  simp only
  rw [he0]
  by_cases he : 0 ≤ (i : Int) - j - ((p : Int) - 1)
  · -- the quotient is at least `2^(p-1)`: it is `d` or `d / 2` without remainder
    rw [if_pos he, if_pos he]
    obtain ⟨E, hE⟩ := Int.eq_ofNat_of_zero_le he
    rw [hE, Int.toNat_ofNat]
    have hi : i = j + (p - 1) + E := by omega
    have h3 : n * 2 ^ E * 2 ^ (p - 1) ≤ d := by
      rw [hi, pow_add, pow_add] at h1'
      have : (n * 2 ^ E * 2 ^ (p - 1)) * 2 ^ j ≤ d * 2 ^ j := by
        calc (n * 2 ^ E * 2 ^ (p - 1)) * 2 ^ j = n * (2 ^ j * 2 ^ (p - 1) * 2 ^ E) := by ring
          _ ≤ d * 2 ^ j := h1'
      exact Nat.le_of_mul_le_mul_right this hJ
    have h4 : n * 2 ^ E ≤ 2 := by
      have : (n * 2 ^ E) * 2 ^ (p - 1) ≤ 2 * 2 ^ (p - 1) := by omega
      exact Nat.le_of_mul_le_mul_right this hP
    have hscale : roundHalfEven A (B * 2 ^ E) = roundHalfEven d (n * 2 ^ E) := by
      rw [hA, hB, show n * c * 2 ^ E = (n * 2 ^ E) * c by ring]
      exact roundHalfEven_scale _ _ _ hc
    rw [hscale]
    have hEpos : 0 < 2 ^ E := by positivity
    have hE1 : E = 0 ∨ E = 1 := by
      rcases Nat.lt_or_ge E 2 with h | h
      · omega
      · have : 2 ^ 2 ≤ 2 ^ E := Nat.pow_le_pow_right (by decide) h
        have : 1 * 2 ^ E ≤ n * 2 ^ E := Nat.mul_le_mul_right _ hn
        omega
    rcases hE1 with h0 | h1E
    · subst h0
      simp only [pow_zero, Nat.mul_one] at h3 h4 ⊢
      have hn12 : n = 1 ∨ n = 2 := by omega
      rcases hn12 with hn1 | hn2
      · subst hn1
        have := roundHalfEven_exact d 1 (by decide)
        rw [Nat.mul_one] at this
        rw [this, Nat.div_one]
      · subst hn2
        have hd2 : d = 2 ^ (p - 1) * 2 := by omega
        rw [hd2, roundHalfEven_exact _ 2 (by decide), Nat.mul_div_cancel _ (by decide)]
    · subst h1E
      simp only [pow_one] at h3 h4 ⊢
      have hn1 : n = 1 := by omega
      subst hn1
      have hd2 : d = 2 ^ (p - 1) * (1 * 2) := by omega
      rw [hd2, roundHalfEven_exact _ (1 * 2) (by decide), Nat.div_one]
  · -- the usual case: the mantissa is scaled up by `2^K`
    rw [if_neg he, if_neg he]
    have hneg : 0 ≤ -((i : Int) - j - ((p : Int) - 1)) := by omega
    obtain ⟨K, hK⟩ := Int.eq_ofNat_of_zero_le hneg
    rw [hK, Int.toNat_ofNat]
    have hi : i + K = j + (p - 1) := by omega
    have hscale : roundHalfEven (A * 2 ^ K) B = roundHalfEven (d * 2 ^ K) n := by
      rw [hA, hB, show d * c * 2 ^ K = (d * 2 ^ K) * c by ring]
      exact roundHalfEven_scale _ _ _ hc
    rw [hscale]
    have hlow : n * 2 ^ (p - 1) ≤ d * 2 ^ K := by
      have : (n * 2 ^ (p - 1)) * 2 ^ j ≤ (d * 2 ^ K) * 2 ^ j := by
        calc (n * 2 ^ (p - 1)) * 2 ^ j = n * 2 ^ (j + (p - 1)) := by rw [pow_add]; ring
          _ = (n * 2 ^ i) * 2 ^ K := by rw [← hi, pow_add]; ring
          _ ≤ (d * 2 ^ j) * 2 ^ K := Nat.mul_le_mul_right _ h1'
          _ = (d * 2 ^ K) * 2 ^ j := by ring
      exact Nat.le_of_mul_le_mul_right this hJ
    exact roundHalfEven_trunc d n (2 ^ K) (2 ^ (p - 1)) hn (by positivity) hP hlow
      (by omega)

/-- The cast `(float)den` is exact for a positive `den` of at most `2^24`: the
rounded value `m * 2^e` is `d`. -/
theorem roundToPrec_int_exact (d : Nat) (hd : 0 < d) (hd24 : d ≤ 2 ^ 24) :
    (roundToPrec 24 d 1).1 * 2 ^ (roundToPrec 24 d 1).2.toNat =
      d * 2 ^ (-(roundToPrec 24 d 1).2).toNat := by
  obtain ⟨i, j, he0, h1, h2⟩ := floorLog2_spec d 1 hd (by decide)
  have hJ : 0 < 2 ^ j := by positivity
  unfold roundToPrec
  simp only
  rw [he0]
  by_cases he : 0 ≤ (i : Int) - j - (((24 : Nat) : Int) - 1)
  · rw [if_pos he]
    obtain ⟨E, hE⟩ := Int.eq_ofNat_of_zero_le he
    rw [hE, Int.toNat_ofNat]
    have hneg : (-(E : Int)).toNat = 0 := by omega
    rw [hneg, pow_zero, Nat.mul_one]
    have hi : i = j + 23 + E := by omega
    have h3 : 2 ^ 23 * 2 ^ E ≤ d := by
      rw [hi, pow_add, pow_add, Nat.one_mul] at h1
      have : (2 ^ 23 * 2 ^ E) * 2 ^ j ≤ d * 2 ^ j := by
        calc (2 ^ 23 * 2 ^ E) * 2 ^ j = 2 ^ j * 2 ^ 23 * 2 ^ E := by ring
          _ ≤ d * 2 ^ j := h1
      exact Nat.le_of_mul_le_mul_right this hJ
    have hE1 : E = 0 ∨ E = 1 := by
      rcases Nat.lt_or_ge E 2 with h | h
      · omega
      · have : 2 ^ 2 ≤ 2 ^ E := Nat.pow_le_pow_right (by decide) h
        omega
    rcases hE1 with h0 | h1E
    · subst h0
      have := roundHalfEven_exact d 1 (by decide)
      rw [pow_zero, Nat.mul_one] at *
      exact this
    · subst h1E
      have hd2 : d = 2 ^ 23 * (1 * 2 ^ 1) := by omega
      rw [hd2, roundHalfEven_exact _ (1 * 2 ^ 1) (by decide)]
      ring
  · rw [if_neg he]
    have hneg : 0 ≤ -((i : Int) - j - (((24 : Nat) : Int) - 1)) := by omega
    obtain ⟨K, hK⟩ := Int.eq_ofNat_of_zero_le hneg
    have hpos : ((i : Int) - j - (((24 : Nat) : Int) - 1)).toNat = 0 := by omega
    rw [hpos, hK, Int.toNat_ofNat, pow_zero, Nat.mul_one]
    have := roundHalfEven_exact (d * 2 ^ K) 1 (by decide)
    rw [Nat.mul_one] at this
    exact this

/-- The duration for a time base denominator of at most `2^24` in absolute value
and a frame rate `fnum / fden` with `|den| * fden` of at most `prec` bits: the
quotient of `den` by the frame rate, cut off toward zero. -/
theorem MakePacketDuration_exact (prec : Nat) (den : Int) (fnum fden : Nat)
    (hp1 : 1 ≤ prec) (hp2 : prec ≤ 62) (hden : den ≠ 0) (hd24 : den.natAbs ≤ 2 ^ 24)
    (hfnum : 0 < fnum) (hfden : 0 < fden) (hprec : den.natAbs * fden ≤ 2 ^ prec) :
    MakePacketDuration prec den fnum fden =
      some (den.sign * ((den.natAbs * fden / fnum : Nat) : Int)) := by
  have hd : 0 < den.natAbs := Int.natAbs_pos.2 hden
  have hx := roundToPrec_int_exact den.natAbs hd hd24
  have ht := roundToPrec_trunc prec
    ((roundToPrec 24 den.natAbs 1).1 * 2 ^ (roundToPrec 24 den.natAbs 1).2.toNat * fden)
    (2 ^ (-(roundToPrec 24 den.natAbs 1).2).toNat * fnum)
    (den.natAbs * fden) fnum (2 ^ (-(roundToPrec 24 den.natAbs 1).2).toNat) hp1
    (by rw [hx]; ring) (by ring) (by positivity) (Nat.mul_pos hd hfden) hfnum hprec
  have hlt : den.natAbs * fden / fnum < 2 ^ 63 := by
    have h1 : den.natAbs * fden / fnum ≤ den.natAbs * fden := Nat.div_le_self _ _
    have h2 : 2 ^ prec ≤ 2 ^ 62 := Nat.pow_le_pow_right (by decide) hp2
    have h3 : (2 : Nat) ^ 62 < 2 ^ 63 := by decide
    omega
  unfold MakePacketDuration
  rw [if_neg hden, if_neg (by omega)]
  simp only
  rw [ht, if_pos hlt]

/-- The quotient cut off toward zero, by sign and absolute value. -/
theorem tdiv_sign_natAbs (a : Int) (b c : Nat) :
    a.sign * ((a.natAbs * b / c : Nat) : Int) = Int.tdiv (a * b) c := by
  rcases Int.natAbs_eq a with h | h
  · have hs : a.sign * (a.natAbs : Int) = a := Int.sign_mul_natAbs a
    rcases Nat.eq_zero_or_pos a.natAbs with h0 | hpos
    · have ha : a = 0 := Int.natAbs_eq_zero.1 h0
      subst ha
      simp
    · have hsign : a.sign = 1 := Int.sign_eq_one_of_pos (by omega)
      rw [hsign, Int.one_mul]
      conv_rhs => rw [h]
      rw [← Int.natCast_mul, Int.ofNat_tdiv]
  · rcases Nat.eq_zero_or_pos a.natAbs with h0 | hpos
    · have ha : a = 0 := Int.natAbs_eq_zero.1 h0
      subst ha
      simp
    · have hsign : a.sign = -1 := Int.sign_eq_neg_one_of_neg (by omega)
      rw [hsign]
      conv_rhs => rw [h]
      simp only [Int.neg_mul, Int.neg_tdiv, Int.one_mul]
      rw [← Int.natCast_mul, Int.ofNat_tdiv]

/-- The duration is 0 for a time base denominator 0, and never negative for a
denominator that is not negative. -/
theorem MakePacketDuration_nonneg (prec : Nat) (den : Int) (fnum fden : Nat) :
    (den = 0 → MakePacketDuration prec den fnum fden = some 0) ∧
      (0 ≤ den → ∀ d, MakePacketDuration prec den fnum fden = some d → 0 ≤ d) := by
  constructor
  · intro h
    unfold MakePacketDuration
    rw [if_pos h]
  · intro hden d hd
    unfold MakePacketDuration at hd
    by_cases h0 : den = 0
    · rw [if_pos h0] at hd
      have : d = 0 := by simpa using hd.symm
      omega
    · rw [if_neg h0] at hd
      by_cases hf : fnum = 0 ∨ fden = 0
      · rw [if_pos hf] at hd
        exact absurd hd (by simp)
      · rw [if_neg hf] at hd
        simp only at hd
        have hsign : den.sign = 1 := Int.sign_eq_one_of_pos (by omega)
        rw [hsign] at hd
        split_ifs at hd
        all_goals
          have hinj := Option.some.inj hd
          rw [← hinj, Int.one_mul]
          exact Int.natCast_nonneg _

/-- The fragmentation header of `MakePacket` exists for every packet. -/
theorem MakePacketFragments_isSome (data : List Nat) (flags : Int) :
    ∃ h, MakePacketFragments data flags = some h := by
  obtain ⟨h, _, _, hh, _⟩ := MakePacketFragments_last data flags
  exact ⟨h, hh⟩

/-- For the time base denominator 1 and the frame rate `2^-70` the quotient `2^70`
is outside `int64_t`: the conversion is undefined. -/
theorem MakePacketDuration_undefined :
    MakePacketDuration 24 1 1 (2 ^ 70) = none ∧ MakePacketDuration 53 1 1 (2 ^ 70) = none := by
  set_option maxRecDepth 8000 in decide

/-- C22, the counterexample: for the time base denominator `2^24 + 1 = 16777217` and
the frame rate 1 the cast `(float)den` rounds the denominator to 16777216, and
the duration is 16777216 and not `den / f = 16777217`, whether the division is
done in `float` or in `double`; for the denominator `10^9` and the frame rate 30
a division in `float` gives 33333334 and not 33333333. For the denominator 1 and
the frame rate `2^-70` the quotient `2^70` is outside `int64_t`: the conversion
is undefined, and no duration that is at least 0 is produced. -/
theorem large_denominator_is_rounded :
    MakePacketDuration 24 16777217 1 1 = some 16777216 ∧
      MakePacketDuration 53 16777217 1 1 = some 16777216 ∧
      Int.tdiv (16777217 * 1) 1 ≠ 16777216 ∧
      MakePacketDuration 24 1000000000 30 1 = some 33333334 ∧
      Int.tdiv (1000000000 * 1) 30 = 33333333 ∧
      MakePacketDuration 24 1 1 (2 ^ 70) = none ∧
      MakePacketDuration 53 1 1 (2 ^ 70) = none :=
  ⟨by decide, by decide, by decide, by decide, by decide,
    MakePacketDuration_undefined.1, MakePacketDuration_undefined.2⟩

/-- C22: the duration of the packets built by `MakePacket` of the VP8 and of the AVC
encoder is the value computed from the output context alone, the same for every
packet of the codec. It is 0 when the time base denominator `den` is 0, and,
whenever the conversion to `int64_t` is defined, not negative when `den` is not
negative. When `|den|` is at most `2^24` and the frame
rate `fnum / fden` is positive with `|den| * fden` at most `2^prec` (`prec` the
precision of the division: 24 for `float`, 53 for `double`), which holds for
every frame rate that is a whole number, the duration is `den` divided by the
frame rate, cut off toward zero. -/
theorem synthesized_duration (prec : Nat) (ctx : OutputContext)
    (hprec : prec = 24 ∨ prec = 53) :
    (∀ packet : AVPacket, (MakePacketVP8 prec ctx packet).map (fun p => p.duration) =
        MakePacketDuration prec ctx.time_base_den ctx.frame_rate_num ctx.frame_rate_den) ∧
      (∀ packet : AVPacket, (MakePacketAVC prec ctx packet).map (fun p => p.duration) =
        MakePacketDuration prec ctx.time_base_den ctx.frame_rate_num ctx.frame_rate_den) ∧
      (ctx.time_base_den = 0 →
        MakePacketDuration prec ctx.time_base_den ctx.frame_rate_num ctx.frame_rate_den =
          some 0) ∧
      (0 ≤ ctx.time_base_den →
        ∀ d, MakePacketDuration prec ctx.time_base_den ctx.frame_rate_num
          ctx.frame_rate_den = some d → 0 ≤ d) ∧
      (ctx.time_base_den ≠ 0 → ctx.time_base_den.natAbs ≤ 2 ^ 24 →
        0 < ctx.frame_rate_num → 0 < ctx.frame_rate_den →
        ctx.time_base_den.natAbs * ctx.frame_rate_den ≤ 2 ^ prec →
        MakePacketDuration prec ctx.time_base_den ctx.frame_rate_num ctx.frame_rate_den =
          some (Int.tdiv (ctx.time_base_den * ctx.frame_rate_den) ctx.frame_rate_num)) ∧
      (ctx.time_base_den ≠ 0 → ctx.time_base_den.natAbs ≤ 2 ^ 24 →
        0 < ctx.frame_rate_num → ctx.frame_rate_den = 1 →
        MakePacketDuration prec ctx.time_base_den ctx.frame_rate_num ctx.frame_rate_den =
          some (Int.tdiv ctx.time_base_den ctx.frame_rate_num)) := by
  have hp1 : 1 ≤ prec := by omega
  have hp2 : prec ≤ 62 := by omega
  have h24 : (2 : Nat) ^ 24 ≤ 2 ^ prec := Nat.pow_le_pow_right (by decide) (by omega)
  have hnn := MakePacketDuration_nonneg prec ctx.time_base_den ctx.frame_rate_num
    ctx.frame_rate_den
  have hexact : ctx.time_base_den ≠ 0 → ctx.time_base_den.natAbs ≤ 2 ^ 24 →
      0 < ctx.frame_rate_num → 0 < ctx.frame_rate_den →
      ctx.time_base_den.natAbs * ctx.frame_rate_den ≤ 2 ^ prec →
      MakePacketDuration prec ctx.time_base_den ctx.frame_rate_num ctx.frame_rate_den =
        some (Int.tdiv (ctx.time_base_den * ctx.frame_rate_den) ctx.frame_rate_num) := by
    intro h1 h2 h3 h4 h5
    rw [MakePacketDuration_exact prec _ _ _ hp1 hp2 h1 h2 h3 h4 h5, tdiv_sign_natAbs]
  refine ⟨?_, ?_, hnn.1, hnn.2, hexact, ?_⟩
  · intro packet
    unfold MakePacketVP8
    cases MakePacketDuration prec ctx.time_base_den ctx.frame_rate_num
      ctx.frame_rate_den <;> rfl
  · intro packet
    obtain ⟨h, hh⟩ := MakePacketFragments_isSome packet.data packet.flags
    unfold MakePacketAVC
    rw [hh]
    cases MakePacketDuration prec ctx.time_base_den ctx.frame_rate_num
      ctx.frame_rate_den <;> rfl
  · intro h1 h2 h3 h4
    have := hexact h1 h2 h3 (by omega) (by rw [h4]; omega)
    rw [this, h4]
    simp

/-- C22, the example of the claim: with the time base denominator 90000 and the
frame rate 30 the duration is 3000, in `double` and in `float`. -/
theorem synthesized_duration_witness :
    MakePacketDuration 53 90000 30 1 = some 3000 ∧
      MakePacketDuration 24 90000 30 1 = some 3000 :=
  ⟨((synthesized_duration 53
      { time_base_den := 90000, frame_rate_num := 30, frame_rate_den := 1 }
      (Or.inr rfl)).2.2.2.2.2 (by decide) (by decide) (by decide) rfl).trans (by decide),
    ((synthesized_duration 24
      { time_base_den := 90000, frame_rate_num := 30, frame_rate_den := 1 }
      (Or.inl rfl)).2.2.2.2.2 (by decide) (by decide) (by decide) rfl).trans (by decide)⟩

/-! ## Theorems: further scenarios -/

/-- C2, the counterexample: the client `1.2.3.4` is admitted with the unexpired token
of session `S1`, then the client `5.6.7.8` is admitted with the same token, which
overwrites the entry stored under `S1`. No sweep has run and the table still
holds an entry under `S1`, yet the expired token of `S1` (stream window open,
client allowed, URL matching) from `1.2.3.4` is now rejected. -/
theorem overwritten_entry_ends_grace :
    (HandleSignedUrl sharedEnv [] "app".toList "s".toList
        (demoClient "1.2.3.4" "/app/s/idx.m3u8?rtspURI=cam1&t=fresh")
        (demoUrl [("rtspURI".toList, "cam1".toList), ("t".toList, "fresh".toList)])).ok =
        true ∧
      (HandleSignedUrl sharedEnv sharedTableA "app".toList "s".toList
        (demoClient "5.6.7.8" "/app/s/idx.m3u8?rtspURI=cam1&t=fresh")
        (demoUrl [("rtspURI".toList, "cam1".toList), ("t".toList, "fresh".toList)])).ok =
        true ∧
      (mapFind sharedTableA "S1".toList).map (fun e => e.ip_address) =
        some "1.2.3.4".toList ∧
      (mapFind sharedTableB "S1".toList).map (fun e => e.ip_address) =
        some "5.6.7.8".toList ∧
      (sharedToken true).token_expired = true ∧
      (sharedToken true).stream_expired = false ∧
      (sharedToken true).allowed_client { ip_address := "1.2.3.4".toList, port := 50000 } =
        true ∧
      (HandleSignedUrl sharedEnv sharedTableA "app".toList "s".toList
        (demoClient "1.2.3.4" "/app/s/idx.m3u8?rtspURI=cam1&t=stale")
        (demoUrl [("rtspURI".toList, "cam1".toList), ("t".toList, "stale".toList)])).ok =
        true ∧
      (HandleSignedUrl sharedEnv sharedTableB "app".toList "s".toList
        (demoClient "1.2.3.4" "/app/s/idx.m3u8?rtspURI=cam1&t=stale")
        (demoUrl [("rtspURI".toList, "cam1".toList), ("t".toList, "stale".toList)])).ok =
        false := by
  decide

/-- C12, the counterexample: for the segment `empty.ts`, whose data pointer is set
but whose data has no bytes, `OnSegmentRequest` returns true, hands the segment
back and records a `SegmentRequestInfo` in the table. -/
theorem empty_segment_is_served :
    (OnSegmentRequest demoEmptySegmentEnv { table := [], connected := [] }
        { ip_address := "1.2.3.4".toList, port := 50000 }
        "app".toList "s".toList "empty.ts".toList none).ret = true ∧
      (OnSegmentRequest demoEmptySegmentEnv { table := [], connected := [] }
        { ip_address := "1.2.3.4".toList, port := 50000 }
        "app".toList "s".toList "empty.ts".toList none).segment =
        some { sequence_number := 9, duration := 5, data := some [] } ∧
      (OnSegmentRequest demoEmptySegmentEnv { table := [], connected := [] }
        { ip_address := "1.2.3.4".toList, port := 50000 }
        "app".toList "s".toList "empty.ts".toList none).state.table =
        [("1.2.3.4".toList,
          SegmentRequestInfo.create 4 demoStreamSegments.info "1.2.3.4".toList 9 5 100)] := by
  decide

end OME
